import Mathlib

/-!
Verification of the YomisubAPI language kernel against its specification.

The development shallowly embeds the Python sources of the repository:

* `src/services/verb.py` — the verb conjugation / deconjugation engine
  (`conjugate`, `conjugate_auxiliaries`, `deconjugate_verb`);
* `src/services/conjugation/phrases.py` — the compound grammar-phrase
  catalogue and the longest-match phrase matcher;
* `src/services/conjugation/helpers.py` — the English translation-hint
  generator;
* `src/services/jmdict.py` — the scored dictionary entry selection.

Python runtime errors are modelled explicitly: `ValueError` (raised and
caught throughout the engine), `IndexError` (raised by `s[-1]` / `l[0]` on
empty data, never caught), and `AttributeError` (raised when an attribute
lookup fails, e.g. on a missing enum member).  Fallible code runs in the
`Py` monad.  Error messages carried by Python exceptions are elided; only
the exception class matters to control flow.
-/

set_option maxRecDepth 8000

set_option maxHeartbeats 4000000

inductive PyErr : Type where
  | valueError : PyErr
  | indexError : PyErr
  | attributeError : PyErr
deriving DecidableEq, Repr

/-- Computations that may raise a Python exception. -/
abbrev Py (α : Type) : Type := Except PyErr α

deriving instance DecidableEq for Except

/-- Python `s[-1]`: the last character of a string, `IndexError` when empty. -/
def pyLastChar (s : String) : Py Char :=
  match s.data.getLast? with
  | some c => .ok c
  | none => .error .indexError

/-- Python `s[:-n]` for `n ≥ 1`: drop the last `n` characters (total). -/
def dropRightN (s : String) (n : Nat) : String :=
  ⟨s.data.take (s.data.length - n)⟩

/-- Python `l[0]`: the head of a list, `IndexError` when empty. -/
def pyHead {α : Type} (l : List α) : Py α :=
  match l with
  | [] => .error .indexError
  | x :: _ => .ok x

/-- Python `s.endswith(t)`. -/
def pyEndsWith (s t : String) : Bool :=
  t.data.isSuffixOf s.data

/-- Python `s.startswith(t)`. -/
def pyStartsWith (s t : String) : Bool :=
  t.data.isPrefixOf s.data

/-- Append a single character to a string. -/
def pushChar (s : String) (c : Char) : String :=
  ⟨s.data ++ [c]⟩

/-!
Enumerations from `src/services/verb.py`.  `Conjugation` and `Auxiliary`
are Python `StrEnum`s; member order matters because `deconjugate_verb`
iterates `for conj in Conjugation` / `for aux in Auxiliary`.
-/

/-- Base verb conjugation forms (活用形), from `class Conjugation`. -/
inductive Conjugation : Type where
  | negative | conjunctive | dictionary | conditional | imperative
  | volitional | te | ta | tara | tari | zu | nu
deriving DecidableEq, Repr

/-- Declaration order of `Conjugation`, as iterated by Python. -/
def Conjugation.all : List Conjugation :=
  [.negative, .conjunctive, .dictionary, .conditional, .imperative,
   .volitional, .te, .ta, .tara, .tari, .zu, .nu]

/-- Auxiliary verb constructions (助動詞), from `class Auxiliary`.
Note the enumeration has no `NASAI` member. -/
inductive Auxiliary : Type where
  | potential | masu | nai | tai | tagaru | hoshii | rashii
  | soudaHearsay | soudaConjecture
  | seruSaseru | shortenedCausative | reruRareru
  | causativePassive | shortenedCausativePassive
  | ageru | sashiageru | yaru | morau | itadaku | kureru | kudasaru
  | teIru | teAru | miru | iku | kuru | oku | shimau | teOru
  | sugiru | yasui | nikui
  | hajimeru | owaru | tsuzukeru | dasu
  | garu | souAppearance
deriving DecidableEq, Repr

/-- Declaration order of `Auxiliary`, as iterated by Python. -/
def Auxiliary.all : List Auxiliary :=
  [.potential, .masu, .nai, .tai, .tagaru, .hoshii, .rashii,
   .soudaHearsay, .soudaConjecture,
   .seruSaseru, .shortenedCausative, .reruRareru,
   .causativePassive, .shortenedCausativePassive,
   .ageru, .sashiageru, .yaru, .morau, .itadaku, .kureru, .kudasaru,
   .teIru, .teAru, .miru, .iku, .kuru, .oku, .shimau, .teOru,
   .sugiru, .yasui, .nikui,
   .hajimeru, .owaru, .tsuzukeru, .dasu,
   .garu, .souAppearance]

/-- Hiragana vowel lookup table, from `_HIRAGANA_TABLE`:
base character to the five vowel-row characters [あ段, い段, う段, え段, お段]. -/
def hiraganaTable (base : Char) : Option (Char × Char × Char × Char × Char) :=
  match base with
  | 'う' => some ('わ', 'い', 'う', 'え', 'お')
  | 'く' => some ('か', 'き', 'く', 'け', 'こ')
  | 'ぐ' => some ('が', 'ぎ', 'ぐ', 'げ', 'ご')
  | 'す' => some ('さ', 'し', 'す', 'せ', 'そ')
  | 'ず' => some ('ざ', 'じ', 'ず', 'ぜ', 'ぞ')
  | 'つ' => some ('た', 'ち', 'つ', 'て', 'と')
  | 'づ' => some ('だ', 'ぢ', 'づ', 'で', 'ど')
  | 'ぬ' => some ('な', 'に', 'ぬ', 'ね', 'の')
  | 'ふ' => some ('は', 'ひ', 'ふ', 'へ', 'ほ')
  | 'ぶ' => some ('ば', 'び', 'ぶ', 'べ', 'ぼ')
  | 'ぷ' => some ('ぱ', 'ぴ', 'ぷ', 'ぺ', 'ぽ')
  | 'む' => some ('ま', 'み', 'む', 'め', 'も')
  | 'る' => some ('ら', 'り', 'る', 'れ', 'ろ')
  | _ => none

/-- Project one of the five columns out of a table row. -/
def pickRow (row : Char × Char × Char × Char × Char) (idx : Fin 5) : Char :=
  match idx with
  | 0 => row.1
  | 1 => row.2.1
  | 2 => row.2.2.1
  | 3 => row.2.2.2.1
  | 4 => row.2.2.2.2

/-- Hiragana vowel-row lookup, from `_lookup_hiragana`: `ValueError` on an
unknown base character. -/
def lookupHiragana (base : Char) (idx : Fin 5) : Py Char :=
  match hiraganaTable base with
  | none => .error .valueError
  | some row => .ok (pickRow row idx)

/-- Te/Ta sound-change table, from `_TE_TA_FORMS`:
final character to (te, ta, tara, tari) endings. -/
def teTaForms (c : Char) : Option (String × String × String × String) :=
  match c with
  | 'く' => some ("いて", "いた", "いたら", "いたり")
  | 'ぐ' => some ("いで", "いだ", "いだら", "いだり")
  | 'す' => some ("して", "した", "したら", "したり")
  | 'ぬ' => some ("んで", "んだ", "んだら", "んだり")
  | 'ぶ' => some ("んで", "んだ", "んだら", "んだり")
  | 'む' => some ("んで", "んだ", "んだら", "んだり")
  | 'つ' => some ("って", "った", "ったら", "ったり")
  | 'る' => some ("って", "った", "ったら", "ったり")
  | 'う' => some ("って", "った", "ったら", "ったり")
  | _ => none

/-- Project one of the four te/ta variants out of a table row. -/
def pickTeTa (row : String × String × String × String) (idx : Fin 4) : String :=
  match idx with
  | 0 => row.1
  | 1 => row.2.1
  | 2 => row.2.2.1
  | 3 => row.2.2.2

/-- Special case verbs, from `_SPECIAL_CASES`; `some` exactly when
`verb in _SPECIAL_CASES and conj in _SPECIAL_CASES[verb]`. -/
def specialCases (verb : String) (conj : Conjugation) : Option String :=
  if verb = "ある" then
    match conj with
    | .negative => some ""
    | _ => none
  else if verb = "ござる" then
    match conj with
    | .conjunctive => some "ござい"
    | _ => none
  else if verb = "いらっしゃる" then
    match conj with
    | .conjunctive => some "いらっしゃい"
    | .conditional => some "いらっしゃい"
    | .imperative => some "いらっしゃい"
    | _ => none
  else none

/-- Conjugation-to-column mapping for godan verbs, from `_CONJ_TO_INDEX`. -/
def conjToIndex (conj : Conjugation) : Option (Fin 5) :=
  match conj with
  | .negative => some 0
  | .zu => some 0
  | .nu => some 0
  | .conjunctive => some 1
  | .dictionary => some 2
  | .conditional => some 3
  | .volitional => some 4
  | _ => none

/-- Te/Ta variant index, from the dict literal inside `_conjugate_type1`. -/
def teTaIdx (conj : Conjugation) : Option (Fin 4) :=
  match conj with
  | .te => some 0
  | .ta => some 1
  | .tara => some 2
  | .tari => some 3
  | _ => none

/-- Conjugation table of する, from `_conjugate_suru`. -/
def conjugate_suru (conj : Conjugation) : Py (List String) :=
  match conj with
  | .negative => .ok ["し"]
  | .conjunctive => .ok ["し"]
  | .dictionary => .ok ["する"]
  | .conditional => .ok ["すれ"]
  | .imperative => .ok ["しろ", "せよ"]
  | .volitional => .ok ["しよう"]
  | .te => .ok ["して"]
  | .ta => .ok ["した"]
  | .tara => .ok ["したら"]
  | .tari => .ok ["したり"]
  | .zu => .ok ["せず"]
  | .nu => .ok ["せぬ"]

/-- Conjugation table of くる/来る, from `_conjugate_kuru`. -/
def conjugate_kuru (verb : String) (conj : Conjugation) : Py (List String) :=
  let pfx : String := if pyStartsWith verb "来" then "来" else ""
  match conj with
  | .negative => .ok [pfx ++ "こ"]
  | .zu => .ok [pfx ++ "こ"]
  | .nu => .ok [pfx ++ "こ"]
  | .conjunctive => .ok [pfx ++ "き"]
  | .dictionary => .ok [pfx ++ "くる"]
  | .conditional => .ok [pfx ++ "くれ"]
  | .imperative => .ok [pfx ++ "こい"]
  | .volitional => .ok [pfx ++ "こよう"]
  | .te => .ok [pfx ++ "きて"]
  | .ta => .ok [pfx ++ "きた"]
  | .tara => .ok [pfx ++ "きたら"]
  | .tari => .ok [pfx ++ "きたり"]

/-- Conjugation table of だ, from `_conjugate_da`. -/
def conjugate_da (conj : Conjugation) : Py (List String) :=
  match conj with
  | .negative => .ok ["でない", "ではない", "じゃない"]
  | .dictionary => .ok ["だ"]
  | .conditional => .ok ["なら"]
  | .te => .ok ["で"]
  | .ta => .ok ["だった"]
  | .tara => .ok ["だったら"]
  | .tari => .ok ["だったり"]
  | _ => .error .valueError

/-- Conjugation table of です, from `_conjugate_desu`. -/
def conjugate_desu (conj : Conjugation) : Py (List String) :=
  match conj with
  | .negative => .ok ["でありません", "ではありません"]
  | .dictionary => .ok ["です"]
  | .te => .ok ["でして"]
  | .ta => .ok ["でした"]
  | .tara => .ok ["でしたら"]
  | .tari => .ok ["でしたり"]
  | _ => .error .valueError

/-- Type I (godan) conjugation, from `_conjugate_type1`. -/
def conjugate_type1 (verb : String) (conj : Conjugation) : Py (List String) :=
  if verb = "する" then conjugate_suru conj
  else if verb = "くる" ∨ verb = "来る" then conjugate_kuru verb conj
  else if verb = "だ" then conjugate_da conj
  else if verb = "です" then conjugate_desu conj
  else if pyEndsWith verb "くださる" then
    if conj = .dictionary then .ok [verb]
    else if conj = .conjunctive then .ok [dropRightN verb 2 ++ "さい"]
    else .error .valueError
  else
    match specialCases verb conj with
    | some s => .ok [s]
    | none =>
      match pyLastChar verb with
      | .error e => .error e
      | .ok tail =>
        match conjToIndex conj with
        | some idx =>
          if tail = 'う' ∧ idx.val = 0 then .ok [dropRightN verb 1 ++ "わ"]
          else
            match lookupHiragana tail idx with
            | .error e => .error e
            | .ok c => .ok [pushChar (dropRightN verb 1) c]
        | none =>
          if conj = .imperative then
            match lookupHiragana tail 3 with
            | .error e => .error e
            | .ok c => .ok [pushChar (dropRightN verb 1) c]
          else
            match teTaIdx conj with
            | some i =>
              match teTaForms
                  (if verb = "行く" ∨ verb = "いく" then 'つ' else tail) with
              | none => .error .valueError
              | some row => .ok [dropRightN verb 1 ++ pickTeTa row i]
            | none => .error .valueError

/-- Type II (ichidan) conjugation, from `_conjugate_type2`. -/
def conjugate_type2 (verb : String) (conj : Conjugation) : Py (List String) :=
  if verb = "する" then conjugate_suru conj
  else if verb = "くる" ∨ verb = "来る" then conjugate_kuru verb conj
  else if verb = "だ" then conjugate_da conj
  else if verb = "です" then conjugate_desu conj
  else
    match conj with
    | .negative => .ok [dropRightN verb 1]
    | .zu => .ok [dropRightN verb 1]
    | .nu => .ok [dropRightN verb 1]
    | .conjunctive => .ok [dropRightN verb 1]
    | .dictionary => .ok [verb]
    | .conditional => .ok [dropRightN verb 1 ++ "れ"]
    | .imperative => .ok [dropRightN verb 1 ++ "ろ", dropRightN verb 1 ++ "よ"]
    | .volitional => .ok [dropRightN verb 1 ++ "よう"]
    | .te => .ok [dropRightN verb 1 ++ "て"]
    | .ta => .ok [dropRightN verb 1 ++ "た"]
    | .tara => .ok [dropRightN verb 1 ++ "たら"]
    | .tari => .ok [dropRightN verb 1 ++ "たり"]

/-- Conjugation without added suffixes, from `_conjugate_strict`.
Python evaluates `verb[-1]` before testing `type2`, so the empty verb is an
`IndexError` regardless of the flag. -/
def conjugate_strict (verb : String) (conj : Conjugation) (type2 : Bool) :
    Py (List String) :=
  match pyLastChar verb with
  | .error e => .error e
  | .ok c =>
    if c = 'る' ∧ type2 then conjugate_type2 verb conj
    else conjugate_type1 verb conj

/-- Main conjugation entry point, from `conjugate`: strict conjugation plus
the appropriate complete-suffix forms appended at the end of the list. -/
def conjugate (verb : String) (conj : Conjugation) (type2 : Bool) :
    Py (List String) :=
  match conjugate_strict verb conj type2 with
  | .error e => .error e
  | .ok result =>
    if (conj = .negative ∨ conj = .zu ∨ conj = .nu) ∧
        ¬(verb = "だ" ∨ verb = "です") then
      match pyHead result with
      | .error e => .error e
      | .ok h =>
        if conj = .negative then .ok (result ++ [h ++ "ない"])
        else if conj = .zu then .ok (result ++ [h ++ "ず"])
        else .ok (result ++ [h ++ "ぬ"])
    else if conj = .conjunctive then
      match pyHead result with
      | .error e => .error e
      | .ok h => .ok (result ++ [h ++ "ます"])
    else if conj = .conditional then
      match pyHead result with
      | .error e => .error e
      | .ok h => .ok (result ++ [h ++ "ば"])
    else if conj = .volitional then
      match pyHead result with
      | .error e => .error e
      | .ok h => .ok (result ++ [h ++ "う"])
    else .ok result

example : conjugate "食べる" .negative true = .ok ["食べ", "食べない"] := rfl

example : conjugate "書く" .te false = .ok ["書いて"] := rfl

example : conjugate "行く" .ta false = .ok ["行った"] := rfl

example : conjugate "ある" .negative false = .ok ["", "ない"] := rfl

/-- Monadic bind for `Py`, written out so proofs can unfold it directly. -/
def pyBind {α β : Type} (x : Py α) (f : α → Py β) : Py β :=
  match x with
  | .error e => .error e
  | .ok a => f a

/-- Map a fallible function over a list, concatenating the results in
order; this is Python's pattern `for v in vs: out.extend(f(v))`. -/
def pyFlatMapM {α β : Type} (f : α → Py (List β)) : List α → Py (List β)
  | [] => .ok []
  | x :: xs =>
    pyBind (f x) fun l =>
      pyBind (pyFlatMapM f xs) fun r =>
        .ok (l ++ r)

/-- Endings attached to the te-form by the giving/receiving and
aspect/direction auxiliaries, from the `endings` dict literal inside
`_conjugate_auxiliary`.  Returns `none` for auxiliaries outside that
match arm. -/
def teGroupEndings (aux : Auxiliary) : Option (List String) :=
  match aux with
  | .ageru => some ["あげる"]
  | .sashiageru => some ["差し上げる", "さしあげる"]
  | .yaru => some ["やる"]
  | .morau => some ["もらう"]
  | .itadaku => some ["いただく"]
  | .kureru => some ["くれる"]
  | .kudasaru => some ["くださる"]
  | .teIru => some ["いる", "る"]
  | .teAru => some ["ある"]
  | .miru => some ["みる"]
  | .iku => some ["いく"]
  | .kuru => some ["くる"]
  | .oku => some ["おく"]
  | .teOru => some ["おる"]
  | _ => none

/-- Auxiliaries whose te-group compound re-conjugates as ichidan, from the
`ending_type2` tuple inside `_conjugate_auxiliary`. -/
def teGroupType2 (aux : Auxiliary) : Bool :=
  match aux with
  | .ageru | .sashiageru | .kureru | .teIru | .miru => true
  | _ => false

/-- Single-auxiliary application, from `_conjugate_auxiliary`.  The Python
function calls itself (RASHII negative uses NAI; the causative-passives
use the causatives); the recursion depth is at most one, so it is embedded
with a fuel parameter whose exhaustion case is unreachable for fuel ≥ 2. -/
def conjugate_auxiliary_fuel :
    Nat → String → Auxiliary → Conjugation → Bool → Py (List String)
  | 0, _, _, _, _ => .error .valueError
  | n + 1, verb, aux, conj, type2 =>
    match aux with
    | .potential =>
      pyBind
        (if type2 then pyBind (conjugate_type2 verb .conditional) pyHead
         else pyBind (conjugate_type1 verb .conditional) pyHead)
        fun stem =>
          conjugate (stem ++ "る") conj true
    | .masu =>
      pyBind (pyBind (conjugate verb .conjunctive type2) pyHead) fun base =>
        match conj with
        | .negative => .ok [base ++ "ません", base ++ "ませんでした"]
        | .dictionary => .ok [base ++ "ます"]
        | .conditional => .ok [base ++ "ますれば"]
        | .imperative => .ok [base ++ "ませ", base ++ "まし"]
        | .volitional => .ok [base ++ "ましょう"]
        | .te => .ok [base ++ "まして"]
        | .ta => .ok [base ++ "ました"]
        | .tara => .ok [base ++ "ましたら"]
        | _ => .error .valueError
    | .nai =>
      pyBind (pyBind (conjugate verb .negative type2) pyHead) fun base =>
        match conj with
        | .negative => .ok [base ++ "なくはない"]
        | .conjunctive => .ok [base ++ "なく"]
        | .dictionary => .ok [base ++ "ない"]
        | .conditional => .ok [base ++ "なければ"]
        | .te => .ok [base ++ "なくて", base ++ "ないで"]
        | .ta => .ok [base ++ "なかった"]
        | .tara => .ok [base ++ "なかったら"]
        | _ => .error .valueError
    | .tai =>
      pyBind (pyBind (conjugate verb .conjunctive type2) pyHead) fun base =>
        match conj with
        | .negative => .ok [base ++ "たくない"]
        | .conjunctive => .ok [base ++ "たく"]
        | .dictionary => .ok [base ++ "たい"]
        | .conditional => .ok [base ++ "たければ"]
        | .te => .ok [base ++ "たくて"]
        | .ta => .ok [base ++ "たかった"]
        | .tara => .ok [base ++ "たかったら"]
        | _ => .error .valueError
    | .tagaru =>
      if conj = .conditional ∨ conj = .imperative ∨ conj = .volitional ∨
          conj = .tari then .error .valueError
      else
        pyBind (conjugate verb .conjunctive type2) fun bases =>
          pyBind (conjugate "たがる" conj false) fun tagaruConj =>
            pyBind (pyHead bases) fun b0 =>
              .ok (tagaruConj.map fun suffix => b0 ++ suffix)
    | .hoshii =>
      pyBind (pyBind (conjugate verb .te type2) pyHead) fun base =>
        match conj with
        | .negative => .ok [base ++ "ほしくない"]
        | .conjunctive => .ok [base ++ "ほしく"]
        | .dictionary => .ok [base ++ "ほしい"]
        | .conditional => .ok [base ++ "ほしければ"]
        | .te => .ok [base ++ "ほしくて"]
        | .ta => .ok [base ++ "ほしかった"]
        | .tara => .ok [base ++ "ほしかったら"]
        | _ => .error .valueError
    | .rashii =>
      pyBind (pyBind (conjugate verb .ta type2) pyHead) fun base1 =>
        let bases := [base1, verb]
        match conj with
        | .negative =>
          pyBind
            (pyBind (conjugate_auxiliary_fuel n verb .nai .dictionary false)
              pyHead)
            fun neg => .ok [neg ++ "らしい"]
        | .conjunctive => .ok (bases.map fun b => b ++ "らしく")
        | .dictionary => .ok (bases.map fun b => b ++ "らしい")
        | .te => .ok (bases.map fun b => b ++ "らしくて")
        | _ => .error .valueError
    | .soudaHearsay =>
      pyBind (pyBind (conjugate verb .ta type2) pyHead) fun base1 =>
        match conj with
        | .dictionary => .ok [base1 ++ "そうだ", verb ++ "そうだ"]
        | _ => .error .valueError
    | .soudaConjecture =>
      pyBind (pyBind (conjugate verb .conjunctive type2) pyHead) fun base =>
        match conj with
        | .dictionary => .ok [base ++ "そうだ", base ++ "そうです"]
        | .conditional => .ok [base ++ "そうなら"]
        | .ta => .ok [base ++ "そうだった", base ++ "そうでした"]
        | _ => .error .valueError
    | .seruSaseru =>
      if conj = .tara ∨ conj = .tari then .error .valueError
      else
        pyBind
          (if verb = "来る" ∨ verb = "くる" then
            let pfx : String := if pyStartsWith verb "来" then "来" else "こ"
            .ok (pfx ++ "させる")
          else if verb = "する" then .ok "させる"
          else if type2 then
            pyBind (pyBind (conjugate_type2 verb .negative) pyHead) fun s =>
              .ok (s ++ "させる")
          else
            pyBind (pyBind (conjugate_type1 verb .negative) pyHead) fun s =>
              .ok (s ++ "せる"))
          fun newVerb => conjugate newVerb conj true
    | .shortenedCausative =>
      if conj = .tara ∨ conj = .tari then .error .valueError
      else
        pyBind
          (if verb = "来る" ∨ verb = "くる" then
            let pfx : String := if pyStartsWith verb "来" then "来" else "こ"
            .ok (pfx ++ "させる")
          else if verb = "する" then .ok "させる"
          else if type2 then
            pyBind (pyBind (conjugate_type2 verb .negative) pyHead) fun s =>
              .ok (s ++ "させる")
          else
            pyBind (pyBind (conjugate_type1 verb .negative) pyHead) fun s =>
              .ok (s ++ "せる"))
          fun newVerb => conjugate (dropRightN newVerb 2 ++ "す") conj false
    | .reruRareru =>
      if conj = .imperative ∨ conj = .volitional ∨ conj = .tara ∨
          conj = .tari then .error .valueError
      else
        pyBind
          (if verb = "来る" ∨ verb = "くる" then
            let pfx : String := if pyStartsWith verb "来" then "来" else "こ"
            .ok (pfx ++ "られる")
          else if verb = "する" then .ok "される"
          else if type2 then
            pyBind (pyBind (conjugate_type2 verb .negative) pyHead) fun s =>
              .ok (s ++ "られる")
          else
            pyBind (pyBind (conjugate_type1 verb .negative) pyHead) fun s =>
              .ok (s ++ "れる"))
          fun newVerb => conjugate newVerb conj true
    | .causativePassive =>
      pyBind
        (pyBind (conjugate_auxiliary_fuel n verb .seruSaseru .negative type2)
          pyHead)
        fun causative => conjugate (causative ++ "られる") conj true
    | .shortenedCausativePassive =>
      pyBind
        (pyBind
          (conjugate_auxiliary_fuel n verb .shortenedCausative .negative type2)
          pyHead)
        fun causative => conjugate (causative ++ "れる") conj true
    | .shimau =>
      pyBind (pyBind (conjugate verb .te type2) pyHead) fun vte =>
        pyBind (conjugate (vte ++ "しまう") conj false) fun shimauForms =>
          let noTe := dropRightN vte 1
          if pyEndsWith vte "て" then
            pyBind (conjugate (noTe ++ "ちゃう") conj false) fun chau =>
              pyBind (conjugate (noTe ++ "ちまう") conj false) fun chimau =>
                .ok (shimauForms ++ chau ++ chimau)
          else
            pyBind (conjugate (noTe ++ "じまう") conj false) fun jimau =>
              pyBind (conjugate (noTe ++ "ぢまう") conj false) fun dimau =>
                .ok (shimauForms ++ jimau ++ dimau)
    | _ =>
      match teGroupEndings aux with
      | none => .error .valueError
      | some endings =>
        pyBind (pyBind (conjugate verb .te type2) pyHead) fun vte =>
          if aux = .kuru then
            pyBind (conjugate "くる" conj false) fun kuruForms =>
              .ok (kuruForms.map fun suffix => vte ++ suffix)
          else
            let newVerbs := endings.map fun e => vte ++ e
            pyBind
              (if aux = .oku then
                pyBind (pyLastChar vte) fun c =>
                  .ok (newVerbs ++
                    [dropRightN vte 1 ++ (if c = 'で' then "どく" else "とく")])
              else if aux = .iku then .ok (newVerbs ++ [vte ++ "く"])
              else .ok newVerbs)
              fun allVerbs =>
                pyFlatMapM (fun v => conjugate v conj (teGroupType2 aux))
                  allVerbs

/-- Single-auxiliary application at sufficient fuel. -/
def conjugate_auxiliary (verb : String) (aux : Auxiliary)
    (conj : Conjugation) (type2 : Bool) : Py (List String) :=
  conjugate_auxiliary_fuel 2 verb aux conj type2

example :
    conjugate_auxiliary "食べる" .potential .dictionary true =
      .ok ["食べれる"] := rfl

example :
    conjugate_auxiliary "食べる" .reruRareru .dictionary true =
      .ok ["食べられる"] := rfl

example :
    conjugate_auxiliary "書く" .masu .ta false = .ok ["書きました"] := rfl

/-- Terminal-only auxiliaries, from the `final_only` tuple inside
`conjugate_auxiliaries`. -/
def finalOnlyAux (aux : Auxiliary) : Bool :=
  match aux with
  | .masu | .nai | .tai | .hoshii | .rashii | .soudaConjecture
  | .soudaHearsay => true
  | _ => false

/-- Auxiliaries after which the compound re-conjugates as ichidan, from
the `current_type2` update inside `conjugate_auxiliaries`. -/
def type2Setter (aux : Auxiliary) : Bool :=
  match aux with
  | .potential | .seruSaseru | .reruRareru | .causativePassive
  | .shortenedCausativePassive | .ageru | .sashiageru | .kureru | .miru
  | .teIru => true
  | _ => false

/-- Left fold over an auxiliary chain, from the `for i, aux in
enumerate(auxiliaries)` loop of `conjugate_auxiliaries`.  `prev` is the
previous auxiliary (`None` on the first iteration); `rest` empty marks the
final iteration, which receives the final conjugation. -/
def conjugate_aux_loop (finalConj : Conjugation) :
    Option Auxiliary → List String → Bool → List Auxiliary →
    Py (List String)
  | _, verbs, _, [] => .ok verbs
  | prev, verbs, curT2, aux :: rest =>
    let conj := if rest.isEmpty then finalConj else Conjugation.dictionary
    if rest.isEmpty = false ∧ finalOnlyAux aux then .error .valueError
    else
      pyBind
        (if prev = some Auxiliary.kuru then
          let heads := verbs.map fun s => dropRightN s 2
          pyBind (conjugate_auxiliary "くる" aux conj false) fun tails =>
            .ok (heads.flatMap fun h => tails.map fun t => h ++ t)
        else
          pyFlatMapM (fun v => conjugate_auxiliary v aux conj curT2) verbs)
        fun verbs' =>
          conjugate_aux_loop finalConj (some aux) verbs' (type2Setter aux) rest

/-- Chain conjugation, from `conjugate_auxiliaries`: empty chains defer to
`conjugate`; the copulas admit exactly the single-auxiliary NAI chains
spelled out in the source; other verbs run the left fold. -/
def conjugate_auxiliaries (verb : String) (auxiliaries : List Auxiliary)
    (finalConj : Conjugation) (type2 : Bool) : Py (List String) :=
  match auxiliaries with
  | [] => conjugate verb finalConj type2
  | _ =>
    if verb = "だ" ∨ verb = "です" then
      if auxiliaries = [Auxiliary.nai] then
        if finalConj = .ta then
          if verb = "だ" then .ok ["ではなかった", "じゃなかった"]
          else .ok ["ではありませんでした", "でありませんでした"]
        else if finalConj = .te ∧ verb = "だ" then .ok ["じゃなくて"]
        else if finalConj = .conjunctive ∧ verb = "だ" then .ok ["じゃなく"]
        else .error .valueError
      else .error .valueError
    else conjugate_aux_loop finalConj none [verb] type2 auxiliaries

example :
    conjugate_auxiliaries "食べる" [.reruRareru, .nai] .ta true =
      .ok ["食べられなかった"] := rfl

example :
    conjugate_auxiliaries "言う" [.reruRareru, .miru] .conditional false =
      .ok ["言われてみれ", "言われてみれば"] := rfl

/-- Result of verb deconjugation, from the dataclass `VerbDeconjugated`. -/
structure VerbDeconjugated : Type where
  auxiliaries : List Auxiliary
  conjugation : Conjugation
  result : List String
deriving DecidableEq, Repr

/-- Python `try: ... except ValueError: pass`: a `ValueError` is swallowed
(yielding `none`), other exceptions propagate. -/
def catchVE {α : Type} (x : Py α) : Py (Option α) :=
  match x with
  | .ok a => .ok (some a)
  | .error .valueError => .ok none
  | .error e => .error e

/-- One enumeration step of the deconjugation search: run the attempt,
swallow `ValueError`, record a hit when the surface is among the results. -/
def tryCombo (conjugated : String) (auxs : List Auxiliary)
    (c : Conjugation) (attempt : Py (List String)) :
    Py (List VerbDeconjugated) :=
  pyBind (catchVE attempt) fun r =>
    match r with
    | some result =>
      .ok (if conjugated ∈ result then [⟨auxs, c, result⟩] else [])
    | none => .ok []

/-- Depth-2 penultimate auxiliaries, from the `penultimates` list in
`deconjugate_verb`. -/
def penultimates : List Auxiliary :=
  [.ageru, .sashiageru, .yaru, .morau, .itadaku, .kureru,
   .kudasaru, .miru, .iku, .kuru, .oku, .shimau,
   .teIru, .teAru, .teOru, .potential, .reruRareru, .seruSaseru]

/-- Depth-2 final auxiliaries, from the `depth2_finals` list in
`deconjugate_verb`. -/
def depth2Finals : List Auxiliary :=
  [.masu, .soudaConjecture, .soudaHearsay, .teIru, .tai, .nai, .yaru,
   .miru, .oku, .shimau]

/-- Depth-3 antepenultimate auxiliaries, from the `antepenultimates` list
in `deconjugate_verb`. -/
def antepenultimates : List Auxiliary :=
  [.seruSaseru, .reruRareru, .itadaku]

/-- Depth-3 final auxiliaries, from the `depth3_finals` list in
`deconjugate_verb`. -/
def depth3Finals : List Auxiliary :=
  [.masu]

/-- Deconjugation search, from `deconjugate_verb`: brute-force enumeration
over closed sets at depths 0–3, each attempt guarded by
`try: ... except ValueError: pass`.  `max_aux_depth` is modelled as a
natural number; the source documents the callers' range as 0–3. -/
def deconjugate_verb (conjugated dictForm : String) (type2 : Bool)
    (maxAuxDepth : Nat) : Py (List VerbDeconjugated) :=
  pyBind
    (pyFlatMapM
      (fun c => tryCombo conjugated [] c (conjugate dictForm c type2))
      Conjugation.all)
    fun hits0 =>
  if maxAuxDepth < 1 then .ok hits0 else
  pyBind
    (pyFlatMapM
      (fun a =>
        pyFlatMapM
          (fun c =>
            tryCombo conjugated [a] c (conjugate_auxiliary dictForm a c type2))
          Conjugation.all)
      Auxiliary.all)
    fun hits1 =>
  if maxAuxDepth < 2 then .ok (hits0 ++ hits1) else
  pyBind
    (pyFlatMapM
      (fun p =>
        pyFlatMapM
          (fun f =>
            pyFlatMapM
              (fun c =>
                tryCombo conjugated [p, f] c
                  (conjugate_auxiliaries dictForm [p, f] c type2))
              Conjugation.all)
          depth2Finals)
      penultimates)
    fun hits2 =>
  if maxAuxDepth < 3 then .ok (hits0 ++ hits1 ++ hits2) else
  pyBind
    (pyFlatMapM
      (fun a3 =>
        pyFlatMapM
          (fun p =>
            pyFlatMapM
              (fun f =>
                pyFlatMapM
                  (fun c =>
                    tryCombo conjugated [a3, p, f] c
                      (conjugate_auxiliaries dictForm [a3, p, f] c type2))
                  Conjugation.all)
              depth3Finals)
          penultimates)
      antepenultimates)
    fun hits3 =>
  .ok (hits0 ++ hits1 ++ hits2 ++ hits3)

/-!
Compound grammar-phrase catalogue, from
`src/services/conjugation/phrases.py`.  Dictionaries are embedded as
insertion-ordered association lists; CPython dicts preserve insertion
order and `sorted` is stable, so the catalogue below is reproduced
exactly by mirroring those orders.
-/
/-- Conjugatable ending paradigms, from `ENDING_CONJUGATIONS` in
`src/services/conjugation/phrases.py`, in dict insertion order. -/
def ending_conjugations : List (String × List (String × String)) :=
  [("ない",
    [("ない", ""), ("ません", " (polite)"), ("なかった", " (past)"), ("ませんでした", " (polite past)"), ("なくて", " (te-form)")]),
    ("できる",
    [("できる", ""), ("できます", " (polite)"), ("できない", " (negative)"), ("できません", " (polite negative)"), ("できた", " (past)"), ("できました", " (polite past)"), ("できなかった", " (negative past)")]),
    ("ある",
    [("ある", ""), ("あります", " (polite)"), ("あった", " (past)"), ("ありました", " (polite past)"), ("ない", " (negative)"), ("ありません", " (polite negative)")]),
    ("いる",
    [("いる", ""), ("います", " (polite)"), ("いた", " (past)"), ("いました", " (polite past)"), ("いない", " (negative)"), ("いません", " (polite negative)")]),
    ("なる",
    [("なる", ""), ("なります", " (polite)"), ("なった", " (past)"), ("ならない", " (negative)"), ("なりません", " (polite negative)")]),
    ("する",
    [("する", ""), ("します", " (polite)"), ("した", " (past)"), ("しない", " (negative)"), ("しません", " (polite negative)")]),
    ("いい",
    [("いい", ""), ("いいです", " (polite)"), ("よかった", " (past)"), ("よくない", " (negative)")]),
    ("だ",
    [("だ", ""), ("です", " (polite)"), ("だった", " (past)"), ("でした", " (polite past)"), ("ではない", " (negative)"), ("じゃない", " (negative casual)")]),
    ("いけない",
    [("いけない", ""), ("いけません", " (polite)"), ("だめ", " (casual)")])]

/-- Base phrase patterns `(stem, ending_key, base_meaning)`, from
`PHRASE_BASES` in `src/services/conjugation/phrases.py`. -/
def phrase_bases : List (String × String × String) :=
  [("かもしれ", "ない", "might; may; possibly"),
    ("ことが", "できる", "can; be able to"),
    ("ことが", "ある", "sometimes; have experienced"),
    ("ことに", "する", "decide to"),
    ("ことに", "なる", "it's been decided; will end up"),
    ("ことは", "ない", "no need to; never happens"),
    ("はず", "だ", "should be; expected to"),
    ("はずが", "ない", "can't be; impossible"),
    ("わけが", "ない", "no way that; impossible"),
    ("わけでは", "ない", "doesn't mean that"),
    ("わけにはいか", "ない", "can't possibly; mustn't"),
    ("べき", "だ", "should; ought to"),
    ("べきでは", "ない", "should not"),
    ("つもり", "だ", "intend to; plan to"),
    ("ほうが", "いい", "had better; should"),
    ("ては", "いけない", "must not; may not"),
    ("ても", "いい", "may; it's okay to"),
    ("にちがい", "ない", "must be; no doubt"),
    ("にすぎ", "ない", "merely; nothing but"),
    ("とは限ら", "ない", "not necessarily; not always")]

/-- Hand-written compound phrase table, from the `COMPOUND_PHRASES` dict
literal in `src/services/conjugation/phrases.py` (before the compositional
merge and per-bucket sorting applied at module load), in insertion order. -/
def compound_phrases_base : List (String × List (String × String)) :=
  [("か",
    [("かどうか", "whether or not"),
     ("かのように", "as if; as though")]),
    ("こと",
    [("ことにする", "decide to"),
     ("ことになる", "it's been decided; will end up")]),
    ("な",
    [("なければならない", "must; have to"),
     ("なければいけない", "must; have to"),
     ("なければなりません", "must (polite)"),
     ("なくてはならない", "must; have to"),
     ("なくてはいけない", "must; have to"),
     ("ないといけない", "must; have to"),
     ("なきゃ", "must (casual)"),
     ("なくちゃ", "must (casual)"),
     ("ないわけにはいかない", "must; have no choice but to")]),
    ("なきゃ",
    [("なきゃいけない", "must; have to (casual)"),
     ("なきゃだめ", "must; have to (casual)"),
     ("なきゃならない", "must; have to (casual)")]),
    ("なくちゃ",
    [("なくちゃいけない", "must; have to (casual)"),
     ("なくちゃだめ", "must; have to (casual)"),
     ("なくちゃならない", "must; have to (casual)")]),
    ("と",
    [("といけない", "must (if not...)"),
     ("といけません", "must (polite)"),
     ("とだめ", "must; no good if not"),
     ("というのは", "what ~ means is"),
     ("ということだ", "it means that; I heard that"),
     ("というものだ", "that's what ~ is"),
     ("というわけだ", "that's why; so that means"),
     ("ところだ", "about to; just did"),
     ("ところだった", "was about to")]),
    ("て",
    [("てはいけない", "must not; may not"),
     ("てはいけません", "must not (polite)"),
     ("てはだめ", "must not (casual)"),
     ("てもいいですか", "may I...?"),
     ("ても", "even if; even though"),
     ("てからでないと", "not until after"),
     ("てたまらない", "unbearably; extremely"),
     ("てならない", "can't help but feel"),
     ("てばかりいる", "do nothing but")]),
    ("ては",
    [("てはだめ", "must not (casual)")]),
    ("は",
    [("はいけない", "must not"),
     ("はいけません", "must not (polite)"),
     ("はだめ", "must not (casual)")]),
    ("はず", []),
    ("ほう", []),
    ("ほど",
    [("ほど", "the more... the more")]),
    ("も",
    [("もいいですか", "may I...?")]),
    ("わけ",
    [("わけだ", "no wonder; that's why")]),
    ("べ", []),
    ("つもり", []),
    ("ば",
    [("ばよかった", "should have; wish I had"),
     ("ばいい", "should; ought to"),
     ("ばいいのに", "I wish; if only"),
     ("ばかり", "just; only; nothing but"),
     ("ばかりだ", "just did; only getting more"),
     ("ばかりでなく", "not only... but also")]),
    ("た",
    [("たばかり", "just did"),
     ("たことがある", "have done before"),
     ("たことがない", "have never done"),
     ("たほうがいい", "had better"),
     ("たらいい", "should; would be good if"),
     ("たらどう", "how about; why don't you")]),
    ("に",
    [("において", "in; at; regarding"),
     ("に対して", "towards; regarding"),
     ("について", "about; concerning"),
     ("によって", "by means of; depending on"),
     ("にとって", "for; to (someone)"),
     ("にしても", "even if; even though"),
     ("にしては", "for; considering"),
     ("に関して", "regarding; concerning"),
     ("に比べて", "compared to"),
     ("につれて", "as; in proportion to"),
     ("に従って", "in accordance with")]),
    ("の",
    [("のに", "although; even though"),
     ("ので", "because; since"),
     ("のだ", "it is that; the fact is"),
     ("のです", "it is that (polite)"),
     ("のではない", "it's not that")]),
    ("そ",
    [("そうだ", "I heard that; seems like"),
     ("そうです", "I heard that (polite)"),
     ("そうにない", "unlikely to; doesn't seem"),
     ("そうもない", "no sign of; unlikely")]),
    ("よ",
    [("ようにする", "to make sure to"),
     ("ようになる", "to come to; to become able"),
     ("ようとする", "try to; be about to"),
     ("ようがない", "no way to; cannot"),
     ("ようとしない", "refuses to; won't try to")]),
    ("ざ",
    [("ざるをえない", "can't help but; have to")]),
    ("し",
    [("しかない", "have no choice but to"),
     ("しかたがない", "can't be helped"),
     ("しかたない", "can't be helped (casual)")]),
    ("せ",
    [("せいだ", "because of (negative cause)"),
     ("せいで", "because of (negative cause)")]),
    ("お",
    [("おかげだ", "thanks to (positive cause)"),
     ("おかげで", "thanks to (positive cause)")]),
    ("ど",
    [("どころか", "far from; let alone"),
     ("どころではない", "not in a position to")]),
    ("き",
    [("きり", "only; since"),
     ("きりがない", "endless; no end to")]),
    ("だ",
    [("だけでなく", "not only... but also"),
     ("だけでは", "just... is not enough"),
     ("だろう", "probably; I think")]),
    ("ちゃ",
    [("ちゃう", "end up doing (casual)"),
     ("ちゃった", "ended up doing"),
     ("ちゃいけない", "must not (casual)"),
     ("ちゃだめ", "must not (casual)")]),
    ("じゃ",
    [("じゃない", "isn't; not"),
     ("じゃないですか", "isn't it?"),
     ("じゃん", "isn't it? (casual)")]),
    ("らしい",
    [("らしい", "seems like; apparently"),
     ("らしいです", "seems like (polite)")]),
    ("みたい",
    [("みたいだ", "seems like; looks like"),
     ("みたいです", "seems like (polite)"),
     ("みたいに", "like; as if"),
     ("みたいな", "like (adj)")]),
    ("っぽい",
    [("っぽい", "-ish; -like; tends to")]),
    ("ため",
    [("ために", "in order to; for the sake of"),
     ("ためだ", "because of; for")]),
    ("よう",
    [("ような", "like; such as"),
     ("ように", "so that; in order to"),
     ("ようだ", "seems like; appears"),
     ("ようです", "seems like (polite)")]),
    ("とおり",
    [("とおりに", "as; in accordance with"),
     ("とおりだ", "it's just as")]),
    ("かわり",
    [("かわりに", "instead of; in exchange for")]),
    ("たび",
    [("たびに", "every time; whenever")]),
    ("うち",
    [("うちに", "while; before"),
     ("うちは", "while; as long as")]),
    ("あいだ",
    [("あいだに", "while; during"),
     ("あいだは", "during the time")]),
    ("かぎり",
    [("かぎり", "as long as; to the extent"),
     ("かぎりでは", "as far as")]),
    ("ところ",
    [("ところで", "by the way"),
     ("ところだ", "about to; just did"),
     ("ところだった", "was about to")]),
    ("すぎ",
    [("すぎる", "too much; excessively"),
     ("すぎた", "was too much")]),
    ("やすい",
    [("やすい", "easy to do"),
     ("やすかった", "was easy to do")]),
    ("にくい",
    [("にくい", "hard to do; difficult to"),
     ("にくかった", "was hard to do")]),
    ("はじめ",
    [("はじめる", "start doing"),
     ("はじめた", "started doing")]),
    ("おわり",
    [("おわる", "finish doing"),
     ("おわった", "finished doing")]),
    ("つづけ",
    [("つづける", "continue doing"),
     ("つづけた", "continued doing")]),
    ("がち",
    [("がちだ", "tend to; prone to"),
     ("がちな", "tending to (adj)")]),
    ("気味",
    [("気味だ", "a touch of; slightly"),
     ("気味で", "feeling somewhat")]),
    ("かけ",
    [("かける", "start doing; partially do"),
     ("かけだ", "in the middle of doing"),
     ("かけた", "started doing; was about to")]),
    ("かね",
    [("かねる", "cannot (polite); hesitate to"),
     ("かねない", "might; could possibly (negative)"),
     ("かねます", "cannot (polite)")]),
    ("きる",
    [("きる", "do completely; finish"),
     ("きった", "finished completely"),
     ("きれる", "can do completely"),
     ("きれない", "cannot finish; unbearable"),
     ("きれなかった", "couldn't finish")]),
    ("きれ",
    [("きれる", "can do completely"),
     ("きれない", "cannot finish; unbearable")]),
    ("こむ",
    [("こむ", "do thoroughly; go into"),
     ("こんだ", "did thoroughly")]),
    ("こめ",
    [("こめる", "put into (feelings/effort)"),
     ("こめた", "put into")]),
    ("だす",
    [("だす", "start doing (sudden); burst out"),
     ("だした", "burst out doing")]),
    ("なおす",
    [("なおす", "do over; correct; fix"),
     ("なおした", "did over; fixed")]),
    ("ながら",
    [("ながら", "while doing; although")]),
    ("がたい",
    [("がたい", "hard to (psychologically)"),
     ("がたかった", "was hard to")]),
    ("がる",
    [("がる", "act like; show signs of"),
     ("がった", "acted like"),
     ("がっている", "is showing signs of")]),
    ("ず",
    [("ずに", "without doing"),
     ("ずにはいられない", "can't help but"),
     ("ずにはおかない", "cannot leave without")]),
    ("づらい",
    [("づらい", "hard to (physical/habitual)"),
     ("づらかった", "was hard to")]),
    ("てる",
    [("てる", "is doing (casual)"),
     ("てた", "was doing (casual)"),
     ("てない", "not doing (casual)")]),
    ("とく",
    [("とく", "do in advance (casual)"),
     ("といた", "did in advance (casual)"),
     ("とけ", "do in advance! (casual imperative)")]),
    ("まま",
    [("まま", "as is; in the state of"),
     ("ままだ", "is still in the state of"),
     ("ままで", "while remaining")]),
    ("まい",
    [("まい", "will not; probably not"),
     ("まいと", "trying not to")]),
    ("まで",
    [("までだ", "only; just; that's all"),
     ("までのことだ", "that's all there is to it")]),
    ("くせ",
    [("くせに", "although; despite (critical)"),
     ("くせして", "despite (critical)")]),
    ("くらい",
    [("くらい", "about; at least; to the extent"),
     ("ぐらい", "about; at least")]),
    ("うる",
    [("うる", "possible (formal)"),
     ("うべき", "should (formal)")]),
    ("える",
    [("える", "possible (formal)"),
     ("えない", "impossible (formal)")]),
    ("あげ",
    [("あげる", "do for someone (give up)"),
     ("あげた", "did for someone")]),
    ("もらう",
    [("もらう", "have someone do (receive)"),
     ("もらった", "had someone do"),
     ("もらえる", "can have someone do")]),
    ("くれ",
    [("くれる", "do for me (give)"),
     ("くれた", "did for me"),
     ("くれない", "won't do for me")]),
    ("みせ",
    [("みせる", "I'll show you I can..."),
     ("みせた", "showed I could")]),
    ("として",
    [("としても", "assuming; even if"),
     ("としては", "as for; considering")])]

/-- String made of the first character of `s` (Python
`s[0] if s else ""`). -/
def firstCharStr (s : String) : String :=
  match s.data with
  | [] => ""
  | c :: _ => ⟨[c]⟩

/-- Append items to the bucket of `k`, creating the bucket at the end of
the dict when absent (Python `result.setdefault`-style pattern). -/
def addToBucket (d : List (String × List (String × String))) (k : String)
    (xs : List (String × String)) : List (String × List (String × String)) :=
  if d.any (fun p => p.1 = k) then
    d.map fun p => if p.1 = k then (p.1, p.2 ++ xs) else p
  else d ++ [(k, xs)]

/-- Compositional phrase generation, from `_generate_compound_phrases`:
for every base pattern, every ending variant yields `stem + variant`
with meaning `base_meaning + suffix`, bucketed by first character. -/
def compositionalPhrases : List (String × List (String × String)) :=
  phrase_bases.foldl
    (fun acc b =>
      match ending_conjugations.lookup b.2.1 with
      | none => acc
      | some variants =>
        variants.foldl
          (fun acc2 v =>
            addToBucket acc2 (firstCharStr (b.1 ++ v.1))
              [(b.1 ++ v.1, b.2.2 ++ v.2)])
          acc)
    []

/-- Merge of the compositional phrases into the hand-written table, from
the module-level `for first_char, phrase_list in _COMPOSITIONAL_PHRASES`
loop: the duplicate check is a snapshot of the bucket taken before the
inner loop. -/
def mergedPhrases : List (String × List (String × String)) :=
  compositionalPhrases.foldl
    (fun d e =>
      let d1 := if d.any (fun p => p.1 = e.1) then d else d ++ [(e.1, [])]
      let existing := ((d1.lookup e.1).getD []).map Prod.fst
      e.2.foldl
        (fun d2 pm =>
          if pm.1 ∈ existing then d2 else addToBucket d2 e.1 [pm])
        d1)
    compound_phrases_base

/-- Stable insertion of a phrase into a list sorted by descending phrase
length; equal lengths keep earlier entries first. -/
def insertByLenDesc (x : String × String) :
    List (String × String) → List (String × String)
  | [] => [x]
  | y :: ys =>
    if y.1.length < x.1.length then x :: y :: ys
    else y :: insertByLenDesc x ys

/-- Stable sort by descending phrase length; agrees with Python's stable
`sorted(..., key=lambda x: -len(x[0]))`. -/
def sortByLenDesc (l : List (String × String)) : List (String × String) :=
  l.foldl (fun acc x => insertByLenDesc x acc) []

/-- Final phrase catalogue, from the module-level merge and per-bucket
descending-length sort applied to `COMPOUND_PHRASES` at import time. -/
def compound_phrases : List (String × List (String × String)) :=
  mergedPhrases.map fun p => (p.1, sortByLenDesc p.2)

/-- Morpheme as consumed by the phrase matcher; only `surface()` is used
by `try_match_compound_phrase`. -/
structure Morpheme : Type where
  surface : String
deriving DecidableEq, Repr

/-- Concatenation of the surfaces of a morpheme list (Python
`"".join(m.surface() for m in ms)`). -/
def concatSurfaces (ms : List Morpheme) : String :=
  (ms.map Morpheme.surface).foldl (fun a b => a ++ b) ""

/-- Candidate phrases consulted at a position: the bucket keyed by the
full first surface plus, when different, the bucket keyed by its first
character, from the candidate collection in `try_match_compound_phrase`. -/
def candidatesAt (morphemes : List Morpheme) (startIdx : Nat) :
    List (String × String) :=
  match morphemes.drop startIdx with
  | [] => []
  | m :: _ =>
    let firstSurface := m.surface
    let cands1 :=
      match compound_phrases.lookup firstSurface with
      | some l => l
      | none => []
    let firstChar := firstCharStr firstSurface
    let cands2 :=
      if (compound_phrases.lookup firstChar).isSome ∧
          firstChar ≠ firstSurface then
        (compound_phrases.lookup firstChar).getD []
      else []
    cands1 ++ cands2

/-- First phrase of the candidate list that the remaining text starts
with, from the `for phrase, meaning in sorted(candidates, ...)` loop. -/
def findPhraseMatch (remaining : String) :
    List (String × String) → Option (String × String)
  | [] => none
  | pm :: rest =>
    if pyStartsWith remaining pm.1 then some pm
    else findPhraseMatch remaining rest

/-- Number of morphemes consumed by a matched phrase, from the
`consumed`/`chars_matched` loop: morphemes are counted until the matched
character count reaches the phrase length. -/
def countConsumed (ms : List Morpheme) (plen : Nat) (chars : Nat) : Nat :=
  match ms with
  | [] => 0
  | m :: rest =>
    if plen ≤ chars then 0
    else 1 + countConsumed rest plen (chars + m.surface.length)

/-- Compound-phrase matcher, from `try_match_compound_phrase` in
`src/services/conjugation/phrases.py`: returns
`(phrase, meaning, tokens_consumed)` on success. -/
def try_match_compound_phrase (morphemes : List Morpheme) (startIdx : Nat) :
    Option (String × String × Nat) :=
  if morphemes.length ≤ startIdx then none
  else
    let candidates := candidatesAt morphemes startIdx
    if candidates = [] then none
    else
      let remaining := concatSurfaces ((morphemes.drop startIdx).take 10)
      match findPhraseMatch remaining (sortByLenDesc candidates) with
      | none => none
      | some pm =>
        let consumed := countConsumed (morphemes.drop startIdx) pm.1.length 0
        some (pm.1, pm.2, consumed)

/-!
English translation-hint generator, from
`src/services/conjugation/helpers.py`.  The external English inflector
(`lemminflect.getInflection`) is out of scope per the specification and is
passed in as a function `inflect`; `None`/empty results fall back to the
regular `-ed` rules, mirroring `_inflect_past`.
-/

/-- Python `s.split(sep)[0]` for a one-character separator. -/
def pySplitFirst (s : String) (sep : Char) : String :=
  ⟨s.data.takeWhile (fun c => c ≠ sep)⟩

/-- Python `s[n:]`: drop the first `n` characters (total). -/
def dropLeftN (s : String) (n : Nat) : String :=
  ⟨s.data.drop n⟩

/-- Python `s.strip()`: whitespace removed from both ends. -/
def pyStrip (s : String) : String :=
  ⟨((s.data.dropWhile Char.isWhitespace).reverse.dropWhile
      Char.isWhitespace).reverse⟩

/-- Containment of `sub` as a contiguous run inside `l`. -/
def listContainsSub (sub : List Char) : List Char → Bool
  | [] => sub.isPrefixOf []
  | c :: rest => sub.isPrefixOf (c :: rest) || listContainsSub sub rest

/-- Python `sub in s` substring containment. -/
def pyContains (s sub : String) : Bool :=
  listContainsSub sub.data s.data

/-- Python `s.lower()` (ASCII case folding; the glosses are English). -/
def pyLower (s : String) : String :=
  ⟨s.data.map Char.toLower⟩

/-- Left-to-right non-overlapping replacement on character lists, with a
structural fuel that is always at least the list length. -/
def replaceAllAux (pat rep : List Char) : Nat → List Char → List Char
  | _, [] => []
  | 0, l => l
  | n + 1, c :: rest =>
    if pat ≠ [] ∧ pat.isPrefixOf (c :: rest) then
      rep ++ replaceAllAux pat rep n (List.drop (pat.length - 1) rest)
    else c :: replaceAllAux pat rep n rest

/-- Python `s.replace(pat, rep)` for non-empty `pat` (every call site
passes a non-empty literal). -/
def pyReplace (s pat rep : String) : String :=
  ⟨replaceAllAux pat.data rep.data s.data.length s.data⟩

/-- Python `s.split()[0]`: first whitespace-delimited word, `none` when
the string has no non-whitespace characters. -/
def pyFirstWord (s : String) : Option String :=
  let w := (s.data.dropWhile Char.isWhitespace).takeWhile
    (fun c => ¬ Char.isWhitespace c)
  if w = [] then none else some ⟨w⟩

/-- Regular past-tense fallback rules, from `_make_regular_past`. -/
def makeRegularPast (verb : String) : String :=
  if pyEndsWith verb "e" then verb ++ "d"
  else if pyEndsWith verb "y" ∧ 1 < verb.length ∧
      ¬ (verb.data.getD (verb.length - 2) ' ' ∈ ['a', 'e', 'i', 'o', 'u'])
  then dropRightN verb 1 ++ "ied"
  else verb ++ "ed"

/-- Past-tense inflection, from `_inflect_past`: the external inflector's
answer when it returns a non-empty result, else the regular rules. -/
def inflectPast (inflect : String → Option String) (verb : String) : String :=
  match inflect verb with
  | some p => if p = "" then makeRegularPast verb else p
  | none => makeRegularPast verb

/-- English past tense of a verb phrase, from `make_past_tense`. -/
def make_past_tense (inflect : String → Option String) (verb : String) :
    Py String :=
  let v := pyLower (pyStrip verb)
  if pyStartsWith v "to " then
    let rest := dropLeftN v 3
    if rest ≠ "" then
      match pyFirstWord rest with
      | some w => .ok (inflectPast inflect w)
      | none => .error .indexError
    else .ok (inflectPast inflect v)
  else if pyStartsWith v "not " then
    let rest := dropLeftN v 4
    if rest ≠ "" then
      match pyFirstWord rest with
      | some w => .ok ("didn't " ++ w)
      | none => .error .indexError
    else .ok ("didn't " ++ v)
  else
    match pyFirstWord v with
    | some w => .ok (inflectPast inflect w)
    | none => .error .indexError

/-- One step of the per-auxiliary prefix transform inside
`generate_translation_hint` (helpers version).  The Python `match`
statement tests its `case` patterns in order; any auxiliary not matched by
the first eight cases reaches `case Auxiliary.NASAI:`, whose value pattern
looks up the member `NASAI` on the `Auxiliary` enum.  No such member
exists, so that lookup raises `AttributeError`; the `case Auxiliary.MASU:`
and wildcard cases below it are unreachable. -/
def hintAuxStep (type2 : Bool) (hint : String) (aux : Auxiliary) : Py String :=
  match aux with
  | .potential => .ok ("can " ++ hint)
  | .reruRareru => .ok ((if type2 then "can " else "is ") ++ hint)
  | .nai => .ok ("not " ++ hint)
  | .tai => .ok ("want to " ++ hint)
  | .teIru => .ok ("is " ++ hint ++ "ing")
  | .seruSaseru => .ok ("make/let " ++ hint)
  | .shortenedCausative => .ok ("make/let " ++ hint)
  | .miru => .ok ("try to " ++ hint)
  | .shimau => .ok ("end up " ++ hint ++ "ing")
  | _ => .error .attributeError

/-- Fold of `hintAuxStep` over the auxiliary chain, from the
`for aux in auxiliaries` loop of `generate_translation_hint`. -/
def hintFoldAux (type2 : Bool) (hint : String) :
    List Auxiliary → Py String
  | [] => .ok hint
  | a :: rest =>
    pyBind (hintAuxStep type2 hint a) fun h => hintFoldAux type2 h rest

/-- English hint generator, from `generate_translation_hint` in
`src/services/conjugation/helpers.py`. -/
def generate_translation_hint (inflect : String → Option String)
    (baseMeaning : String) (auxiliaries : List Auxiliary)
    (conjugation : Conjugation) (type2 : Bool) : Py String :=
  if baseMeaning = "" then .ok ""
  else
    let firstMeaning := pyStrip (pySplitFirst (pySplitFirst baseMeaning ';') ',')
    let firstMeaning :=
      if pyStartsWith firstMeaning "to " then dropLeftN firstMeaning 3
      else firstMeaning
    pyBind (hintFoldAux type2 firstMeaning auxiliaries) fun hint =>
      match conjugation with
      | .negative | .zu | .nu =>
        if pyStartsWith hint "can " then
          .ok (pyReplace hint "can " "cannot ")
        else .ok ("not " ++ hint)
      | .ta =>
        if pyEndsWith hint "ing" then .ok hint
        else if pyContains hint "can " ∧ pyContains hint "not" then
          .ok ("couldn't " ++ pyReplace (pyReplace hint "not " "") "can " "")
        else if pyContains hint "not" then
          .ok ("didn't " ++ pyReplace (pyReplace hint "not " "") "can " "")
        else if pyContains hint "can " then
          .ok ("could " ++ pyReplace hint "can " "")
        else make_past_tense inflect hint
      | .te => .ok (hint ++ " and...")
      | .conditional => .ok ("if " ++ hint)
      | .tara =>
        if pyContains hint "not" then
          .ok ("if not " ++ pyReplace hint "not " "")
        else
          pyBind (make_past_tense inflect hint) fun p =>
            .ok ("when/if " ++ p)
      | .volitional => .ok ("let's " ++ hint)
      | .imperative => .ok (hint ++ "!")
      | _ => .ok hint

example :
    generate_translation_hint (fun _ => none) "to eat" [.reruRareru, .nai]
      .ta true = .ok "couldn't eat" := rfl

example :
    generate_translation_hint (fun _ => none) "to eat" [.masu]
      .dictionary true = .error .attributeError := rfl

/-!
Dictionary entry selection, from `src/services/jmdict.py`.  Entries carry
exactly the fields `_find_best_entry` consults.  Unicode NFD decomposition
is embedded for the kana blocks (the inputs `_normalize_kana` receives),
mapping each precomposed voiced kana to its base character followed by the
combining mark U+3099 (dakuten) or U+309A (handakuten).
-/

/-- A kanji spelling of an entry with its `common` flag. -/
structure KanjiForm : Type where
  text : String
  common : Bool
deriving DecidableEq, Repr

/-- A kana spelling of an entry with its `common` flag. -/
structure KanaForm : Type where
  text : String
  common : Bool
deriving DecidableEq, Repr

/-- A sense with the tag lists the scorer consults. -/
structure JmSense : Type where
  partOfSpeech : List String
  misc : List String
deriving DecidableEq, Repr

/-- A dictionary entry with the fields `_find_best_entry` reads. -/
structure JmEntry : Type where
  kanji : List KanjiForm
  kana : List KanaForm
  sense : List JmSense
deriving DecidableEq, Repr

/-- The in-memory indexes of the dictionary service. -/
structure JmdictService : Type where
  indexKanji : List (String × List JmEntry)
  indexKana : List (String × List JmEntry)
  indexNamesKanji : List (String × List JmEntry)
  indexNamesKana : List (String × List JmEntry)
deriving Repr

/-- NFD decomposition of a character, restricted to the kana blocks:
precomposed voiced kana decompose to base plus combining mark; everything
else is unchanged. -/
def nfdKana (c : Char) : List Char :=
  match c with
  | 'が' => ['か', '゙'] | 'ぎ' => ['き', '゙']
  | 'ぐ' => ['く', '゙'] | 'げ' => ['け', '゙']
  | 'ご' => ['こ', '゙'] | 'ざ' => ['さ', '゙']
  | 'じ' => ['し', '゙'] | 'ず' => ['す', '゙']
  | 'ぜ' => ['せ', '゙'] | 'ぞ' => ['そ', '゙']
  | 'だ' => ['た', '゙'] | 'ぢ' => ['ち', '゙']
  | 'づ' => ['つ', '゙'] | 'で' => ['て', '゙']
  | 'ど' => ['と', '゙'] | 'ば' => ['は', '゙']
  | 'び' => ['ひ', '゙'] | 'ぶ' => ['ふ', '゙']
  | 'べ' => ['へ', '゙'] | 'ぼ' => ['ほ', '゙']
  | 'ぱ' => ['は', '゚'] | 'ぴ' => ['ひ', '゚']
  | 'ぷ' => ['ふ', '゚'] | 'ぺ' => ['へ', '゚']
  | 'ぽ' => ['ほ', '゚'] | 'ゔ' => ['う', '゙']
  | 'ガ' => ['カ', '゙'] | 'ギ' => ['キ', '゙']
  | 'グ' => ['ク', '゙'] | 'ゲ' => ['ケ', '゙']
  | 'ゴ' => ['コ', '゙'] | 'ザ' => ['サ', '゙']
  | 'ジ' => ['シ', '゙'] | 'ズ' => ['ス', '゙']
  | 'ゼ' => ['セ', '゙'] | 'ゾ' => ['ソ', '゙']
  | 'ダ' => ['タ', '゙'] | 'ヂ' => ['チ', '゙']
  | 'ヅ' => ['ツ', '゙'] | 'デ' => ['テ', '゙']
  | 'ド' => ['ト', '゙'] | 'バ' => ['ハ', '゙']
  | 'ビ' => ['ヒ', '゙'] | 'ブ' => ['フ', '゙']
  | 'ベ' => ['ヘ', '゙'] | 'ボ' => ['ホ', '゙']
  | 'パ' => ['ハ', '゚'] | 'ピ' => ['ヒ', '゚']
  | 'プ' => ['フ', '゚'] | 'ペ' => ['ヘ', '゚']
  | 'ポ' => ['ホ', '゚'] | 'ヴ' => ['ウ', '゙']
  | _ => [c]

/-- Voicing-mark normalization, from `_normalize_kana`: NFD decomposition
followed by removal of the combining marks U+3099 and U+309A. -/
def normalize_kana (s : String) : String :=
  if s = "" then ""
  else ⟨(s.data.flatMap nfdKana).filter
    (fun c => ¬(c = '゙' ∨ c = '゚'))⟩

/-- Python truthiness of an optional string (`None` and `""` are falsy). -/
def truthyStr (o : Option String) : Bool :=
  match o with
  | none => false
  | some s => s ≠ ""

/-- Score contribution of one kana form, from the kana loop of
`_find_best_entry`: +5 for a common form, then +20 for an exact reading
match else +18 for a voicing-normalized match. -/
def kanaFormScore (reading normReading : Option String) (k : KanaForm) :
    Nat :=
  (if k.common then 5 else 0) +
  (if truthyStr reading ∧ reading = some k.text then 20
   else if truthyStr normReading ∧ k.text ≠ "" ∧
       normReading = some (normalize_kana k.text) then 18
   else 0)

/-- Total score of an entry, from the scoring block of
`_find_best_entry`. -/
def entryScore (word : String) (reading normReading : Option String)
    (isCounter isHiraganaInput : Bool) (e : JmEntry) : Nat :=
  (e.kanji.foldl
    (fun acc k => if k.text = word ∧ k.common then acc + 10 else acc) 0) +
  (e.kana.foldl (fun acc k => acc + kanaFormScore reading normReading k) 0) +
  (match e.sense with
   | [] => 0
   | s0 :: _ =>
     if isHiraganaInput ∧ "uk" ∈ s0.misc then 15 else 0) +
  (if isCounter ∧ e.sense ≠ [] ∧
      e.sense.any (fun s => "ctr" ∈ s.partOfSpeech) then 50 else 0)

/-- Best-entry scan, from the `for entry in entries` loop: keeps the first
entry whose score strictly exceeds the best so far (initially −1). -/
def bestEntryLoop (word : String) (reading normReading : Option String)
    (isCounter isHiraganaInput : Bool) :
    List JmEntry → Option JmEntry → Int → Option JmEntry
  | [], best, _ => best
  | e :: rest, best, bestScore =>
    let s : Int := entryScore word reading normReading isCounter
      isHiraganaInput e
    if bestScore < s then
      bestEntryLoop word reading normReading isCounter isHiraganaInput
        rest (some e) s
    else
      bestEntryLoop word reading normReading isCounter isHiraganaInput
        rest best bestScore

/-- Python `a or b` over optional entry lists: `a` when it is a non-empty
list, else `b`. -/
def orTruthyEntries (a b : Option (List JmEntry)) : Option (List JmEntry) :=
  match a with
  | some l => if l = [] then b else some l
  | none => b

/-- Scored dictionary lookup, from `_find_best_entry` in
`src/services/jmdict.py`. -/
def find_best_entry (svc : JmdictService) (word : String)
    (reading : Option String) (isCounter includeNames : Bool) :
    Option JmEntry :=
  let entries0 := orTruthyEntries (svc.indexKanji.lookup word)
    (svc.indexKana.lookup word)
  let entries1 :=
    if (entries0 = none ∨ entries0 = some []) ∧ includeNames then
      orTruthyEntries (svc.indexNamesKanji.lookup word)
        (svc.indexNamesKana.lookup word)
    else entries0
  match entries1 with
  | none => none
  | some [] => none
  | some entries =>
    let isHiraganaInput := word.data.all
      (fun c => '぀' ≤ c ∧ c ≤ 'ゟ')
    let normReading :=
      match reading with
      | some r => if r ≠ "" then some (normalize_kana r) else none
      | none => none
    match bestEntryLoop word reading normReading isCounter isHiraganaInput
        entries none (-1) with
    | some e => some e
    | none => entries.head?

example : normalize_kana "ば" = "は" := rfl

example : normalize_kana "ぱん" = "はん" := rfl

/-!
Claim theorems.
-/

/-- Claim C2.  The claim states that Masu is a no-op in the English hint
generator and that the generator returns normally for chains containing
Masu (and that Nasai maps to "please X", presupposing a `NASAI` member of
`Auxiliary`).  In the code, `Auxiliary` has no `NASAI` member, and the
`case Auxiliary.NASAI:` pattern sits before `case Auxiliary.MASU:`; for a
chain containing Masu the match reaches that pattern and the attribute
lookup raises `AttributeError`.  This theorem evaluates the embedded
generator at the failing input: with base gloss "to eat" the chain
`[Masu]` raises `AttributeError`, while the same call without Masu
returns the hint "eat" that the claim expects for both. -/
theorem C2_masu_chain_raises_attribute_error :
    generate_translation_hint (fun _ => none) "to eat" [.masu]
      .dictionary true = .error .attributeError ∧
    generate_translation_hint (fun _ => none) "to eat" []
      .dictionary true = .ok "eat" :=
  ⟨rfl, rfl⟩

/-- Claim C8.  The claim states `forward(V, [], Dictionary) = {V}` for
every verb V.  The code violates it at V = 来る: `_conjugate_kuru`
returns `prefix + "くる"` for the Dictionary form, so the kanji spelling
yields 来くる instead of 来る (with either class flag), and consequently
the dictionary form 来る does not even deconjugate to itself at depth 0.
Every other path of `conjugate` returns the identity on Dictionary (the
kana spelling くる included), so the claim is the evident intent and the
kanji prefix handling a slip. -/
theorem C8_kuru_dictionary_form_not_identity :
    conjugate "来る" .dictionary false = .ok ["来くる"] ∧
    conjugate "来る" .dictionary true = .ok ["来くる"] ∧
    ("来くる" : String) ≠ "来る" ∧
    conjugate "くる" .dictionary false = .ok ["くる"] ∧
    deconjugate_verb "来る" "来る" false 0 = .ok [] :=
  ⟨rfl, rfl, by decide, rfl, rfl⟩

/-!
Lemmas about the phrase matcher, toward claims C3 and C5.
-/

theorem foldl_append_data (ss : List String) (acc : String) :
    ((ss.foldl (fun a b => a ++ b) acc)).data =
      acc.data ++ (ss.map String.data).flatten := by
  induction ss generalizing acc with
  | nil =>
    simp only [List.foldl_nil, List.map_nil, List.flatten_nil,
      List.append_nil]
  | cons s rest ih =>
    simp only [List.foldl_cons, List.map_cons, List.flatten_cons]
    rw [ih, String.data_append, List.append_assoc]

theorem concatSurfaces_data (l : List Morpheme) :
    (concatSurfaces l).data =
      ((l.map Morpheme.surface).map String.data).flatten := by
  simpa [concatSurfaces] using
    foldl_append_data (l.map Morpheme.surface) ""

theorem concatSurfaces_length (l : List Morpheme) :
    (concatSurfaces l).length =
      ((l.map (fun m => m.surface.length)).sum) := by
  show (concatSurfaces l).data.length = _
  rw [concatSurfaces_data, List.length_flatten, List.map_map, List.map_map]
  rfl

theorem concatSurfaces_take_startsWith (l : List Morpheme) (k : Nat) :
    (concatSurfaces (l.take k)).data <+: (concatSurfaces l).data := by
  rw [concatSurfaces_data, concatSurfaces_data]
  refine ⟨(((l.drop k).map Morpheme.surface).map String.data).flatten, ?_⟩
  rw [← List.flatten_append]
  congr 1
  rw [← List.map_append, ← List.map_append, List.take_append_drop]

theorem pyStartsWith_iff (s p : String) :
    pyStartsWith s p = true ↔ p.data <+: s.data := by
  simp only [pyStartsWith]
  exact List.isPrefixOf_iff_prefix

theorem findPhraseMatch_some (rem : String) (l : List (String × String))
    (pm : String × String) (h : findPhraseMatch rem l = some pm) :
    pyStartsWith rem pm.1 = true ∧ pm ∈ l := by
  induction l with
  | nil => simp [findPhraseMatch] at h
  | cons x rest ih =>
    by_cases hx : pyStartsWith rem x.1 = true
    · simp only [findPhraseMatch, hx, if_true, Option.some.injEq] at h
      subst h
      exact ⟨hx, List.mem_cons_self _ _⟩
    · simp only [findPhraseMatch, hx, if_false, Bool.false_eq_true] at h
      rcases ih h with ⟨h1, h2⟩
      exact ⟨h1, List.mem_cons_of_mem _ h2⟩

theorem countConsumed_spec (ms : List Morpheme) (plen chars : Nat)
    (h : plen ≤ chars + ((ms.map (fun m => m.surface.length)).sum)) :
    plen ≤ chars +
      (((ms.take (countConsumed ms plen chars)).map
        (fun m => m.surface.length)).sum) ∧
    ∀ j, j < countConsumed ms plen chars →
      chars + (((ms.take j).map (fun m => m.surface.length)).sum) < plen := by
  induction ms generalizing chars with
  | nil =>
    simp only [countConsumed, List.take_nil]
    simp only [List.map_nil, List.sum_nil] at h ⊢
    exact ⟨h, by omega⟩
  | cons m rest ih =>
    by_cases hc : plen ≤ chars
    · simp only [countConsumed, if_pos hc]
      exact ⟨by simpa using hc, by omega⟩
    · simp only [countConsumed, if_neg hc]
      have h' : plen ≤ (chars + m.surface.length) +
          ((rest.map (fun m => m.surface.length)).sum) := by
        simp only [List.map_cons, List.sum_cons] at h
        omega
      rcases ih (chars + m.surface.length) h' with ⟨ih1, ih2⟩
      constructor
      · simpa [List.take_cons, Nat.add_assoc] using ih1
      · intro j hj
        match j with
        | 0 => simpa using Nat.lt_of_not_le hc
        | j' + 1 =>
          have := ih2 j' (by omega)
          simpa [List.take_cons, Nat.add_assoc] using this

/-- Claim C3, counterexample.  The claim asserts that the morphemes
consumed by a successful compound-phrase match concatenate to exactly the
matched phrase.  At position 0 of the morphemes ても・いいよ the matcher
matches the phrase てもいい and consumes both morphemes, whose
concatenation てもいいよ is strictly longer than the phrase. -/
theorem C3_counterexample_consumed_overshoots :
    try_match_compound_phrase [⟨"ても"⟩, ⟨"いいよ"⟩] 0 =
      some ("てもいい", "may; it's okay to", 2) ∧
    concatSurfaces ((([⟨"ても"⟩, ⟨"いいよ"⟩] : List Morpheme).drop 0).take 2) =
      "てもいいよ" ∧
    ("てもいいよ" : String) ≠ "てもいい" :=
  ⟨rfl, rfl, by decide⟩

/-- Claim C3, amended.  Whenever `try_match_compound_phrase` returns
`(phrase, meaning, consumed)`, the concatenation of the consumed surfaces
starts with the phrase (it may extend past it, as the counterexample
shows), and `consumed` is minimal: any fewer morphemes concatenate to
strictly less than the phrase length. -/
theorem C3_amended_consumed_covers_phrase (ms : List Morpheme) (i : Nat)
    (p m : String) (k : Nat)
    (h : try_match_compound_phrase ms i = some (p, m, k)) :
    pyStartsWith (concatSurfaces ((ms.drop i).take k)) p = true ∧
    ∀ j, j < k → (concatSurfaces ((ms.drop i).take j)).length < p.length := by
  simp only [try_match_compound_phrase] at h
  split at h
  · exact absurd h (by simp)
  split at h
  · exact absurd h (by simp)
  split at h
  case _ heq => exact absurd h (by simp)
  case _ pm heq =>
    simp only [Option.some.injEq, Prod.mk.injEq] at h
    obtain ⟨hp, hm, hk⟩ := h
    subst hp
    have hmatch := (findPhraseMatch_some _ _ _ heq).1
    have hpre : pm.1.data <+: (concatSurfaces ((ms.drop i).take 10)).data :=
      (pyStartsWith_iff _ _).mp hmatch
    have hlen10 : pm.1.length ≤
        (((ms.drop i).take 10).map (fun m => m.surface.length)).sum := by
      have := hpre.length_le
      rw [concatSurfaces_data, List.length_flatten, List.map_map,
        List.map_map] at this
      exact this
    have hlenall : pm.1.length ≤
        ((ms.drop i).map (fun m => m.surface.length)).sum := by
      refine le_trans hlen10 ?_
      have hsub : (((ms.drop i).take 10).map (fun m => m.surface.length)).Sublist
          ((ms.drop i).map (fun m => m.surface.length)) :=
        List.Sublist.map _ (List.take_sublist _ _)
      exact hsub.sum_le_sum (by intro a _; exact Nat.zero_le a)
    have hspec := countConsumed_spec (ms.drop i) pm.1.length 0
      (by simpa using hlenall)
    rw [hk] at hspec
    rcases hspec with ⟨hcov, hmin⟩
    constructor
    · rw [pyStartsWith_iff]
      have hCk : (concatSurfaces ((ms.drop i).take k)).data <+:
          (concatSurfaces (ms.drop i)).data := concatSurfaces_take_startsWith _ _
      have hW : pm.1.data <+: (concatSurfaces (ms.drop i)).data :=
        hpre.trans (concatSurfaces_take_startsWith (ms.drop i) 10)
      refine List.prefix_of_prefix_length_le hW hCk ?_
      have : (concatSurfaces ((ms.drop i).take k)).length =
          (((ms.drop i).take k).map (fun m => m.surface.length)).sum :=
        concatSurfaces_length _
      show pm.1.data.length ≤ _
      have h1 : pm.1.data.length = pm.1.length := rfl
      have h2 : (concatSurfaces ((ms.drop i).take k)).data.length =
          (concatSurfaces ((ms.drop i).take k)).length := rfl
      omega
    · intro j hj
      have := hmin j hj
      rw [concatSurfaces_length]
      omega

/-- Claim C3, witness for the amended theorem at the counterexample
input: the two consumed surfaces cover the phrase てもいい and one
morpheme alone falls short. -/
theorem C3_amended_witness :
    pyStartsWith
      (concatSurfaces ((([⟨"ても"⟩, ⟨"いいよ"⟩] : List Morpheme).drop 0).take 2))
      "てもいい" = true ∧
    (concatSurfaces ((([⟨"ても"⟩, ⟨"いいよ"⟩] : List Morpheme).drop 0).take 1)).length <
      ("てもいい" : String).length := by
  have h := C3_amended_consumed_covers_phrase [⟨"ても"⟩, ⟨"いいよ"⟩] 0
    "てもいい" "may; it's okay to" 2 rfl
  exact ⟨h.1, h.2 1 (by omega)⟩

/-!
Ordering lemmas on the candidate sort, toward claim C5.
-/

theorem mem_insertByLenDesc (x y : String × String)
    (l : List (String × String)) :
    y ∈ insertByLenDesc x l ↔ y = x ∨ y ∈ l := by
  induction l with
  | nil => simp [insertByLenDesc]
  | cons z rest ih =>
    by_cases hz : z.1.length < x.1.length
    · simp [insertByLenDesc, hz]
    · simp only [insertByLenDesc, if_neg hz, List.mem_cons, ih]
      tauto

theorem mem_sortByLenDesc_aux (l acc : List (String × String))
    (y : String × String) :
    y ∈ l.foldl (fun a x => insertByLenDesc x a) acc ↔ y ∈ acc ∨ y ∈ l := by
  induction l generalizing acc with
  | nil => simp
  | cons z rest ih =>
    simp only [List.foldl_cons, ih, mem_insertByLenDesc, List.mem_cons]
    tauto

theorem mem_sortByLenDesc (l : List (String × String))
    (y : String × String) :
    y ∈ sortByLenDesc l ↔ y ∈ l := by
  simp [sortByLenDesc, mem_sortByLenDesc_aux]

theorem pairwise_insertByLenDesc (x : String × String)
    (l : List (String × String))
    (h : l.Pairwise (fun a b => b.1.length ≤ a.1.length)) :
    (insertByLenDesc x l).Pairwise (fun a b => b.1.length ≤ a.1.length) := by
  induction l with
  | nil => simp [insertByLenDesc]
  | cons z rest ih =>
    rcases List.pairwise_cons.mp h with ⟨hz, hrest⟩
    by_cases hlt : z.1.length < x.1.length
    · simp only [insertByLenDesc, if_pos hlt]
      refine List.pairwise_cons.mpr ⟨?_, h⟩
      intro b hb
      rcases List.mem_cons.mp hb with hb | hb
      · subst hb; omega
      · have := hz b hb; omega
    · simp only [insertByLenDesc, if_neg hlt]
      refine List.pairwise_cons.mpr ⟨?_, ih hrest⟩
      intro b hb
      rcases (mem_insertByLenDesc x b rest).mp hb with hb | hb
      · subst hb; omega
      · exact hz b hb

theorem pairwise_sortByLenDesc (l : List (String × String)) :
    (sortByLenDesc l).Pairwise (fun a b => b.1.length ≤ a.1.length) := by
  have haux : ∀ (l acc : List (String × String)),
      acc.Pairwise (fun a b => b.1.length ≤ a.1.length) →
      (l.foldl (fun a x => insertByLenDesc x a) acc).Pairwise
        (fun a b => b.1.length ≤ a.1.length) := by
    intro l
    induction l with
    | nil => intro acc h; simpa using h
    | cons z rest ih =>
      intro acc h
      exact ih _ (pairwise_insertByLenDesc z acc h)
  exact haux l [] (by simp)

theorem findPhraseMatch_of_mem (rem : String)
    (l : List (String × String)) (q : String × String)
    (hs : l.Pairwise (fun a b => b.1.length ≤ a.1.length))
    (hmem : q ∈ l) (hq : pyStartsWith rem q.1 = true) :
    ∃ pm, findPhraseMatch rem l = some pm ∧ q.1.length ≤ pm.1.length ∧
      pyStartsWith rem pm.1 = true := by
  induction l with
  | nil => simp at hmem
  | cons x rest ih =>
    rcases List.pairwise_cons.mp hs with ⟨hx, hrest⟩
    by_cases hm : pyStartsWith rem x.1 = true
    · refine ⟨x, by simp [findPhraseMatch, hm], ?_, hm⟩
      rcases List.mem_cons.mp hmem with h | h
      · subst h; exact le_refl _
      · exact hx q h
    · have hqx : q ≠ x := by
        intro hEq; exact hm (hEq ▸ hq)
      have hmem' : q ∈ rest := by
        rcases List.mem_cons.mp hmem with h | h
        · exact absurd h hqx
        · exact h
      rcases ih hrest hmem' with ⟨pm, h1, h2, h3⟩
      exact ⟨pm, by simp [findPhraseMatch, hm, h1], h2, h3⟩

/-- Claim C5, counterexample.  The claim says that whenever phrase p1 is a
strict prefix of phrase p2, both sit in the same first-kana bucket, and
the input at position i admits p2, the matcher returns p2 itself.  With
p1 = ても and p2 = てもいい (both in the て bucket) and the single
morpheme てもいいです, the input admits p2 but the matcher commits to the
still longer catalogue phrase てもいいです, so it returns neither p1 nor
p2. -/
theorem C5_counterexample_longer_match_wins :
    ("ても", "even if; even though") ∈
      ((compound_phrases.lookup "て").getD []) ∧
    ("てもいい", "may; it's okay to") ∈
      ((compound_phrases.lookup "て").getD []) ∧
    pyStartsWith "てもいい" "ても" = true ∧ ("ても" : String) ≠ "てもいい" ∧
    pyStartsWith "てもいいです" "てもいい" = true ∧
    try_match_compound_phrase [⟨"てもいいです"⟩] 0 =
      some ("てもいいです", "may; it's okay to (polite)", 1) ∧
    ("てもいいです" : String) ≠ "てもいい" :=
  ⟨by decide, by decide, by decide, by decide, by decide, rfl, by decide⟩

/-- Claim C5, amended.  If p2 is among the candidates consulted at
position i and the concatenated surfaces there start with p2, the matcher
returns a phrase at least as long as p2 — a phrase of which p2 is a
prefix — and in particular never returns any strictly shorter phrase,
such as a strict prefix p1 of p2.  (As the counterexample shows, the
returned phrase need not be p2 itself.) -/
theorem C5_amended_longest_match (ms : List Morpheme) (i : Nat)
    (p2 m2 : String) (hmem : (p2, m2) ∈ candidatesAt ms i)
    (hstart :
      pyStartsWith (concatSurfaces ((ms.drop i).take 10)) p2 = true) :
    ∃ p m k, try_match_compound_phrase ms i = some (p, m, k) ∧
      p2.length ≤ p.length ∧ pyStartsWith p p2 = true ∧
      ∀ p1 : String, p1.length < p2.length → p ≠ p1 := by
  have hdrop : ms.drop i ≠ [] := by
    intro hnil
    rw [candidatesAt, hnil] at hmem
    simp at hmem
  have hi : ¬ ms.length ≤ i := by
    intro hle
    exact hdrop (List.drop_eq_nil_of_le hle)
  have hcand : candidatesAt ms i ≠ [] := by
    intro hnil
    rw [hnil] at hmem
    simp at hmem
  have hsorted := pairwise_sortByLenDesc (candidatesAt ms i)
  have hmem' : (p2, m2) ∈ sortByLenDesc (candidatesAt ms i) :=
    (mem_sortByLenDesc _ _).mpr hmem
  rcases findPhraseMatch_of_mem
      (concatSurfaces ((ms.drop i).take 10)) _ (p2, m2) hsorted hmem' hstart
    with ⟨pm, hfind, hlen, hpm⟩
  refine ⟨pm.1, pm.2, countConsumed (ms.drop i) pm.1.length 0, ?_, hlen, ?_, ?_⟩
  · simp only [try_match_compound_phrase, if_neg hi, if_neg hcand, hfind]
  · rw [pyStartsWith_iff]
    exact List.prefix_of_prefix_length_le
      ((pyStartsWith_iff _ _).mp hstart)
      ((pyStartsWith_iff _ _).mp hpm) hlen
  · intro p1 hp1 hEq
    have hlen2 : p2.length ≤ pm.1.length := hlen
    have : pm.1.length = p1.length := congrArg String.length hEq
    omega

/-- Claim C5, witness for the amended theorem at the counterexample
input: てもいい is a consulted candidate at position 0 of てもいいです,
the input admits it, and the matcher returns an extension of it. -/
theorem C5_amended_witness :
    ∃ p m k,
      try_match_compound_phrase [⟨"てもいいです"⟩] 0 = some (p, m, k) ∧
      ("てもいい" : String).length ≤ p.length ∧
      pyStartsWith p "てもいい" = true ∧
      ∀ p1 : String, p1.length < ("てもいい" : String).length → p ≠ p1 :=
  C5_amended_longest_match [⟨"てもいいです"⟩] 0 "てもいい"
    "may; it's okay to" (by decide) (by decide)

/-- Claim C7, counterexample.  The claim says an entry with a kana form
exactly equal to the requested reading always scores strictly higher than
one matching only after voicing normalization, and is returned.  The
other scoring components break this: for headword 歯 with reading ば, the
exact-match entry (kana ば, nothing common) scores 20, while a homophone
entry with a common kanji form 歯 and a common kana form は matching only
after normalization scores 10 + 5 + 18 = 33 and is returned instead. -/
theorem C7_counterexample_common_entry_outscores_exact :
    normalize_kana "は" = normalize_kana "ば" ∧ ("は" : String) ≠ "ば" ∧
    entryScore "歯" (some "ば") (some (normalize_kana "ば")) false false
      ⟨[], [⟨"ば", false⟩], []⟩ = 20 ∧
    entryScore "歯" (some "ば") (some (normalize_kana "ば")) false false
      ⟨[⟨"歯", true⟩], [⟨"は", true⟩], []⟩ = 33 ∧
    find_best_entry
      ⟨[("歯", [⟨[], [⟨"ば", false⟩], []⟩,
                ⟨[⟨"歯", true⟩], [⟨"は", true⟩], []⟩])], [], [], []⟩
      "歯" (some "ば") false false =
      some ⟨[⟨"歯", true⟩], [⟨"は", true⟩], []⟩ ∧
    (⟨[⟨"歯", true⟩], [⟨"は", true⟩], []⟩ : JmEntry) ≠
      ⟨[], [⟨"ば", false⟩], []⟩ :=
  ⟨rfl, by decide, rfl, rfl, rfl, by decide⟩

/-- Claim C7, amended.  When the two candidate entries are otherwise
indistinguishable to the scorer — a single kana form each, no common
flags, no senses (hence no usually-kana or counter bonuses) — the entry
whose kana form equals the requested reading exactly scores 20 against
the 18 of the entry matching only after voicing normalization, and
`_find_best_entry` returns the exact-match entry whichever of the two
comes first.  (Without that proviso the claim fails: commonness,
usually-kana or counter bonuses can outweigh the 2-point gap, as the
counterexample records.) -/
theorem C7_amended_exact_beats_normalized (w r t : String)
    (hr : r ≠ "") (ht : t ≠ "") (hne : t ≠ r)
    (hnorm : normalize_kana t = normalize_kana r)
    (hnr : normalize_kana r ≠ "") :
    (∀ hira : Bool,
      entryScore w (some r) (some (normalize_kana r)) false hira
        ⟨[], [⟨r, false⟩], []⟩ = 20 ∧
      entryScore w (some r) (some (normalize_kana r)) false hira
        ⟨[], [⟨t, false⟩], []⟩ = 18) ∧
    find_best_entry
      ⟨[(w, [⟨[], [⟨r, false⟩], []⟩, ⟨[], [⟨t, false⟩], []⟩])],
        [], [], []⟩ w (some r) false false =
      some ⟨[], [⟨r, false⟩], []⟩ ∧
    find_best_entry
      ⟨[(w, [⟨[], [⟨t, false⟩], []⟩, ⟨[], [⟨r, false⟩], []⟩])],
        [], [], []⟩ w (some r) false false =
      some ⟨[], [⟨r, false⟩], []⟩ := by
  have hscore1 : ∀ hira : Bool,
      entryScore w (some r) (some (normalize_kana r)) false hira
        ⟨[], [⟨r, false⟩], []⟩ = 20 := by
    intro hira
    simp [entryScore, kanaFormScore, truthyStr, hr]
  have hscore2 : ∀ hira : Bool,
      entryScore w (some r) (some (normalize_kana r)) false hira
        ⟨[], [⟨t, false⟩], []⟩ = 18 := by
    intro hira
    simp [entryScore, kanaFormScore, truthyStr, hr, ht, Ne.symm hne, hnorm,
      hnr]
  refine ⟨fun hira => ⟨hscore1 hira, hscore2 hira⟩, ?_, ?_⟩
  · simp [find_best_entry, List.lookup, orTruthyEntries, bestEntryLoop,
      hscore1, hscore2, hr]
  · simp [find_best_entry, List.lookup, orTruthyEntries, bestEntryLoop,
      hscore1, hscore2, hr]

/-- Claim C7, witness for the amended theorem at the counterexample
readings は/ば: with no other scoring contributions the ば entry wins for
headword 歯 in either listed order. -/
theorem C7_amended_witness :
    find_best_entry
      ⟨[("歯", [⟨[], [⟨"ば", false⟩], []⟩, ⟨[], [⟨"は", false⟩], []⟩])],
        [], [], []⟩ "歯" (some "ば") false false =
      some ⟨[], [⟨"ば", false⟩], []⟩ ∧
    find_best_entry
      ⟨[("歯", [⟨[], [⟨"は", false⟩], []⟩, ⟨[], [⟨"ば", false⟩], []⟩])],
        [], [], []⟩ "歯" (some "ば") false false =
      some ⟨[], [⟨"ば", false⟩], []⟩ :=
  ⟨(C7_amended_exact_beats_normalized "歯" "ば" "は" (by decide) (by decide)
      (by decide) rfl (by decide)).2.1,
   (C7_amended_exact_beats_normalized "歯" "ば" "は" (by decide) (by decide)
      (by decide) rfl (by decide)).2.2⟩

/-!
Infrastructure lemmas on the `Py` monad and the conjugation engine,
toward claims C1, C4, C6, C9 and C10.
-/

/-- A computation that can fail only with `ValueError` (the exception
class the engine's `try/except` blocks swallow). -/
def OkOrVE {α : Type} (x : Py α) : Prop :=
  ∀ e, x = .error e → e = PyErr.valueError

theorem okOrVE_ok {α : Type} (a : α) : OkOrVE (.ok a : Py α) := by
  intro e h; cases h

theorem okOrVE_ve {α : Type} : OkOrVE (.error .valueError : Py α) := by
  intro e h; cases h; rfl

theorem okOrVE_pyBind {α β : Type} {x : Py α} {f : α → Py β}
    (hx : OkOrVE x) (hf : ∀ a, x = .ok a → OkOrVE (f a)) :
    OkOrVE (pyBind x f) := by
  intro e h
  cases hx' : x with
  | error e' =>
    rw [hx'] at h
    simp only [pyBind] at h
    cases h
    exact hx _ hx'
  | ok a =>
    rw [hx'] at h
    simp only [pyBind] at h
    exact hf a hx' e h

theorem string_data_eq_nil (s : String) : s.data = [] ↔ s = "" := by
  constructor
  · intro h
    have h2 : s = ⟨s.data⟩ := rfl
    rw [h] at h2
    exact h2
  · intro h; subst h; rfl

theorem okOrVE_pyLastChar (s : String) (hs : s ≠ "") :
    OkOrVE (pyLastChar s) := by
  intro e h
  unfold pyLastChar at h
  split at h
  · cases h
  case _ hl =>
    exact absurd ((string_data_eq_nil s).mp (List.getLast?_eq_none_iff.mp hl))
      hs

theorem pyLastChar_ok (s : String) (hs : s ≠ "") :
    ∃ c, pyLastChar s = .ok c := by
  unfold pyLastChar
  cases hl : s.data.getLast? with
  | none =>
    exact absurd ((string_data_eq_nil s).mp (List.getLast?_eq_none_iff.mp hl))
      hs
  | some c => exact ⟨c, rfl⟩

theorem okOrVE_pyHead {α : Type} (l : List α) (hl : l ≠ []) :
    OkOrVE (pyHead l) := by
  cases l with
  | nil => exact absurd rfl hl
  | cons x xs => intro e h; cases h

theorem pyHead_ok {α : Type} {l : List α} {a : α} (h : pyHead l = .ok a) :
    l ≠ [] ∧ a ∈ l := by
  cases l with
  | nil => cases h
  | cons x xs =>
    cases h
    exact ⟨by simp, by simp⟩

theorem okOrVE_pyFlatMapM {α β : Type} (f : α → Py (List β))
    (xs : List α) (h : ∀ x ∈ xs, OkOrVE (f x)) :
    OkOrVE (pyFlatMapM f xs) := by
  induction xs with
  | nil => exact okOrVE_ok _
  | cons x rest ih =>
    refine okOrVE_pyBind (h x (by simp)) fun l hl => ?_
    refine okOrVE_pyBind (ih fun y hy => h y (by simp [hy])) fun r hr => ?_
    exact okOrVE_ok _

theorem pyFlatMapM_isOk {α β : Type} (f : α → Py (List β)) (xs : List α)
    (h : ∀ x ∈ xs, ∃ l, f x = .ok l) :
    ∃ L, pyFlatMapM f xs = .ok L := by
  induction xs with
  | nil => exact ⟨[], rfl⟩
  | cons x rest ih =>
    rcases h x (by simp) with ⟨l, hl⟩
    rcases ih (fun y hy => h y (by simp [hy])) with ⟨L, hL⟩
    exact ⟨l ++ L, by simp [pyFlatMapM, pyBind, hl, hL]⟩

theorem pyFlatMapM_mem {α β : Type} {f : α → Py (List β)} {xs : List α}
    {L : List β} (hfm : pyFlatMapM f xs = .ok L) {x : α} (hx : x ∈ xs)
    {lx : List β} (hfx : f x = .ok lx) : ∀ y ∈ lx, y ∈ L := by
  induction xs generalizing L with
  | nil => cases hx
  | cons z rest ih =>
    simp only [pyFlatMapM] at hfm
    rcases hz : f z with e | lz
    · rw [hz] at hfm; cases hfm
    · rw [hz] at hfm
      simp only [pyBind] at hfm
      rcases hr : pyFlatMapM f rest with e | Lr
      · rw [hr] at hfm; cases hfm
      · rw [hr] at hfm
        cases hfm
        rcases List.mem_cons.mp hx with hxz | hxr
        · subst hxz
          rw [hz] at hfx
          cases hfx
          intro y hy
          exact List.mem_append_left _ hy
        · intro y hy
          exact List.mem_append_right _ (ih hr hxr y hy)

theorem pyFlatMapM_nonnil {α β : Type} {f : α → Py (List β)} {xs : List α}
    {L : List β} (hfm : pyFlatMapM f xs = .ok L) (hxs : xs ≠ [])
    (h : ∀ x ∈ xs, ∀ l, f x = .ok l → l ≠ []) : L ≠ [] := by
  cases xs with
  | nil => exact absurd rfl hxs
  | cons z rest =>
    simp only [pyFlatMapM] at hfm
    rcases hz : f z with e | lz
    · rw [hz] at hfm; cases hfm
    · rw [hz] at hfm
      simp only [pyBind] at hfm
      rcases hr : pyFlatMapM f rest with e | Lr
      · rw [hr] at hfm; cases hfm
      · rw [hr] at hfm
        cases hfm
        have := h z (by simp) lz hz
        simp [this]

theorem pyFlatMapM_forall {α β : Type} {f : α → Py (List β)} {xs : List α}
    {L : List β} (hfm : pyFlatMapM f xs = .ok L)
    (P : β → Prop) (h : ∀ x ∈ xs, ∀ l, f x = .ok l → ∀ y ∈ l, P y) :
    ∀ y ∈ L, P y := by
  induction xs generalizing L with
  | nil => cases hfm; simp
  | cons z rest ih =>
    simp only [pyFlatMapM] at hfm
    rcases hz : f z with e | lz
    · rw [hz] at hfm; cases hfm
    · rw [hz] at hfm
      simp only [pyBind] at hfm
      rcases hr : pyFlatMapM f rest with e | Lr
      · rw [hr] at hfm; cases hfm
      · rw [hr] at hfm
        cases hfm
        intro y hy
        rcases List.mem_append.mp hy with hy | hy
        · exact h z (by simp) lz hz y hy
        · exact ih hr (fun x hx => h x (by simp [hx])) y hy

theorem append_ne_empty_right (p X : String) (hX : X ≠ "") :
    p ++ X ≠ "" := by
  intro h
  have hdata := congrArg String.data h
  rw [String.data_append] at hdata
  have hlen := congrArg List.length hdata
  simp only [List.length_append, List.length_nil] at hlen
  have hx : X.data = [] := List.eq_nil_of_length_eq_zero (by omega)
  exact hX ((string_data_eq_nil X).mp hx)

theorem pushChar_ne_empty (s : String) (c : Char) : pushChar s c ≠ "" := by
  intro h
  have hdata := congrArg String.data h
  simp only [pushChar] at hdata
  have hlen := congrArg List.length hdata
  simp at hlen

theorem conjugate_suru_props (c : Conjugation) (l : List String)
    (h : conjugate_suru c = .ok l) : l ≠ [] ∧ ∀ s ∈ l, s ≠ "" := by
  cases c <;>
    simp only [conjugate_suru, Except.ok.injEq] at h <;>
    subst h <;>
    exact ⟨by simp, by decide⟩

theorem conjugate_kuru_props (v : String) (c : Conjugation) (l : List String)
    (h : conjugate_kuru v c = .ok l) : l ≠ [] ∧ ∀ s ∈ l, s ≠ "" := by
  cases c <;>
    simp only [conjugate_kuru, Except.ok.injEq] at h <;>
    subst h <;>
    refine ⟨by simp, ?_⟩ <;>
    · intro s hs
      simp only [List.mem_singleton] at hs
      subst hs
      exact append_ne_empty_right _ _ (by decide)

theorem conjugate_da_props (c : Conjugation) (l : List String)
    (h : conjugate_da c = .ok l) : l ≠ [] ∧ ∀ s ∈ l, s ≠ "" := by
  cases c <;> simp only [conjugate_da, Except.ok.injEq] at h <;>
    first
    | (subst h; exact ⟨by simp, by decide⟩)
    | exact absurd h (by simp)

theorem conjugate_desu_props (c : Conjugation) (l : List String)
    (h : conjugate_desu c = .ok l) : l ≠ [] ∧ ∀ s ∈ l, s ≠ "" := by
  cases c <;> simp only [conjugate_desu, Except.ok.injEq] at h <;>
    first
    | (subst h; exact ⟨by simp, by decide⟩)
    | exact absurd h (by simp)

theorem conjugate_suru_okOrVE (c : Conjugation) : OkOrVE (conjugate_suru c) := by
  cases c <;> exact okOrVE_ok _

theorem conjugate_kuru_okOrVE (v : String) (c : Conjugation) :
    OkOrVE (conjugate_kuru v c) := by
  cases c <;> exact okOrVE_ok _

theorem conjugate_da_okOrVE (c : Conjugation) : OkOrVE (conjugate_da c) := by
  cases c <;> first | exact okOrVE_ok _ | exact okOrVE_ve

theorem conjugate_desu_okOrVE (c : Conjugation) : OkOrVE (conjugate_desu c) := by
  cases c <;> first | exact okOrVE_ok _ | exact okOrVE_ve

theorem okOrVE_lookupHiragana (b : Char) (i : Fin 5) :
    OkOrVE (lookupHiragana b i) := by
  unfold lookupHiragana
  split
  · exact okOrVE_ve
  · exact okOrVE_ok _

theorem lookupHiragana_ne_error_ix (b : Char) (i : Fin 5) :
    lookupHiragana b i ≠ .error .indexError := by
  unfold lookupHiragana
  split <;> simp

theorem teTaForms_entries (ch : Char)
    (row : String × String × String × String) (h : teTaForms ch = some row) :
    ∀ i : Fin 4, pickTeTa row i ≠ "" := by
  unfold teTaForms at h
  split at h <;>
    first
    | (cases h; decide)
    | exact absurd h (by simp)

theorem specialCases_eq_empty (v : String) (c : Conjugation) (s0 : String)
    (h : specialCases v c = some s0) (hs : s0 = "") :
    v = "ある" ∧ c = .negative := by
  subst hs
  unfold specialCases at h
  split at h
  case isTrue hv =>
    subst hv
    split at h
    · exact ⟨rfl, rfl⟩
    · exact absurd h (by simp)
  case isFalse =>
    split at h
    · split at h <;> simp_all
    · split at h
      · split at h <;> simp_all
      · exact absurd h (by simp)

theorem conjugate_type1_props (v : String) (c : Conjugation) (l : List String)
    (h : conjugate_type1 v c = .ok l) :
    l ≠ [] ∧ ∀ s ∈ l, s = "" → (v = "ある" ∧ c = .negative) := by
  unfold conjugate_type1 at h
  split at h
  · rcases conjugate_suru_props c l h with ⟨h1, h2⟩
    exact ⟨h1, fun s hs hse => absurd hse (h2 s hs)⟩
  split at h
  · rcases conjugate_kuru_props v c l h with ⟨h1, h2⟩
    exact ⟨h1, fun s hs hse => absurd hse (h2 s hs)⟩
  split at h
  · rcases conjugate_da_props c l h with ⟨h1, h2⟩
    exact ⟨h1, fun s hs hse => absurd hse (h2 s hs)⟩
  split at h
  · rcases conjugate_desu_props c l h with ⟨h1, h2⟩
    exact ⟨h1, fun s hs hse => absurd hse (h2 s hs)⟩
  split at h
  case isTrue hked =>
    split at h
    · simp only [Except.ok.injEq] at h
      subst h
      refine ⟨by simp, ?_⟩
      intro s hs hse
      simp only [List.mem_singleton] at hs
      rw [hse] at hs
      rw [← hs] at hked
      exact absurd hked (by decide)
    split at h
    · simp only [Except.ok.injEq] at h
      subst h
      refine ⟨by simp, ?_⟩
      intro s hs hse
      simp only [List.mem_singleton] at hs
      exact absurd (hs.symm.trans hse)
        (append_ne_empty_right _ _ (by decide))
    · exact absurd h (by simp)
  case isFalse =>
    split at h
    case _ s0 hsp =>
      simp only [Except.ok.injEq] at h
      subst h
      refine ⟨by simp, ?_⟩
      intro s hs hse
      simp only [List.mem_singleton] at hs
      exact specialCases_eq_empty v c s0 hsp (hs.symm.trans hse)
    case _ hsp =>
      split at h
      · exact absurd h (by simp)
      case _ tail htail =>
        split at h
        case _ idx hidx =>
          split at h
          · simp only [Except.ok.injEq] at h
            subst h
            refine ⟨by simp, ?_⟩
            intro s hs hse
            simp only [List.mem_singleton] at hs
            exact absurd (hs.symm.trans hse)
              (append_ne_empty_right _ _ (by decide))
          · split at h
            · exact absurd h (by simp)
            case _ ch hch =>
              simp only [Except.ok.injEq] at h
              subst h
              refine ⟨by simp, ?_⟩
              intro s hs hse
              simp only [List.mem_singleton] at hs
              exact absurd (hs.symm.trans hse) (pushChar_ne_empty _ _)
        case _ hnoidx =>
          split at h
          · split at h
            · exact absurd h (by simp)
            case _ ch hch =>
              simp only [Except.ok.injEq] at h
              subst h
              refine ⟨by simp, ?_⟩
              intro s hs hse
              simp only [List.mem_singleton] at hs
              exact absurd (hs.symm.trans hse) (pushChar_ne_empty _ _)
          · split at h
            case _ i hi =>
              split at h
              · exact absurd h (by simp)
              case _ row hrow =>
                simp only [Except.ok.injEq] at h
                subst h
                refine ⟨by simp, ?_⟩
                intro s hs hse
                simp only [List.mem_singleton] at hs
                exact absurd (hs.symm.trans hse)
                  (append_ne_empty_right _ _ (teTaForms_entries _ _ hrow i))
            · exact absurd h (by simp)

theorem conjugate_type1_okOrVE (v : String) (c : Conjugation) (hv : v ≠ "") :
    OkOrVE (conjugate_type1 v c) := by
  unfold conjugate_type1
  split
  · exact conjugate_suru_okOrVE c
  split
  · exact conjugate_kuru_okOrVE v c
  split
  · exact conjugate_da_okOrVE c
  split
  · exact conjugate_desu_okOrVE c
  split
  · split
    · exact okOrVE_ok _
    split
    · exact okOrVE_ok _
    · exact okOrVE_ve
  · split
    · exact okOrVE_ok _
    · split
      case _ e0 heq =>
        intro e h
        rcases pyLastChar_ok v hv with ⟨c0, hc0⟩
        rw [hc0] at heq
        cases heq
      case _ tail htail =>
        split
        · split
          · exact okOrVE_ok _
          · split
            case _ e0 heq =>
              intro e h
              cases h
              exact okOrVE_lookupHiragana _ _ _ heq
            · exact okOrVE_ok _
        · split
          · split
            case _ e0 heq =>
              intro e h
              cases h
              exact okOrVE_lookupHiragana _ _ _ heq
            · exact okOrVE_ok _
          · split
            · split
              · exact okOrVE_ve
              · exact okOrVE_ok _
            · exact okOrVE_ve

theorem conjugate_type2_props (v : String) (c : Conjugation) (l : List String)
    (h : conjugate_type2 v c = .ok l) :
    l ≠ [] ∧ ∀ s ∈ l, s = "" →
      ((dropRightN v 1 = "" ∧
        (c = .negative ∨ c = .conjunctive ∨ c = .zu ∨ c = .nu)) ∨
       (v = "" ∧ c = .dictionary)) := by
  unfold conjugate_type2 at h
  split at h
  · rcases conjugate_suru_props c l h with ⟨h1, h2⟩
    exact ⟨h1, fun s hs hse => absurd hse (h2 s hs)⟩
  split at h
  · rcases conjugate_kuru_props v c l h with ⟨h1, h2⟩
    exact ⟨h1, fun s hs hse => absurd hse (h2 s hs)⟩
  split at h
  · rcases conjugate_da_props c l h with ⟨h1, h2⟩
    exact ⟨h1, fun s hs hse => absurd hse (h2 s hs)⟩
  split at h
  · rcases conjugate_desu_props c l h with ⟨h1, h2⟩
    exact ⟨h1, fun s hs hse => absurd hse (h2 s hs)⟩
  · cases c <;> simp only [Except.ok.injEq] at h <;> subst h <;>
      refine ⟨by simp, ?_⟩ <;> intro s hs hse
    case negative => simp only [List.mem_singleton] at hs
                     exact Or.inl ⟨hs.symm.trans hse, Or.inl rfl⟩
    case conjunctive => simp only [List.mem_singleton] at hs
                        exact Or.inl ⟨hs.symm.trans hse, Or.inr (Or.inl rfl)⟩
    case dictionary => simp only [List.mem_singleton] at hs
                       exact Or.inr ⟨hs.symm.trans hse, rfl⟩
    case conditional =>
      simp only [List.mem_singleton] at hs
      exact absurd (hs.symm.trans hse) (append_ne_empty_right _ _ (by decide))
    case imperative =>
      rcases List.mem_cons.mp hs with hs | hs
      · exact absurd (hs.symm.trans hse) (append_ne_empty_right _ _ (by decide))
      · simp only [List.mem_singleton] at hs
        exact absurd (hs.symm.trans hse)
          (append_ne_empty_right _ _ (by decide))
    case volitional =>
      simp only [List.mem_singleton] at hs
      exact absurd (hs.symm.trans hse) (append_ne_empty_right _ _ (by decide))
    case te =>
      simp only [List.mem_singleton] at hs
      exact absurd (hs.symm.trans hse) (append_ne_empty_right _ _ (by decide))
    case ta =>
      simp only [List.mem_singleton] at hs
      exact absurd (hs.symm.trans hse) (append_ne_empty_right _ _ (by decide))
    case tara =>
      simp only [List.mem_singleton] at hs
      exact absurd (hs.symm.trans hse) (append_ne_empty_right _ _ (by decide))
    case tari =>
      simp only [List.mem_singleton] at hs
      exact absurd (hs.symm.trans hse) (append_ne_empty_right _ _ (by decide))
    case zu => simp only [List.mem_singleton] at hs
               exact Or.inl ⟨hs.symm.trans hse, Or.inr (Or.inr (Or.inl rfl))⟩
    case nu => simp only [List.mem_singleton] at hs
               exact Or.inl ⟨hs.symm.trans hse, Or.inr (Or.inr (Or.inr rfl))⟩

theorem conjugate_type2_okOrVE (v : String) (c : Conjugation) :
    OkOrVE (conjugate_type2 v c) := by
  unfold conjugate_type2
  split
  · exact conjugate_suru_okOrVE c
  split
  · exact conjugate_kuru_okOrVE v c
  split
  · exact conjugate_da_okOrVE c
  split
  · exact conjugate_desu_okOrVE c
  · cases c <;> exact okOrVE_ok _

theorem pyLastChar_ok_ne_empty {v : String} {c : Char}
    (h : pyLastChar v = .ok c) : v ≠ "" := by
  intro hv
  subst hv
  cases h

theorem pyLastChar_of_eq (v : String) (w : String) (c : Char)
    (hv : v = w) (hw : pyLastChar w = .ok c) : pyLastChar v = .ok c := by
  rw [hv]; exact hw

theorem conjugate_strict_props (v : String) (c : Conjugation) (t2 : Bool)
    (l : List String) (h : conjugate_strict v c t2 = .ok l) :
    l ≠ [] ∧ ∀ s ∈ l, s = "" →
      ((v = "ある" ∧ c = .negative ∧ t2 = false) ∨
       (dropRightN v 1 = "" ∧
        (c = .negative ∨ c = .conjunctive ∨ c = .zu ∨ c = .nu) ∧
        t2 = true)) := by
  unfold conjugate_strict at h
  split at h
  · exact absurd h (by simp)
  case _ c0 hc0 =>
    split at h
    case isTrue hgate =>
      rcases conjugate_type2_props v c l h with ⟨h1, h2⟩
      refine ⟨h1, ?_⟩
      intro s hs hse
      rcases h2 s hs hse with ⟨hd, hc⟩ | ⟨hv, hcd⟩
      · exact Or.inr ⟨hd, hc, hgate.2⟩
      · exact absurd hc0 (by rw [hv]; intro hh; cases hh)
    case isFalse hgate =>
      rcases conjugate_type1_props v c l h with ⟨h1, h2⟩
      refine ⟨h1, ?_⟩
      intro s hs hse
      rcases h2 s hs hse with ⟨hv, hc⟩
      refine Or.inl ⟨hv, hc, ?_⟩
      have hcr : c0 = 'る' := by
        rw [hv] at hc0
        cases hc0
        rfl
      cases t2 with
      | false => rfl
      | true => exact absurd ⟨hcr, rfl⟩ hgate

theorem conjugate_strict_okOrVE (v : String) (c : Conjugation) (t2 : Bool)
    (hv : v ≠ "") : OkOrVE (conjugate_strict v c t2) := by
  unfold conjugate_strict
  split
  case _ e0 heq =>
    intro e h
    rcases pyLastChar_ok v hv with ⟨c0, hc0⟩
    rw [hc0] at heq
    cases heq
  case _ c0 hc0 =>
    split
    · exact conjugate_type2_okOrVE v c
    · exact conjugate_type1_okOrVE v c hv

theorem conjugate_props (v : String) (c : Conjugation) (t2 : Bool)
    (l : List String) (h : conjugate v c t2 = .ok l) :
    l ≠ [] ∧ ∀ s ∈ l, s = "" →
      ((v = "ある" ∧ c = .negative ∧ t2 = false) ∨
       (dropRightN v 1 = "" ∧
        (c = .negative ∨ c = .conjunctive ∨ c = .zu ∨ c = .nu) ∧
        t2 = true)) := by
  unfold conjugate at h
  split at h
  · exact absurd h (by simp)
  case _ res hres =>
    rcases conjugate_strict_props v c t2 res hres with ⟨h1, h2⟩
    split at h
    · split at h
      · exact absurd h (by simp)
      case _ h0 hh0 =>
        split at h <;>
          [skip; split at h] <;>
          · simp only [Except.ok.injEq] at h
            subst h
            refine ⟨by simp, ?_⟩
            intro s hs hse
            rcases List.mem_append.mp hs with hs | hs
            · exact h2 s hs hse
            · simp only [List.mem_singleton] at hs
              exact absurd (hs.symm.trans hse)
                (append_ne_empty_right _ _ (by decide))
    · split at h
      · split at h
        · exact absurd h (by simp)
        case _ h0 hh0 =>
          simp only [Except.ok.injEq] at h
          subst h
          refine ⟨by simp, ?_⟩
          intro s hs hse
          rcases List.mem_append.mp hs with hs | hs
          · exact h2 s hs hse
          · simp only [List.mem_singleton] at hs
            exact absurd (hs.symm.trans hse)
              (append_ne_empty_right _ _ (by decide))
      · split at h
        · split at h
          · exact absurd h (by simp)
          case _ h0 hh0 =>
            simp only [Except.ok.injEq] at h
            subst h
            refine ⟨by simp, ?_⟩
            intro s hs hse
            rcases List.mem_append.mp hs with hs | hs
            · exact h2 s hs hse
            · simp only [List.mem_singleton] at hs
              exact absurd (hs.symm.trans hse)
                (append_ne_empty_right _ _ (by decide))
        · split at h
          · split at h
            · exact absurd h (by simp)
            case _ h0 hh0 =>
              simp only [Except.ok.injEq] at h
              subst h
              refine ⟨by simp, ?_⟩
              intro s hs hse
              rcases List.mem_append.mp hs with hs | hs
              · exact h2 s hs hse
              · simp only [List.mem_singleton] at hs
                exact absurd (hs.symm.trans hse)
                  (append_ne_empty_right _ _ (by decide))
          · simp only [Except.ok.injEq] at h
            subst h
            exact ⟨h1, h2⟩

theorem conjugate_okOrVE (v : String) (c : Conjugation) (t2 : Bool)
    (hv : v ≠ "") : OkOrVE (conjugate v c t2) := by
  unfold conjugate
  split
  case _ e0 heq =>
    intro e h
    cases h
    exact conjugate_strict_okOrVE v c t2 hv _ heq
  case _ res hres =>
    have hres1 := (conjugate_strict_props v c t2 res hres).1
    split
    · split
      case _ e0 heq =>
        intro e h
        cases h
        exact okOrVE_pyHead res hres1 _ heq
      · split
        · exact okOrVE_ok _
        split
        · exact okOrVE_ok _
        · exact okOrVE_ok _
    · split
      · split
        case _ e0 heq =>
          intro e h
          cases h
          exact okOrVE_pyHead res hres1 _ heq
        · exact okOrVE_ok _
      · split
        · split
          case _ e0 heq =>
            intro e h
            cases h
            exact okOrVE_pyHead res hres1 _ heq
          · exact okOrVE_ok _
        · split
          · split
            case _ e0 heq =>
              intro e h
              cases h
              exact okOrVE_pyHead res hres1 _ heq
            · exact okOrVE_ok _
          · exact okOrVE_ok _

theorem pyBind_ok_elim {α β : Type} {x : Py α} {f : α → Py β} {b : β}
    (h : pyBind x f = .ok b) : ∃ a, x = .ok a ∧ f a = .ok b := by
  cases hx : x with
  | error e => rw [hx] at h; cases h
  | ok a => rw [hx] at h; exact ⟨a, rfl, h⟩

theorem string_eq_of_data (s t : String) (h : s.data = t.data) : s = t := by
  cases s; cases t; cases h; rfl

theorem string_length_append (s t : String) :
    (s ++ t).length = s.length + t.length := by
  show (s ++ t).data.length = s.data.length + t.data.length
  rw [String.data_append, List.length_append]

theorem dropRightN_one_append (X S : String) (hS : S ≠ "") :
    dropRightN (X ++ S) 1 = X ++ dropRightN S 1 := by
  apply string_eq_of_data
  show ((X ++ S).data.take ((X ++ S).data.length - 1)) =
    (X ++ ⟨S.data.take (S.data.length - 1)⟩).data
  rw [String.data_append, String.data_append, List.length_append]
  have hS' : S.data ≠ [] := fun hnil =>
    hS ((string_data_eq_nil S).mp hnil)
  have hlen : 1 ≤ S.data.length := by
    cases hd : S.data with
    | nil => exact absurd hd hS'
    | cons a t => simp
  have harith : X.data.length + S.data.length - 1 =
      X.data.length + (S.data.length - 1) := by omega
  rw [harith, List.take_append]

theorem dropRightN_append_len (X S : String) :
    dropRightN (X ++ S) S.length = X := by
  apply string_eq_of_data
  show ((X ++ S).data.take ((X ++ S).data.length - S.length)) = X.data
  rw [String.data_append, List.length_append]
  have : X.data.length + S.data.length - S.length = X.data.length := by
    show X.data.length + S.data.length - S.data.length = X.data.length
    omega
  rw [this, List.take_left]

theorem append_eq_suffix (X S T : String) (h : X ++ S = T) :
    S.data <:+ T.data ∧ X.length + S.length = T.length := by
  constructor
  · exact ⟨X.data, by rw [← String.data_append, h]⟩
  · rw [← h, string_length_append]

theorem dropRightN_empty (n : Nat) : dropRightN "" n = "" := by
  apply string_eq_of_data
  simp [dropRightN]

theorem conjugate_nonnil (w : String) (c : Conjugation) (t2 : Bool)
    (l : List String) (h : conjugate w c t2 = .ok l) : l ≠ [] :=
  (conjugate_props w c t2 l h).1

theorem conjugate_no_empty_of_flag_true (w : String) (c : Conjugation)
    (l : List String) (h : conjugate w c true = .ok l)
    (hd : dropRightN w 1 ≠ "") : ∀ s ∈ l, s ≠ "" := by
  intro s hs hse
  rcases (conjugate_props w c true l h).2 s hs hse with ⟨_, _, hf⟩ | ⟨hdd, _⟩
  · cases hf
  · exact hd hdd

theorem conjugate_no_empty_of_ne_aru (w : String) (c : Conjugation)
    (l : List String) (h : conjugate w c false = .ok l)
    (hne : w ≠ "ある") : ∀ s ∈ l, s ≠ "" := by
  intro s hs hse
  rcases (conjugate_props w c false l h).2 s hs hse with ⟨ha, _, _⟩ | ⟨_, _, hf⟩
  · exact hne ha
  · cases hf

theorem conjugate_no_empty_of_conj (w : String) (c : Conjugation) (t2 : Bool)
    (l : List String) (h : conjugate w c t2 = .ok l)
    (hc : ¬(c = .negative ∨ c = .conjunctive ∨ c = .zu ∨ c = .nu)) :
    ∀ s ∈ l, s ≠ "" := by
  intro s hs hse
  rcases (conjugate_props w c t2 l h).2 s hs hse with ⟨_, hcn, _⟩ | ⟨_, hcs, _⟩
  · exact hc (Or.inl hcn)
  · exact hc hcs

theorem teGroupEndings_nonempty (a : Auxiliary) (es : List String)
    (h : teGroupEndings a = some es) : es ≠ [] ∧ ∀ e ∈ es, e ≠ "" := by
  cases a <;> simp only [teGroupEndings] at h <;>
    first
    | (cases h; exact ⟨by simp, by decide⟩)
    | cases h

theorem vte_ne_empty {v : String} {t2 : Bool} {l : List String} {s : String}
    (h : conjugate v .te t2 = .ok l) (hs : s ∈ l) : s ≠ "" :=
  conjugate_no_empty_of_conj v .te t2 l h (by simp) s hs

/-- Non-empty result list whose members are all non-empty strings. -/
def GoodList (l : List String) : Prop :=
  l ≠ [] ∧ ∀ s ∈ l, s ≠ ""

theorem ne_of_suffix_mismatch (X S T : String)
    (hdec : ¬ (S.data <:+ T.data)) : X ++ S ≠ T :=
  fun h => hdec (append_eq_suffix X S T h).1

theorem append_ne_self_of_ne (X S : String) (hX : X ≠ "") : X ++ S ≠ S := by
  intro h
  have := (append_eq_suffix X S S h).2
  have hx : X.length = 0 := by omega
  have : X.data.length = 0 := hx
  exact hX ((string_data_eq_nil X).mp (List.eq_nil_of_length_eq_zero this))

theorem goodList_pyFlatMapM {f : String → Py (List String)}
    {xs : List String} {L : List String} (hfm : pyFlatMapM f xs = .ok L)
    (hxs : xs ≠ []) (hf : ∀ x ∈ xs, ∀ l, f x = .ok l → GoodList l) :
    GoodList L :=
  ⟨pyFlatMapM_nonnil hfm hxs (fun x hx l hl => (hf x hx l hl).1),
   pyFlatMapM_forall hfm _ (fun x hx l hl => (hf x hx l hl).2)⟩

theorem conjugate_goodList_flag_true {w : String} {c : Conjugation}
    {l : List String} (h : conjugate w c true = .ok l)
    (hd : dropRightN w 1 ≠ "") : GoodList l :=
  ⟨conjugate_nonnil _ _ _ _ h, conjugate_no_empty_of_flag_true _ _ _ h hd⟩

theorem conjugate_goodList_ne_aru {w : String} {c : Conjugation}
    {l : List String} (h : conjugate w c false = .ok l)
    (hne : w ≠ "ある") : GoodList l :=
  ⟨conjugate_nonnil _ _ _ _ h, conjugate_no_empty_of_ne_aru _ _ _ h hne⟩

theorem conjugate_auxiliary_fuel_props :
    ∀ (n : Nat) (v : String) (a : Auxiliary) (c : Conjugation) (t2 : Bool)
      (l : List String), conjugate_auxiliary_fuel n v a c t2 = .ok l →
      GoodList l := by
  intro n
  induction n with
  | zero => intro v a c t2 l h; cases h
  | succ n ih =>
    intro v a c t2 l h
    cases a
    case potential =>
      simp only [conjugate_auxiliary_fuel] at h
      rcases pyBind_ok_elim h with ⟨stem, hstem, h⟩
      have hstem_ne : stem ≠ "" := by
        cases t2 with
        | true =>
          rw [if_pos rfl] at hstem
          rcases pyBind_ok_elim hstem with ⟨l0, hl0, hh⟩
          intro hse
          rcases (conjugate_type2_props v .conditional l0 hl0).2 stem
              (pyHead_ok hh).2 hse with ⟨_, hc⟩ | ⟨_, hcd⟩
          · rcases hc with hc | hc | hc | hc <;> cases hc
          · cases hcd
        | false =>
          rw [if_neg (by simp)] at hstem
          rcases pyBind_ok_elim hstem with ⟨l0, hl0, hh⟩
          intro hse
          rcases (conjugate_type1_props v .conditional l0 hl0).2 stem
              (pyHead_ok hh).2 hse with ⟨_, hc⟩
          cases hc
      refine conjugate_goodList_flag_true h ?_
      rw [dropRightN_one_append stem "る" (by decide)]
      rw [show dropRightN "る" 1 = "" from rfl]
      simpa using hstem_ne
    case masu =>
      simp only [conjugate_auxiliary_fuel] at h
      rcases pyBind_ok_elim h with ⟨base, hbase, h⟩
      split at h <;>
        first
        | exact Except.noConfusion h
        | (cases h
           refine ⟨by simp, ?_⟩
           intro s hs
           fin_cases hs <;> exact append_ne_empty_right _ _ (by decide))
    case nai =>
      simp only [conjugate_auxiliary_fuel] at h
      rcases pyBind_ok_elim h with ⟨base, hbase, h⟩
      split at h <;>
        first
        | exact Except.noConfusion h
        | (cases h
           refine ⟨by simp, ?_⟩
           intro s hs
           fin_cases hs <;> exact append_ne_empty_right _ _ (by decide))
    case tai =>
      simp only [conjugate_auxiliary_fuel] at h
      rcases pyBind_ok_elim h with ⟨base, hbase, h⟩
      split at h <;>
        first
        | exact Except.noConfusion h
        | (cases h
           refine ⟨by simp, ?_⟩
           intro s hs
           fin_cases hs <;> exact append_ne_empty_right _ _ (by decide))
    case tagaru =>
      simp only [conjugate_auxiliary_fuel] at h
      split at h
      · exact absurd h (by simp)
      rcases pyBind_ok_elim h with ⟨bases, hbases, h⟩
      rcases pyBind_ok_elim h with ⟨tagaruConj, htc, h⟩
      rcases pyBind_ok_elim h with ⟨b0, hb0, h⟩
      cases h
      refine ⟨?_, ?_⟩
      · simp only [ne_eq, List.map_eq_nil_iff]
        exact conjugate_nonnil _ _ _ _ htc
      · intro s hs
        rcases List.mem_map.mp hs with ⟨sfx, hsfx, rfl⟩
        have hsfx_ne : sfx ≠ "" :=
          conjugate_no_empty_of_ne_aru _ _ _ htc (by decide) sfx hsfx
        exact append_ne_empty_right _ _ hsfx_ne
    case hoshii =>
      simp only [conjugate_auxiliary_fuel] at h
      rcases pyBind_ok_elim h with ⟨base, hbase, h⟩
      split at h <;>
        first
        | exact Except.noConfusion h
        | (cases h
           refine ⟨by simp, ?_⟩
           intro s hs
           fin_cases hs <;> exact append_ne_empty_right _ _ (by decide))
    case rashii =>
      simp only [conjugate_auxiliary_fuel] at h
      rcases pyBind_ok_elim h with ⟨base1, hbase1, h⟩
      split at h
      case _ =>
        rcases pyBind_ok_elim h with ⟨neg0, hneg0, h⟩
        cases h
        refine ⟨by simp, ?_⟩
        intro s hs
        fin_cases hs
        exact append_ne_empty_right _ _ (by decide)
      case _ =>
        cases h
        refine ⟨by simp, ?_⟩
        intro s hs
        fin_cases hs <;> exact append_ne_empty_right _ _ (by decide)
      case _ =>
        cases h
        refine ⟨by simp, ?_⟩
        intro s hs
        fin_cases hs <;> exact append_ne_empty_right _ _ (by decide)
      case _ =>
        cases h
        refine ⟨by simp, ?_⟩
        intro s hs
        fin_cases hs <;> exact append_ne_empty_right _ _ (by decide)
      case _ => exact Except.noConfusion h
    case soudaHearsay =>
      simp only [conjugate_auxiliary_fuel] at h
      rcases pyBind_ok_elim h with ⟨base1, hbase1, h⟩
      split at h
      case _ =>
        cases h
        refine ⟨by simp, ?_⟩
        intro s hs
        fin_cases hs <;> exact append_ne_empty_right _ _ (by decide)
      case _ => exact Except.noConfusion h
    case soudaConjecture =>
      simp only [conjugate_auxiliary_fuel] at h
      rcases pyBind_ok_elim h with ⟨base, hbase, h⟩
      split at h <;>
        first
        | exact Except.noConfusion h
        | (cases h
           refine ⟨by simp, ?_⟩
           intro s hs
           fin_cases hs <;> exact append_ne_empty_right _ _ (by decide))

    case seruSaseru =>
      simp only [conjugate_auxiliary_fuel] at h
      split at h
      · exact Except.noConfusion h
      rcases pyBind_ok_elim h with ⟨newVerb, hnv, h⟩
      refine conjugate_goodList_flag_true h ?_
      split at hnv
      · cases hnv
        rw [dropRightN_one_append _ "させる" (by decide)]
        exact append_ne_empty_right _ _ (by decide)
      split at hnv
      · cases hnv
        decide
      split at hnv
      · rcases pyBind_ok_elim hnv with ⟨s0, hs0, hnv⟩
        cases hnv
        rw [dropRightN_one_append _ "させる" (by decide)]
        exact append_ne_empty_right _ _ (by decide)
      · rcases pyBind_ok_elim hnv with ⟨s0, hs0, hnv⟩
        cases hnv
        rw [dropRightN_one_append _ "せる" (by decide)]
        exact append_ne_empty_right _ _ (by decide)
    case shortenedCausative =>
      simp only [conjugate_auxiliary_fuel] at h
      split at h
      · exact Except.noConfusion h
      rcases pyBind_ok_elim h with ⟨newVerb, hnv, h⟩
      exact conjugate_goodList_ne_aru h
        (ne_of_suffix_mismatch _ "す" "ある" (by decide))
    case reruRareru =>
      simp only [conjugate_auxiliary_fuel] at h
      split at h
      · exact Except.noConfusion h
      rcases pyBind_ok_elim h with ⟨newVerb, hnv, h⟩
      refine conjugate_goodList_flag_true h ?_
      split at hnv
      · cases hnv
        rw [dropRightN_one_append _ "られる" (by decide)]
        exact append_ne_empty_right _ _ (by decide)
      split at hnv
      · cases hnv
        decide
      split at hnv
      · rcases pyBind_ok_elim hnv with ⟨s0, hs0, hnv⟩
        cases hnv
        rw [dropRightN_one_append _ "られる" (by decide)]
        exact append_ne_empty_right _ _ (by decide)
      · rcases pyBind_ok_elim hnv with ⟨s0, hs0, hnv⟩
        cases hnv
        rw [dropRightN_one_append _ "れる" (by decide)]
        exact append_ne_empty_right _ _ (by decide)
    case causativePassive =>
      simp only [conjugate_auxiliary_fuel] at h
      rcases pyBind_ok_elim h with ⟨causative, hcaus, h⟩
      refine conjugate_goodList_flag_true h ?_
      rw [dropRightN_one_append _ "られる" (by decide)]
      exact append_ne_empty_right _ _ (by decide)
    case shortenedCausativePassive =>
      simp only [conjugate_auxiliary_fuel] at h
      rcases pyBind_ok_elim h with ⟨causative, hcaus, h⟩
      refine conjugate_goodList_flag_true h ?_
      rw [dropRightN_one_append _ "れる" (by decide)]
      exact append_ne_empty_right _ _ (by decide)
    case shimau =>
      simp only [conjugate_auxiliary_fuel] at h
      rcases pyBind_ok_elim h with ⟨vte, hvtebind, h⟩
      rcases pyBind_ok_elim h with ⟨shimauForms, hsh, h⟩
      split at h
      · rcases pyBind_ok_elim h with ⟨chau, hchau, h⟩
        rcases pyBind_ok_elim h with ⟨chimau, hchimau, h⟩
        cases h
        constructor
        · have := conjugate_nonnil _ _ _ _ hsh
          simp [this]
        · intro s hs
          rcases List.mem_append.mp hs with hs | hs
          · rcases List.mem_append.mp hs with hs | hs
            · exact conjugate_no_empty_of_ne_aru _ _ _ hsh
                (ne_of_suffix_mismatch _ "しまう" "ある" (by decide)) s hs
            · exact conjugate_no_empty_of_ne_aru _ _ _ hchau
                (ne_of_suffix_mismatch _ "ちゃう" "ある" (by decide)) s hs
          · exact conjugate_no_empty_of_ne_aru _ _ _ hchimau
              (ne_of_suffix_mismatch _ "ちまう" "ある" (by decide)) s hs
      · rcases pyBind_ok_elim h with ⟨jimau, hjimau, h⟩
        rcases pyBind_ok_elim h with ⟨dimau, hdimau, h⟩
        cases h
        constructor
        · have := conjugate_nonnil _ _ _ _ hsh
          simp [this]
        · intro s hs
          rcases List.mem_append.mp hs with hs | hs
          · rcases List.mem_append.mp hs with hs | hs
            · exact conjugate_no_empty_of_ne_aru _ _ _ hsh
                (ne_of_suffix_mismatch _ "しまう" "ある" (by decide)) s hs
            · exact conjugate_no_empty_of_ne_aru _ _ _ hjimau
                (ne_of_suffix_mismatch _ "じまう" "ある" (by decide)) s hs
          · exact conjugate_no_empty_of_ne_aru _ _ _ hdimau
              (ne_of_suffix_mismatch _ "ぢまう" "ある" (by decide)) s hs

    case ageru =>
      simp only [conjugate_auxiliary_fuel, teGroupEndings, reduceIte] at h
      rcases pyBind_ok_elim h with ⟨vte, hvtebind, h⟩
      rcases pyBind_ok_elim hvtebind with ⟨lte, hlte, hph⟩
      have hvte_ne : vte ≠ "" := vte_ne_empty hlte (pyHead_ok hph).2
      simp only [pyBind] at h
      refine goodList_pyFlatMapM h (by simp) ?_
      intro x hx l2 hl2
      rcases List.mem_map.mp hx with ⟨e, he, rfl⟩
      fin_cases he
      · refine conjugate_goodList_flag_true hl2 ?_
        rw [dropRightN_one_append _ _ (by decide)]
        exact append_ne_empty_right _ _ (by decide)

    case sashiageru =>
      simp only [conjugate_auxiliary_fuel, teGroupEndings, reduceIte] at h
      rcases pyBind_ok_elim h with ⟨vte, hvtebind, h⟩
      rcases pyBind_ok_elim hvtebind with ⟨lte, hlte, hph⟩
      have hvte_ne : vte ≠ "" := vte_ne_empty hlte (pyHead_ok hph).2
      simp only [pyBind] at h
      refine goodList_pyFlatMapM h (by simp) ?_
      intro x hx l2 hl2
      rcases List.mem_map.mp hx with ⟨e, he, rfl⟩
      fin_cases he
      · refine conjugate_goodList_flag_true hl2 ?_
        rw [dropRightN_one_append _ _ (by decide)]
        exact append_ne_empty_right _ _ (by decide)
      · refine conjugate_goodList_flag_true hl2 ?_
        rw [dropRightN_one_append _ _ (by decide)]
        exact append_ne_empty_right _ _ (by decide)

    case yaru =>
      simp only [conjugate_auxiliary_fuel, teGroupEndings, reduceIte] at h
      rcases pyBind_ok_elim h with ⟨vte, hvtebind, h⟩
      rcases pyBind_ok_elim hvtebind with ⟨lte, hlte, hph⟩
      have hvte_ne : vte ≠ "" := vte_ne_empty hlte (pyHead_ok hph).2
      simp only [pyBind] at h
      refine goodList_pyFlatMapM h (by simp) ?_
      intro x hx l2 hl2
      rcases List.mem_map.mp hx with ⟨e, he, rfl⟩
      fin_cases he
      · exact conjugate_goodList_ne_aru hl2
          (ne_of_suffix_mismatch _ "やる" "ある" (by decide))

    case morau =>
      simp only [conjugate_auxiliary_fuel, teGroupEndings, reduceIte] at h
      rcases pyBind_ok_elim h with ⟨vte, hvtebind, h⟩
      rcases pyBind_ok_elim hvtebind with ⟨lte, hlte, hph⟩
      have hvte_ne : vte ≠ "" := vte_ne_empty hlte (pyHead_ok hph).2
      simp only [pyBind] at h
      refine goodList_pyFlatMapM h (by simp) ?_
      intro x hx l2 hl2
      rcases List.mem_map.mp hx with ⟨e, he, rfl⟩
      fin_cases he
      · exact conjugate_goodList_ne_aru hl2
          (ne_of_suffix_mismatch _ "もらう" "ある" (by decide))

    case itadaku =>
      simp only [conjugate_auxiliary_fuel, teGroupEndings, reduceIte] at h
      rcases pyBind_ok_elim h with ⟨vte, hvtebind, h⟩
      rcases pyBind_ok_elim hvtebind with ⟨lte, hlte, hph⟩
      have hvte_ne : vte ≠ "" := vte_ne_empty hlte (pyHead_ok hph).2
      simp only [pyBind] at h
      refine goodList_pyFlatMapM h (by simp) ?_
      intro x hx l2 hl2
      rcases List.mem_map.mp hx with ⟨e, he, rfl⟩
      fin_cases he
      · exact conjugate_goodList_ne_aru hl2
          (ne_of_suffix_mismatch _ "いただく" "ある" (by decide))

    case kureru =>
      simp only [conjugate_auxiliary_fuel, teGroupEndings, reduceIte] at h
      rcases pyBind_ok_elim h with ⟨vte, hvtebind, h⟩
      rcases pyBind_ok_elim hvtebind with ⟨lte, hlte, hph⟩
      have hvte_ne : vte ≠ "" := vte_ne_empty hlte (pyHead_ok hph).2
      simp only [pyBind] at h
      refine goodList_pyFlatMapM h (by simp) ?_
      intro x hx l2 hl2
      rcases List.mem_map.mp hx with ⟨e, he, rfl⟩
      fin_cases he
      · refine conjugate_goodList_flag_true hl2 ?_
        rw [dropRightN_one_append _ _ (by decide)]
        exact append_ne_empty_right _ _ (by decide)

    case kudasaru =>
      simp only [conjugate_auxiliary_fuel, teGroupEndings, reduceIte] at h
      rcases pyBind_ok_elim h with ⟨vte, hvtebind, h⟩
      rcases pyBind_ok_elim hvtebind with ⟨lte, hlte, hph⟩
      have hvte_ne : vte ≠ "" := vte_ne_empty hlte (pyHead_ok hph).2
      simp only [pyBind] at h
      refine goodList_pyFlatMapM h (by simp) ?_
      intro x hx l2 hl2
      rcases List.mem_map.mp hx with ⟨e, he, rfl⟩
      fin_cases he
      · exact conjugate_goodList_ne_aru hl2
          (ne_of_suffix_mismatch _ "くださる" "ある" (by decide))

    case teIru =>
      simp only [conjugate_auxiliary_fuel, teGroupEndings, reduceIte] at h
      rcases pyBind_ok_elim h with ⟨vte, hvtebind, h⟩
      rcases pyBind_ok_elim hvtebind with ⟨lte, hlte, hph⟩
      have hvte_ne : vte ≠ "" := vte_ne_empty hlte (pyHead_ok hph).2
      simp only [pyBind] at h
      refine goodList_pyFlatMapM h (by simp) ?_
      intro x hx l2 hl2
      rcases List.mem_map.mp hx with ⟨e, he, rfl⟩
      fin_cases he
      · refine conjugate_goodList_flag_true hl2 ?_
        rw [dropRightN_one_append _ _ (by decide)]
        exact append_ne_empty_right _ _ (by decide)
      · refine conjugate_goodList_flag_true hl2 ?_
        rw [dropRightN_one_append _ "る" (by decide)]
        rw [show dropRightN "る" 1 = "" from rfl]
        simpa using hvte_ne

    case teAru =>
      simp only [conjugate_auxiliary_fuel, teGroupEndings, reduceIte] at h
      rcases pyBind_ok_elim h with ⟨vte, hvtebind, h⟩
      rcases pyBind_ok_elim hvtebind with ⟨lte, hlte, hph⟩
      have hvte_ne : vte ≠ "" := vte_ne_empty hlte (pyHead_ok hph).2
      simp only [pyBind] at h
      refine goodList_pyFlatMapM h (by simp) ?_
      intro x hx l2 hl2
      rcases List.mem_map.mp hx with ⟨e, he, rfl⟩
      fin_cases he
      · exact conjugate_goodList_ne_aru hl2
          (append_ne_self_of_ne vte "ある" hvte_ne)

    case miru =>
      simp only [conjugate_auxiliary_fuel, teGroupEndings, reduceIte] at h
      rcases pyBind_ok_elim h with ⟨vte, hvtebind, h⟩
      rcases pyBind_ok_elim hvtebind with ⟨lte, hlte, hph⟩
      have hvte_ne : vte ≠ "" := vte_ne_empty hlte (pyHead_ok hph).2
      simp only [pyBind] at h
      refine goodList_pyFlatMapM h (by simp) ?_
      intro x hx l2 hl2
      rcases List.mem_map.mp hx with ⟨e, he, rfl⟩
      fin_cases he
      · refine conjugate_goodList_flag_true hl2 ?_
        rw [dropRightN_one_append _ _ (by decide)]
        exact append_ne_empty_right _ _ (by decide)

    case iku =>
      simp only [conjugate_auxiliary_fuel, teGroupEndings, reduceIte] at h
      rcases pyBind_ok_elim h with ⟨vte, hvtebind, h⟩
      simp only [pyBind] at h
      refine goodList_pyFlatMapM h (by simp) ?_
      intro x hx l2 hl2
      simp only [List.map_cons, List.map_nil, List.cons_append,
        List.nil_append] at hx
      rcases List.mem_cons.mp hx with hx | hx
      · subst hx
        exact conjugate_goodList_ne_aru hl2
          (ne_of_suffix_mismatch _ "いく" "ある" (by decide))
      · simp only [List.mem_singleton] at hx
        subst hx
        exact conjugate_goodList_ne_aru hl2
          (ne_of_suffix_mismatch _ "く" "ある" (by decide))
    case kuru =>
      simp only [conjugate_auxiliary_fuel, teGroupEndings, reduceIte] at h
      rcases pyBind_ok_elim h with ⟨vte, hvtebind, h⟩
      rcases pyBind_ok_elim h with ⟨kuruForms, hkf, h⟩
      cases h
      constructor
      · simp only [ne_eq, List.map_eq_nil_iff]
        exact conjugate_nonnil _ _ _ _ hkf
      · intro s hs
        rcases List.mem_map.mp hs with ⟨sfx, hsfx, rfl⟩
        exact append_ne_empty_right _ _
          (conjugate_no_empty_of_ne_aru _ _ _ hkf (by decide) sfx hsfx)
    case oku =>
      simp only [conjugate_auxiliary_fuel, teGroupEndings, reduceIte] at h
      rcases pyBind_ok_elim h with ⟨vte, hvtebind, h⟩
      rcases pyBind_ok_elim h with ⟨allVerbs, hall, h⟩
      rcases pyBind_ok_elim hall with ⟨c0, hc0, hall⟩
      cases hall
      refine goodList_pyFlatMapM h (by simp) ?_
      intro x hx l2 hl2
      simp only [List.map_cons, List.map_nil, List.cons_append,
        List.nil_append] at hx
      rcases List.mem_cons.mp hx with hx | hx
      · subst hx
        exact conjugate_goodList_ne_aru hl2
          (ne_of_suffix_mismatch _ "おく" "ある" (by decide))
      · simp only [List.mem_singleton] at hx
        subst hx
        by_cases hcc : c0 = 'で'
        · rw [if_pos hcc] at hl2
          exact conjugate_goodList_ne_aru hl2
            (ne_of_suffix_mismatch _ "どく" "ある" (by decide))
        · rw [if_neg hcc] at hl2
          exact conjugate_goodList_ne_aru hl2
            (ne_of_suffix_mismatch _ "とく" "ある" (by decide))

    case teOru =>
      simp only [conjugate_auxiliary_fuel, teGroupEndings, reduceIte] at h
      rcases pyBind_ok_elim h with ⟨vte, hvtebind, h⟩
      rcases pyBind_ok_elim hvtebind with ⟨lte, hlte, hph⟩
      have hvte_ne : vte ≠ "" := vte_ne_empty hlte (pyHead_ok hph).2
      simp only [pyBind] at h
      refine goodList_pyFlatMapM h (by simp) ?_
      intro x hx l2 hl2
      rcases List.mem_map.mp hx with ⟨e, he, rfl⟩
      fin_cases he
      · exact conjugate_goodList_ne_aru hl2
          (ne_of_suffix_mismatch _ "おる" "ある" (by decide))

    all_goals
      simp only [conjugate_auxiliary_fuel, teGroupEndings] at h
      exact Except.noConfusion h

theorem conjugate_auxiliary_fuel_okOrVE :
    ∀ (n : Nat) (v : String) (a : Auxiliary) (c : Conjugation) (t2 : Bool),
      v ≠ "" → OkOrVE (conjugate_auxiliary_fuel n v a c t2) := by
  intro n
  induction n with
  | zero => intro v a c t2 hv; exact okOrVE_ve
  | succ n ih =>
    intro v a c t2 hv
    cases a
    case potential =>
      simp only [conjugate_auxiliary_fuel]
      refine okOrVE_pyBind ?_ fun stem _ =>
        conjugate_okOrVE _ _ _ (append_ne_empty_right _ _ (by decide))
      cases t2
      · rw [if_neg (by simp)]
        exact okOrVE_pyBind (conjugate_type1_okOrVE v _ hv) fun l0 hl0 =>
          okOrVE_pyHead l0 (conjugate_type1_props v _ l0 hl0).1
      · rw [if_pos rfl]
        exact okOrVE_pyBind (conjugate_type2_okOrVE v _) fun l0 hl0 =>
          okOrVE_pyHead l0 (conjugate_type2_props v _ l0 hl0).1
    case masu =>
      simp only [conjugate_auxiliary_fuel]
      refine okOrVE_pyBind
        (okOrVE_pyBind (conjugate_okOrVE v _ t2 hv) fun l0 hl0 =>
          okOrVE_pyHead l0 (conjugate_nonnil _ _ _ _ hl0)) fun base _ => ?_
      cases c <;> first | exact okOrVE_ok _ | exact okOrVE_ve
    case nai =>
      simp only [conjugate_auxiliary_fuel]
      refine okOrVE_pyBind
        (okOrVE_pyBind (conjugate_okOrVE v _ t2 hv) fun l0 hl0 =>
          okOrVE_pyHead l0 (conjugate_nonnil _ _ _ _ hl0)) fun base _ => ?_
      cases c <;> first | exact okOrVE_ok _ | exact okOrVE_ve
    case tai =>
      simp only [conjugate_auxiliary_fuel]
      refine okOrVE_pyBind
        (okOrVE_pyBind (conjugate_okOrVE v _ t2 hv) fun l0 hl0 =>
          okOrVE_pyHead l0 (conjugate_nonnil _ _ _ _ hl0)) fun base _ => ?_
      cases c <;> first | exact okOrVE_ok _ | exact okOrVE_ve
    case tagaru =>
      simp only [conjugate_auxiliary_fuel]
      split
      · exact okOrVE_ve
      refine okOrVE_pyBind (conjugate_okOrVE v _ t2 hv) fun bases hbases =>
        okOrVE_pyBind (conjugate_okOrVE _ _ _ (by decide)) fun tc _ =>
          okOrVE_pyBind (okOrVE_pyHead bases
            (conjugate_nonnil _ _ _ _ hbases)) fun b0 _ => okOrVE_ok _
    case hoshii =>
      simp only [conjugate_auxiliary_fuel]
      refine okOrVE_pyBind
        (okOrVE_pyBind (conjugate_okOrVE v _ t2 hv) fun l0 hl0 =>
          okOrVE_pyHead l0 (conjugate_nonnil _ _ _ _ hl0)) fun base _ => ?_
      cases c <;> first | exact okOrVE_ok _ | exact okOrVE_ve
    case rashii =>
      simp only [conjugate_auxiliary_fuel]
      refine okOrVE_pyBind
        (okOrVE_pyBind (conjugate_okOrVE v _ t2 hv) fun l0 hl0 =>
          okOrVE_pyHead l0 (conjugate_nonnil _ _ _ _ hl0)) fun base1 _ => ?_
      cases c <;>
        first
        | exact okOrVE_ok _
        | exact okOrVE_ve
        | exact okOrVE_pyBind
            (okOrVE_pyBind (ih v .nai .dictionary false hv) fun l1 hl1 =>
              okOrVE_pyHead l1
                (conjugate_auxiliary_fuel_props n v .nai .dictionary false
                  l1 hl1).1) fun neg0 _ => okOrVE_ok _
    case soudaHearsay =>
      simp only [conjugate_auxiliary_fuel]
      refine okOrVE_pyBind
        (okOrVE_pyBind (conjugate_okOrVE v _ t2 hv) fun l0 hl0 =>
          okOrVE_pyHead l0 (conjugate_nonnil _ _ _ _ hl0)) fun base1 _ => ?_
      cases c <;> first | exact okOrVE_ok _ | exact okOrVE_ve
    case soudaConjecture =>
      simp only [conjugate_auxiliary_fuel]
      refine okOrVE_pyBind
        (okOrVE_pyBind (conjugate_okOrVE v _ t2 hv) fun l0 hl0 =>
          okOrVE_pyHead l0 (conjugate_nonnil _ _ _ _ hl0)) fun base _ => ?_
      cases c <;> first | exact okOrVE_ok _ | exact okOrVE_ve
    case seruSaseru =>
      simp only [conjugate_auxiliary_fuel]
      split
      · exact okOrVE_ve
      refine okOrVE_pyBind ?_ fun newVerb hnv => ?_
      · split
        · exact okOrVE_ok _
        split
        · exact okOrVE_ok _
        split
        · exact okOrVE_pyBind
            (okOrVE_pyBind (conjugate_type2_okOrVE v _) fun l0 hl0 =>
              okOrVE_pyHead l0 (conjugate_type2_props v _ l0 hl0).1)
            fun s0 _ => okOrVE_ok _
        · exact okOrVE_pyBind
            (okOrVE_pyBind (conjugate_type1_okOrVE v _ hv) fun l0 hl0 =>
              okOrVE_pyHead l0 (conjugate_type1_props v _ l0 hl0).1)
            fun s0 _ => okOrVE_ok _
      · refine conjugate_okOrVE _ _ _ ?_
        split at hnv
        · cases hnv
          exact append_ne_empty_right _ _ (by decide)
        split at hnv
        · cases hnv
          decide
        split at hnv
        · rcases pyBind_ok_elim hnv with ⟨s0, _, hnv⟩
          cases hnv
          exact append_ne_empty_right _ _ (by decide)
        · rcases pyBind_ok_elim hnv with ⟨s0, _, hnv⟩
          cases hnv
          exact append_ne_empty_right _ _ (by decide)
    case shortenedCausative =>
      simp only [conjugate_auxiliary_fuel]
      split
      · exact okOrVE_ve
      refine okOrVE_pyBind ?_ fun newVerb hnv =>
        conjugate_okOrVE _ _ _ (append_ne_empty_right _ _ (by decide))
      split
      · exact okOrVE_ok _
      split
      · exact okOrVE_ok _
      split
      · exact okOrVE_pyBind
          (okOrVE_pyBind (conjugate_type2_okOrVE v _) fun l0 hl0 =>
            okOrVE_pyHead l0 (conjugate_type2_props v _ l0 hl0).1)
          fun s0 _ => okOrVE_ok _
      · exact okOrVE_pyBind
          (okOrVE_pyBind (conjugate_type1_okOrVE v _ hv) fun l0 hl0 =>
            okOrVE_pyHead l0 (conjugate_type1_props v _ l0 hl0).1)
          fun s0 _ => okOrVE_ok _
    case reruRareru =>
      simp only [conjugate_auxiliary_fuel]
      split
      · exact okOrVE_ve
      refine okOrVE_pyBind ?_ fun newVerb hnv => ?_
      · split
        · exact okOrVE_ok _
        split
        · exact okOrVE_ok _
        split
        · exact okOrVE_pyBind
            (okOrVE_pyBind (conjugate_type2_okOrVE v _) fun l0 hl0 =>
              okOrVE_pyHead l0 (conjugate_type2_props v _ l0 hl0).1)
            fun s0 _ => okOrVE_ok _
        · exact okOrVE_pyBind
            (okOrVE_pyBind (conjugate_type1_okOrVE v _ hv) fun l0 hl0 =>
              okOrVE_pyHead l0 (conjugate_type1_props v _ l0 hl0).1)
            fun s0 _ => okOrVE_ok _
      · refine conjugate_okOrVE _ _ _ ?_
        split at hnv
        · cases hnv
          exact append_ne_empty_right _ _ (by decide)
        split at hnv
        · cases hnv
          decide
        split at hnv
        · rcases pyBind_ok_elim hnv with ⟨s0, _, hnv⟩
          cases hnv
          exact append_ne_empty_right _ _ (by decide)
        · rcases pyBind_ok_elim hnv with ⟨s0, _, hnv⟩
          cases hnv
          exact append_ne_empty_right _ _ (by decide)
    case causativePassive =>
      simp only [conjugate_auxiliary_fuel]
      exact okOrVE_pyBind
        (okOrVE_pyBind (ih v .seruSaseru .negative t2 hv) fun l0 hl0 =>
          okOrVE_pyHead l0
            (conjugate_auxiliary_fuel_props n v .seruSaseru .negative t2
              l0 hl0).1) fun causative _ =>
        conjugate_okOrVE _ _ _ (append_ne_empty_right _ _ (by decide))
    case shortenedCausativePassive =>
      simp only [conjugate_auxiliary_fuel]
      exact okOrVE_pyBind
        (okOrVE_pyBind (ih v .shortenedCausative .negative t2 hv) fun l0 hl0 =>
          okOrVE_pyHead l0
            (conjugate_auxiliary_fuel_props n v .shortenedCausative .negative
              t2 l0 hl0).1) fun causative _ =>
        conjugate_okOrVE _ _ _ (append_ne_empty_right _ _ (by decide))
    case shimau =>
      simp only [conjugate_auxiliary_fuel]
      refine okOrVE_pyBind
        (okOrVE_pyBind (conjugate_okOrVE v _ t2 hv) fun l0 hl0 =>
          okOrVE_pyHead l0 (conjugate_nonnil _ _ _ _ hl0)) fun vte _ => ?_
      refine okOrVE_pyBind
        (conjugate_okOrVE _ _ _ (append_ne_empty_right _ _ (by decide)))
        fun shimauForms _ => ?_
      split
      · exact okOrVE_pyBind
          (conjugate_okOrVE _ _ _ (append_ne_empty_right _ _ (by decide)))
          fun chau _ => okOrVE_pyBind
            (conjugate_okOrVE _ _ _ (append_ne_empty_right _ _ (by decide)))
            fun chimau _ => okOrVE_ok _
      · exact okOrVE_pyBind
          (conjugate_okOrVE _ _ _ (append_ne_empty_right _ _ (by decide)))
          fun jimau _ => okOrVE_pyBind
            (conjugate_okOrVE _ _ _ (append_ne_empty_right _ _ (by decide)))
            fun dimau _ => okOrVE_ok _
    case kuru =>
      simp only [conjugate_auxiliary_fuel, teGroupEndings, reduceIte]
      refine okOrVE_pyBind
        (okOrVE_pyBind (conjugate_okOrVE v _ t2 hv) fun l0 hl0 =>
          okOrVE_pyHead l0 (conjugate_nonnil _ _ _ _ hl0)) fun vte _ => ?_
      exact okOrVE_pyBind (conjugate_okOrVE _ _ _ (by decide))
        fun kuruForms _ => okOrVE_ok _
    case oku =>
      simp only [conjugate_auxiliary_fuel, teGroupEndings, reduceIte]
      refine okOrVE_pyBind
        (okOrVE_pyBind (conjugate_okOrVE v _ t2 hv) fun l0 hl0 =>
          okOrVE_pyHead l0 (conjugate_nonnil _ _ _ _ hl0)) fun vte hvte => ?_
      have hvte_ne : vte ≠ "" := by
        rcases pyBind_ok_elim hvte with ⟨lte, hlte, hph⟩
        exact vte_ne_empty hlte (pyHead_ok hph).2
      refine okOrVE_pyBind
        (okOrVE_pyBind (okOrVE_pyLastChar vte hvte_ne) fun c0 _ =>
          okOrVE_ok _) fun allVerbs hall => ?_
      rcases pyBind_ok_elim hall with ⟨c0, _, hall⟩
      cases hall
      refine okOrVE_pyFlatMapM _ _ fun x hx => ?_
      refine conjugate_okOrVE _ _ _ ?_
      simp only [List.map_cons, List.map_nil, List.mem_cons,
        List.mem_append, List.mem_singleton, List.not_mem_nil,
        or_false] at hx
      rcases hx with hx | hx
      · subst hx
        exact append_ne_empty_right _ _ (by decide)
      · subst hx
        exact append_ne_empty_right _ _ (by split <;> decide)
    all_goals
      simp only [conjugate_auxiliary_fuel, teGroupEndings, reduceIte]
      first
      | exact okOrVE_ve
      | (refine okOrVE_pyBind
          (okOrVE_pyBind (conjugate_okOrVE v _ t2 hv) fun l0 hl0 =>
            okOrVE_pyHead l0 (conjugate_nonnil _ _ _ _ hl0)) fun vte _ => ?_
         simp only [pyBind]
         refine okOrVE_pyFlatMapM _ _ fun x hx => ?_
         refine conjugate_okOrVE _ _ _ ?_
         simp only [List.map_cons, List.map_nil, List.mem_cons,
           List.mem_append, List.mem_singleton, List.not_mem_nil,
           or_false] at hx
         first
         | (rcases hx with hx | hx) <;>
             (subst hx; exact append_ne_empty_right _ _ (by decide))
         | (subst hx; exact append_ne_empty_right _ _ (by decide)))

theorem conjugate_auxiliary_okOrVE (v : String) (a : Auxiliary)
    (c : Conjugation) (t2 : Bool) (hv : v ≠ "") :
    OkOrVE (conjugate_auxiliary v a c t2) :=
  conjugate_auxiliary_fuel_okOrVE 2 v a c t2 hv

theorem conjugate_auxiliary_props {v : String} {a : Auxiliary}
    {c : Conjugation} {t2 : Bool} {l : List String}
    (h : conjugate_auxiliary v a c t2 = .ok l) : GoodList l :=
  conjugate_auxiliary_fuel_props 2 v a c t2 l h

theorem conjugate_aux_loop_inv :
    ∀ (auxs : List Auxiliary) (fc : Conjugation) (prev : Option Auxiliary)
      (verbs : List String) (t2 : Bool),
      GoodList verbs →
      OkOrVE (conjugate_aux_loop fc prev verbs t2 auxs) ∧
      ∀ l, conjugate_aux_loop fc prev verbs t2 auxs = .ok l → GoodList l := by
  intro auxs
  induction auxs with
  | nil =>
    intro fc prev verbs t2 hg
    exact ⟨okOrVE_ok _, fun l hl => by cases hl; exact hg⟩
  | cons aux rest ih =>
    intro fc prev verbs t2 hg
    simp only [conjugate_aux_loop]
    split
    · exact ⟨okOrVE_ve, fun l hl => Except.noConfusion hl⟩
    have hinner :
        OkOrVE (if prev = some Auxiliary.kuru then
            pyBind
              (conjugate_auxiliary "くる" aux
                (if rest.isEmpty then fc else Conjugation.dictionary) false)
              fun tails =>
                .ok ((verbs.map fun s => dropRightN s 2).flatMap fun h =>
                  tails.map fun t => h ++ t)
          else
            pyFlatMapM
              (fun v => conjugate_auxiliary v aux
                (if rest.isEmpty then fc else Conjugation.dictionary) t2)
              verbs) ∧
        ∀ verbs', (if prev = some Auxiliary.kuru then
            pyBind
              (conjugate_auxiliary "くる" aux
                (if rest.isEmpty then fc else Conjugation.dictionary) false)
              fun tails =>
                .ok ((verbs.map fun s => dropRightN s 2).flatMap fun h =>
                  tails.map fun t => h ++ t)
          else
            pyFlatMapM
              (fun v => conjugate_auxiliary v aux
                (if rest.isEmpty then fc else Conjugation.dictionary) t2)
              verbs) = .ok verbs' → GoodList verbs' := by
      by_cases hprev : prev = some Auxiliary.kuru
      · rw [if_pos hprev]
        constructor
        · exact okOrVE_pyBind
            (conjugate_auxiliary_okOrVE _ _ _ _ (by decide))
            fun tails _ => okOrVE_ok _
        · intro verbs' hv'
          rcases pyBind_ok_elim hv' with ⟨tails, htails, hv'⟩
          cases hv'
          have hgt := conjugate_auxiliary_props htails
          rcases hg with ⟨hne, _⟩
          constructor
          · rcases List.exists_mem_of_ne_nil _ hne with ⟨v0, hv0⟩
            rcases List.exists_mem_of_ne_nil _ hgt.1 with ⟨t0, ht0⟩
            exact List.ne_nil_of_mem
              (List.mem_flatMap.mpr
                ⟨dropRightN v0 2, List.mem_map.mpr ⟨v0, hv0, rfl⟩,
                 List.mem_map.mpr ⟨t0, ht0, rfl⟩⟩)
          · intro s hs
            rcases List.mem_flatMap.mp hs with ⟨h0, _, hs⟩
            rcases List.mem_map.mp hs with ⟨t0, ht0, hst⟩
            subst hst
            exact append_ne_empty_right _ _ (hgt.2 t0 ht0)
      · rw [if_neg hprev]
        constructor
        · exact okOrVE_pyFlatMapM _ _ fun x hx =>
            conjugate_auxiliary_okOrVE _ _ _ _ (hg.2 x hx)
        · intro verbs' hv'
          exact goodList_pyFlatMapM hv' hg.1
            (fun x _ l hl => conjugate_auxiliary_props hl)
    constructor
    · exact okOrVE_pyBind hinner.1 fun verbs' hv' =>
        (ih fc (some aux) verbs' (type2Setter aux)
          (hinner.2 verbs' hv')).1
    · intro l hl
      rcases pyBind_ok_elim hl with ⟨verbs', hv', hl⟩
      exact (ih fc (some aux) verbs' (type2Setter aux)
        (hinner.2 verbs' hv')).2 l hl

theorem pyBind_exists_error {α β : Type} {x : Py α} {f : α → Py β}
    (h : ∀ a, x = .ok a → ∃ e, f a = .error e) :
    ∃ e, pyBind x f = .error e := by
  cases hx : x with
  | error e => exact ⟨e, by simp [pyBind]⟩
  | ok a =>
    rcases h a hx with ⟨e, he⟩
    exact ⟨e, by simp [pyBind, he]⟩

/-- A chain has a terminal-only auxiliary in non-final position. -/
def hasNonFinalFinalOnly : List Auxiliary → Bool
  | [] => false
  | [_] => false
  | a :: rest => finalOnlyAux a || hasNonFinalFinalOnly rest

theorem conjugate_aux_loop_err :
    ∀ (auxs : List Auxiliary), hasNonFinalFinalOnly auxs = true →
      ∀ (fc : Conjugation) (prev : Option Auxiliary) (verbs : List String)
        (t2 : Bool),
        ∃ e, conjugate_aux_loop fc prev verbs t2 auxs = .error e := by
  intro auxs
  induction auxs with
  | nil => intro h; cases h
  | cons a rest ih =>
    intro h fc prev verbs t2
    cases rest with
    | nil => cases h
    | cons b rest' =>
      simp only [hasNonFinalFinalOnly, Bool.or_eq_true] at h
      simp only [conjugate_aux_loop]
      by_cases hfa : finalOnlyAux a = true
      · rw [if_pos ⟨rfl, hfa⟩]
        exact ⟨.valueError, rfl⟩
      · rw [if_neg (fun hc => hfa hc.2)]
        refine pyBind_exists_error fun verbs' _ => ?_
        exact ih (h.resolve_left hfa) fc (some a) verbs' (type2Setter a)

/-- C6: terminal-only auxiliaries are a hard precondition — for every verb,
terminal conjugation, class flag, and auxiliary chain in which some element
other than the last is one of Masu, Nai, Tai, Hoshii, Rashii, SoudaHearsay,
SoudaConjecture, `conjugate_auxiliaries` raises an error and so produces no
surfaces. -/
theorem C6_final_only_non_last_errors (V : String) (K : Conjugation)
    (t2 : Bool) (CH : List Auxiliary)
    (h : hasNonFinalFinalOnly CH = true) :
    ∃ e, conjugate_auxiliaries V CH K t2 = .error e := by
  cases CH with
  | nil => cases h
  | cons a rest =>
    cases rest with
    | nil => cases h
    | cons b rest' =>
      simp only [conjugate_auxiliaries]
      by_cases hcop : V = "だ" ∨ V = "です"
      · rw [if_pos hcop, if_neg (by simp)]
        exact ⟨.valueError, rfl⟩
      · rw [if_neg hcop]
        exact conjugate_aux_loop_err _ h K none [V] t2

theorem C6_final_only_non_last_errors_witness :
    hasNonFinalFinalOnly [Auxiliary.masu, Auxiliary.nai] = true ∧
    ∃ e, conjugate_auxiliaries "食べる" [Auxiliary.masu, Auxiliary.nai]
      Conjugation.ta true = .error e :=
  ⟨by decide,
   C6_final_only_non_last_errors "食べる" Conjugation.ta true
     [Auxiliary.masu, Auxiliary.nai] (by decide)⟩

theorem conjugate_auxiliaries_okOrVE (V : String) (CH : List Auxiliary)
    (K : Conjugation) (t2 : Bool) (hV : V ≠ "") :
    OkOrVE (conjugate_auxiliaries V CH K t2) := by
  cases CH with
  | nil => exact conjugate_okOrVE V K t2 hV
  | cons a rest =>
    simp only [conjugate_auxiliaries]
    by_cases hcop : V = "だ" ∨ V = "です"
    · rw [if_pos hcop]
      repeat' split
      all_goals first | exact okOrVE_ok _ | exact okOrVE_ve
    · rw [if_neg hcop]
      exact (conjugate_aux_loop_inv _ K none [V] t2
        ⟨List.cons_ne_nil _ _, by simpa using hV⟩).1

theorem conjugate_auxiliaries_goodList {V : String} {CH : List Auxiliary}
    {K : Conjugation} {t2 : Bool} {l : List String} (hCH : CH ≠ [])
    (hV : V ≠ "") (h : conjugate_auxiliaries V CH K t2 = .ok l) :
    GoodList l := by
  cases CH with
  | nil => exact absurd rfl hCH
  | cons a rest =>
    simp only [conjugate_auxiliaries] at h
    by_cases hcop : V = "だ" ∨ V = "です"
    · rw [if_pos hcop] at h
      repeat' split at h
      all_goals first
      | (cases h; exact ⟨by decide, by decide⟩)
      | exact Except.noConfusion h
    · rw [if_neg hcop] at h
      exact (conjugate_aux_loop_inv _ K none [V] t2
        ⟨List.cons_ne_nil _ _, by simpa using hV⟩).2 l h

theorem tryCombo_isOk {attempt : Py (List String)} (h : OkOrVE attempt)
    (conjugated : String) (auxs : List Auxiliary) (c : Conjugation) :
    ∃ l, tryCombo conjugated auxs c attempt = .ok l := by
  cases ha : attempt with
  | ok r => exact ⟨_, rfl⟩
  | error e =>
    have he := h e ha
    subst he
    exact ⟨[], rfl⟩

/-- C10: `deconjugate_verb` is total for non-empty dictionary forms — for
every surface, every non-empty dictionary form, every class flag and every
`max_aux_depth`, it returns a (possibly empty) hit list without raising,
because every `ValueError` from an invalid auxiliary/conjugation
combination is caught and the combination skipped. -/
theorem C10_deconjugate_total (S D : String) (t2 : Bool) (d : Nat)
    (hD : D ≠ "") : ∃ hits, deconjugate_verb S D t2 d = .ok hits := by
  unfold deconjugate_verb
  obtain ⟨L0, h0⟩ := pyFlatMapM_isOk _ Conjugation.all fun c _ =>
    tryCombo_isOk (conjugate_okOrVE D c t2 hD) S [] c
  rw [h0]
  simp only [pyBind]
  split
  · exact ⟨_, rfl⟩
  obtain ⟨L1, h1⟩ := pyFlatMapM_isOk _ Auxiliary.all fun a _ =>
    pyFlatMapM_isOk _ Conjugation.all fun c _ =>
      tryCombo_isOk (conjugate_auxiliary_okOrVE D a c t2 hD) S [a] c
  rw [h1]
  simp only [pyBind]
  split
  · exact ⟨_, rfl⟩
  obtain ⟨L2, h2⟩ := pyFlatMapM_isOk _ penultimates fun p _ =>
    pyFlatMapM_isOk _ depth2Finals fun f _ =>
      pyFlatMapM_isOk _ Conjugation.all fun c _ =>
        tryCombo_isOk (conjugate_auxiliaries_okOrVE D [p, f] c t2 hD)
          S [p, f] c
  rw [h2]
  simp only [pyBind]
  split
  · exact ⟨_, rfl⟩
  obtain ⟨L3, h3⟩ := pyFlatMapM_isOk _ antepenultimates fun a3 _ =>
    pyFlatMapM_isOk _ penultimates fun p _ =>
      pyFlatMapM_isOk _ depth3Finals fun f _ =>
        pyFlatMapM_isOk _ Conjugation.all fun c _ =>
          tryCombo_isOk (conjugate_auxiliaries_okOrVE D [a3, p, f] c t2 hD)
            S [a3, p, f] c
  rw [h3]
  simp only [pyBind]
  exact ⟨_, rfl⟩

theorem C10_deconjugate_total_witness :
    "食べる" ≠ "" ∧
    ∃ hits, deconjugate_verb "食べました" "食べる" true 3 = .ok hits :=
  ⟨by decide, C10_deconjugate_total "食べました" "食べる" true 3 (by decide)⟩

/-- C4 counterexample: conjugating the special-case verb ある with the bare
Negative conjugation produces the empty string among the surfaces (the
special Negative stem is the empty string, and `conjugate` returns the bare
stems alongside the suffixed forms). -/
theorem C4_counterexample_aru_negative_empty :
    conjugate "ある" Conjugation.negative false = .ok ["", "ない"] ∧
    "" ∈ ["", "ない"] :=
  ⟨rfl, by decide⟩

/-- C4 amended: forward conjugation never produces the empty string once
the special case ある and single-kana ichidan dictionary forms are
excluded — for every such verb, every auxiliary chain and every terminal
conjugation, no surface returned by `conjugate_auxiliaries` (which is
`conjugate` itself on the empty chain) is empty. -/
theorem C4_amended_no_empty_surface (V : String) (CH : List Auxiliary)
    (K : Conjugation) (t2 : Bool) (l : List String)
    (hAru : V ≠ "ある") (hstem : dropRightN V 1 ≠ "")
    (h : conjugate_auxiliaries V CH K t2 = .ok l) :
    ∀ s ∈ l, s ≠ "" := by
  have hV : V ≠ "" := fun he => hstem (by rw [he]; rfl)
  cases CH with
  | nil =>
    intro s hs hse
    rcases (conjugate_props V K t2 l h).2 s hs hse with
      ⟨hv, _⟩ | ⟨hd, _⟩
    · exact hAru hv
    · exact hstem hd
  | cons a rest =>
    exact (conjugate_auxiliaries_goodList (List.cons_ne_nil _ _) hV h).2

theorem C4_amended_no_empty_surface_witness :
    ("食べる" ≠ "ある" ∧ dropRightN "食べる" 1 ≠ "" ∧
     conjugate_auxiliaries "食べる" [Auxiliary.nai] Conjugation.ta true =
       .ok ["食べなかった"]) ∧
    ∀ s ∈ ["食べなかった"], s ≠ "" :=
  ⟨⟨by decide, by decide, rfl⟩,
   C4_amended_no_empty_surface "食べる" [Auxiliary.nai] Conjugation.ta true
     ["食べなかった"] (by decide) (by decide) rfl⟩

theorem append_left_cancel_str {x a b : String} (h : x ++ a = x ++ b) :
    a = b := by
  have hd : x.data ++ a.data = x.data ++ b.data := by
    have := congrArg String.data h
    rwa [String.data_append, String.data_append] at this
  exact string_eq_of_data _ _ (List.append_cancel_left hd)

theorem notMem_map_append (x : String) (t : String) (sfxs : List String)
    (h : t ∉ sfxs) : x ++ t ∉ sfxs.map (x ++ ·) := by
  intro hm
  rcases List.mem_map.mp hm with ⟨s, hs, he⟩
  exact h (append_left_cancel_str he ▸ hs)

theorem pyLastChar_append (x s : String) (c : Char)
    (h : s.data.getLast? = some c) : pyLastChar (x ++ s) = .ok c := by
  unfold pyLastChar
  rw [show (x ++ s).data = x.data ++ s.data from String.data_append x s]
  rw [List.getLast?_append_of_ne_nil, h]
  intro hn
  rw [hn] at h
  cases h

theorem dropRightN_append_le (x lit : String) (k : Nat)
    (hk : k ≤ lit.data.length) :
    dropRightN (x ++ lit) k = x ++ dropRightN lit k := by
  apply string_eq_of_data
  show ((x ++ lit).data.take ((x ++ lit).data.length - k)) =
    (x ++ ⟨lit.data.take (lit.data.length - k)⟩).data
  rw [String.data_append, String.data_append, List.length_append]
  have harith : x.data.length + lit.data.length - k =
      x.data.length + (lit.data.length - k) := by omega
  rw [harith, List.take_append]

theorem pushChar_dropRight_last {w : String} {c : Char}
    (h : pyLastChar w = .ok c) : pushChar (dropRightN w 1) c = w := by
  have hl : w.data.getLast? = some c := by
    unfold pyLastChar at h
    rcases hg : w.data.getLast? with _ | c0
    · rw [hg] at h
      cases h
    · rw [hg] at h
      cases h
      rfl
  have hne : w.data ≠ [] := by
    intro hn
    rw [hn] at hl
    cases hl
  apply string_eq_of_data
  show w.data.take (w.data.length - 1) ++ [c] = w.data
  rw [← List.dropLast_eq_take]
  conv_rhs => rw [← List.dropLast_append_getLast hne]
  congr 1
  rw [List.getLast?_eq_getLast _ hne] at hl
  rw [Option.some.inj hl]

theorem specialCases_dict (v : String) :
    specialCases v .dictionary = none := by
  unfold specialCases
  split
  · rfl
  split
  · rfl
  split
  · rfl
  · rfl

theorem specialCases_none (v : String) (h1 : v ≠ "ある")
    (h2 : v ≠ "ござる") (h3 : v ≠ "いらっしゃる") (c : Conjugation) :
    specialCases v c = none := by
  unfold specialCases
  rw [if_neg h1, if_neg h2, if_neg h3]

theorem pyEndsWith_append_self (y lit : String) :
    pyEndsWith (y ++ lit) lit = true := by
  unfold pyEndsWith
  rw [List.isSuffixOf_iff_suffix]
  exact ⟨y.data, (String.data_append y lit).symm⟩

theorem pyEndsWith_false_short (y lit t : String)
    (hlen : lit.data.length ≤ t.data.length)
    (h : ¬(lit.data <:+ t.data)) :
    pyEndsWith (y ++ lit) t = false := by
  unfold pyEndsWith
  rw [show (y ++ lit).data = y.data ++ lit.data from String.data_append y lit]
  rw [Bool.eq_false_iff]
  intro hsuf
  rw [List.isSuffixOf_iff_suffix] at hsuf
  exact h (List.suffix_of_suffix_length_le ⟨y.data, rfl⟩ hsuf hlen)

theorem pyEndsWith_false_long (y lit t : String)
    (hlen : t.data.length ≤ lit.data.length)
    (h : ¬(t.data <:+ lit.data)) :
    pyEndsWith (y ++ lit) t = false := by
  unfold pyEndsWith
  rw [show (y ++ lit).data = y.data ++ lit.data from String.data_append y lit]
  rw [Bool.eq_false_iff]
  intro hsuf
  rw [List.isSuffixOf_iff_suffix] at hsuf
  exact h (List.suffix_of_suffix_length_le hsuf ⟨y.data, rfl⟩ hlen)

theorem conjugate_strict_ru_eq (w : String) (c : Conjugation)
    (hlast : pyLastChar w = .ok 'る') :
    conjugate_strict w c true = conjugate_type2 w c := by
  simp only [conjugate_strict, hlast]
  rw [if_pos ⟨trivial, trivial⟩]

theorem conjugate_type2_eq (w : String) (c : Conjugation)
    (h1 : w ≠ "する") (h2 : w ≠ "くる") (h3 : w ≠ "来る")
    (h4 : w ≠ "だ") (h5 : w ≠ "です") :
    conjugate_type2 w c =
      (match c with
      | .negative => .ok [dropRightN w 1]
      | .zu => .ok [dropRightN w 1]
      | .nu => .ok [dropRightN w 1]
      | .conjunctive => .ok [dropRightN w 1]
      | .dictionary => .ok [w]
      | .conditional => .ok [dropRightN w 1 ++ "れ"]
      | .imperative =>
        .ok [dropRightN w 1 ++ "ろ", dropRightN w 1 ++ "よ"]
      | .volitional => .ok [dropRightN w 1 ++ "よう"]
      | .te => .ok [dropRightN w 1 ++ "て"]
      | .ta => .ok [dropRightN w 1 ++ "た"]
      | .tara => .ok [dropRightN w 1 ++ "たら"]
      | .tari => .ok [dropRightN w 1 ++ "たり"]) := by
  unfold conjugate_type2
  rw [if_neg h1, if_neg (by simp [h2, h3]), if_neg h4, if_neg h5]

theorem conjugate_dict_id (w : String)
    (hlast : pyLastChar w = .ok 'る')
    (h1 : w ≠ "する") (h2 : w ≠ "くる") (h3 : w ≠ "来る")
    (h4 : w ≠ "だ") (h5 : w ≠ "です") :
    conjugate w .dictionary true = .ok [w] := by
  unfold conjugate
  rw [conjugate_strict_ru_eq w _ hlast, conjugate_type2_eq w _ h1 h2 h3 h4 h5]
  rfl

theorem conjugate_conjunctive_ru (w : String)
    (hlast : pyLastChar w = .ok 'る')
    (h1 : w ≠ "する") (h2 : w ≠ "くる") (h3 : w ≠ "来る")
    (h4 : w ≠ "だ") (h5 : w ≠ "です") :
    conjugate w .conjunctive true =
      .ok [dropRightN w 1, dropRightN w 1 ++ "ます"] := by
  unfold conjugate
  rw [conjugate_strict_ru_eq w _ hlast, conjugate_type2_eq w _ h1 h2 h3 h4 h5]
  rfl

theorem conjugate_negative_ru (w : String)
    (hlast : pyLastChar w = .ok 'る')
    (h1 : w ≠ "する") (h2 : w ≠ "くる") (h3 : w ≠ "来る")
    (h4 : w ≠ "だ") (h5 : w ≠ "です") :
    conjugate w .negative true =
      .ok [dropRightN w 1, dropRightN w 1 ++ "ない"] := by
  have hstrict : conjugate_strict w .negative true = .ok [dropRightN w 1] := by
    rw [conjugate_strict_ru_eq w _ hlast, conjugate_type2_eq w _ h1 h2 h3 h4 h5]
  simp only [conjugate, hstrict]
  split
  · rfl
  next hc => exact absurd (by simp [h4, h5]) hc

theorem conjugate_te_ru (w : String)
    (hlast : pyLastChar w = .ok 'る')
    (h1 : w ≠ "する") (h2 : w ≠ "くる") (h3 : w ≠ "来る")
    (h4 : w ≠ "だ") (h5 : w ≠ "です") :
    conjugate w .te true = .ok [dropRightN w 1 ++ "て"] := by
  unfold conjugate
  rw [conjugate_strict_ru_eq w _ hlast, conjugate_type2_eq w _ h1 h2 h3 h4 h5]
  rfl

theorem conjugate_ta_ru (w : String)
    (hlast : pyLastChar w = .ok 'る')
    (h1 : w ≠ "する") (h2 : w ≠ "くる") (h3 : w ≠ "来る")
    (h4 : w ≠ "だ") (h5 : w ≠ "です") :
    conjugate w .ta true = .ok [dropRightN w 1 ++ "た"] := by
  unfold conjugate
  rw [conjugate_strict_ru_eq w _ hlast, conjugate_type2_eq w _ h1 h2 h3 h4 h5]
  rfl

theorem conjugate_conditional_ru (w : String)
    (hlast : pyLastChar w = .ok 'る')
    (h1 : w ≠ "する") (h2 : w ≠ "くる") (h3 : w ≠ "来る")
    (h4 : w ≠ "だ") (h5 : w ≠ "です") :
    conjugate w .conditional true =
      .ok [dropRightN w 1 ++ "れ", dropRightN w 1 ++ "れ" ++ "ば"] := by
  unfold conjugate
  rw [conjugate_strict_ru_eq w _ hlast, conjugate_type2_eq w _ h1 h2 h3 h4 h5]
  rfl

theorem conjugate_strict_dict_false (w : String) (c : Char)
    (hlast : pyLastChar w = .ok c) :
    conjugate_strict w .dictionary false = conjugate_type1 w .dictionary := by
  simp only [conjugate_strict, hlast]
  rw [if_neg (fun hh => absurd hh.2 (by decide))]

theorem conjugate_type1_dict_generic (w : String) (c : Char)
    (hlast : pyLastChar w = .ok c)
    (hlook : lookupHiragana c 2 = .ok c)
    (h1 : w ≠ "する") (h2 : w ≠ "くる") (h3 : w ≠ "来る")
    (h4 : w ≠ "だ") (h5 : w ≠ "です")
    (hkud : pyEndsWith w "くださる" = false) :
    conjugate w .dictionary false = .ok [w] := by
  have htype1 : conjugate_type1 w .dictionary =
      .ok [pushChar (dropRightN w 1) c] := by
    unfold conjugate_type1
    rw [if_neg h1, if_neg (by simp [h2, h3]), if_neg h4, if_neg h5,
      if_neg (by simp [hkud])]
    simp only [specialCases_dict, hlast, conjToIndex]
    rw [if_neg (fun hh => absurd hh.2 (by decide))]
    simp only [hlook]
  simp only [conjugate, conjugate_strict_dict_false w c hlast, htype1]
  rw [pushChar_dropRight_last hlast]
  rfl

theorem conjugate_dict_kudasaru (w : String)
    (hlast : pyLastChar w = .ok 'る')
    (hkud : pyEndsWith w "くださる" = true)
    (h1 : w ≠ "する") (h2 : w ≠ "くる") (h3 : w ≠ "来る")
    (h4 : w ≠ "だ") (h5 : w ≠ "です") :
    conjugate w .dictionary false = .ok [w] := by
  have htype1 : conjugate_type1 w .dictionary = .ok [w] := by
    unfold conjugate_type1
    rw [if_neg h1, if_neg (by simp [h2, h3]), if_neg h4, if_neg h5,
      if_pos (by simp [hkud])]
    rfl
  simp only [conjugate, conjugate_strict_dict_false w 'る' hlast, htype1]
  rfl

theorem append_right_cancel_ne (y z s : String) (h : y ≠ z) :
    y ++ s ≠ z ++ s := by
  intro he
  have hd := congrArg String.data he
  rw [String.data_append, String.data_append] at hd
  exact h (string_eq_of_data _ _ (List.append_cancel_right hd))

/-- Stem exclusions under which `stem ++ る` avoids every irregular branch
of the conjugator. -/
def RegularStem (x : String) : Prop :=
  x ≠ "す" ∧ x ≠ "く" ∧ x ≠ "来"

theorem regularStem_append (x lit : String)
    (h1 : ¬(lit.data <:+ ("す" : String).data))
    (h2 : ¬(lit.data <:+ ("く" : String).data))
    (h3 : ¬(lit.data <:+ ("来" : String).data)) :
    RegularStem (x ++ lit) :=
  ⟨ne_of_suffix_mismatch _ _ _ h1, ne_of_suffix_mismatch _ _ _ h2,
   ne_of_suffix_mismatch _ _ _ h3⟩

theorem regular_ru_facts {x : String} (h : RegularStem x) :
    (x ++ "る") ≠ "する" ∧ (x ++ "る") ≠ "くる" ∧ (x ++ "る") ≠ "来る" ∧
    (x ++ "る") ≠ "だ" ∧ (x ++ "る") ≠ "です" ∧
    pyLastChar (x ++ "る") = .ok 'る' ∧ dropRightN (x ++ "る") 1 = x := by
  refine ⟨fun he => append_right_cancel_ne x "す" "る" h.1 he,
    fun he => append_right_cancel_ne x "く" "る" h.2.1 he,
    fun he => append_right_cancel_ne x "来" "る" h.2.2 he,
    ne_of_suffix_mismatch _ _ _ (by decide),
    ne_of_suffix_mismatch _ _ _ (by decide),
    pyLastChar_append _ _ _ (by decide),
    dropRightN_append_len x "る"⟩

theorem conjugate_auxiliary_potential_ru (x : String) (h : RegularStem x) :
    conjugate_auxiliary (x ++ "る") .potential .dictionary true =
      .ok [x ++ "れる"] := by
  obtain ⟨hsu, hku, hrai, hda, hdesu, hlast, hdrop⟩ := regular_ru_facts h
  obtain ⟨hsu2, hku2, hrai2, hda2, hdesu2, hlast2, _⟩ :=
    regular_ru_facts (regularStem_append x "れ" (by decide) (by decide)
      (by decide))
  unfold conjugate_auxiliary
  rw [show (2 : Nat) = Nat.succ 1 from rfl]
  simp only [conjugate_auxiliary_fuel]
  rw [if_pos trivial]
  rw [conjugate_type2_eq _ _ hsu hku hrai hda hdesu]
  simp only [pyBind, pyHead, hdrop]
  rw [conjugate_dict_id _ hlast2 hsu2 hku2 hrai2 hda2 hdesu2]
  rw [String.append_assoc]
  rfl

theorem conjugate_auxiliary_masu_ru (x : String) (h : RegularStem x) :
    conjugate_auxiliary (x ++ "る") .masu .dictionary true =
      .ok [x ++ "ます"] := by
  obtain ⟨hsu, hku, hrai, hda, hdesu, hlast, hdrop⟩ := regular_ru_facts h
  unfold conjugate_auxiliary
  rw [show (2 : Nat) = Nat.succ 1 from rfl]
  simp only [conjugate_auxiliary_fuel]
  rw [conjugate_conjunctive_ru _ hlast hsu hku hrai hda hdesu]
  simp only [pyBind, pyHead, hdrop]

theorem conjugate_auxiliary_nai_ru (x : String) (h : RegularStem x) :
    conjugate_auxiliary (x ++ "る") .nai .dictionary true =
      .ok [x ++ "ない"] := by
  obtain ⟨hsu, hku, hrai, hda, hdesu, hlast, hdrop⟩ := regular_ru_facts h
  unfold conjugate_auxiliary
  rw [show (2 : Nat) = Nat.succ 1 from rfl]
  simp only [conjugate_auxiliary_fuel]
  rw [conjugate_negative_ru _ hlast hsu hku hrai hda hdesu]
  simp only [pyBind, pyHead, hdrop]

theorem conjugate_auxiliary_tai_ru (x : String) (h : RegularStem x) :
    conjugate_auxiliary (x ++ "る") .tai .dictionary true =
      .ok [x ++ "たい"] := by
  obtain ⟨hsu, hku, hrai, hda, hdesu, hlast, hdrop⟩ := regular_ru_facts h
  unfold conjugate_auxiliary
  rw [show (2 : Nat) = Nat.succ 1 from rfl]
  simp only [conjugate_auxiliary_fuel]
  rw [conjugate_conjunctive_ru _ hlast hsu hku hrai hda hdesu]
  simp only [pyBind, pyHead, hdrop]

theorem conjugate_auxiliary_tagaru_ru (x : String) (h : RegularStem x) :
    conjugate_auxiliary (x ++ "る") .tagaru .dictionary true =
      .ok [x ++ "たがる"] := by
  obtain ⟨hsu, hku, hrai, hda, hdesu, hlast, hdrop⟩ := regular_ru_facts h
  unfold conjugate_auxiliary
  rw [show (2 : Nat) = Nat.succ 1 from rfl]
  simp only [conjugate_auxiliary_fuel]
  rw [if_neg (by decide)]
  rw [conjugate_conjunctive_ru _ hlast hsu hku hrai hda hdesu]
  rw [show conjugate "たがる" Conjugation.dictionary false =
    .ok ["たがる"] from rfl]
  simp only [pyBind, pyHead, hdrop, List.map_cons, List.map_nil]

theorem conjugate_auxiliary_hoshii_ru (x : String) (h : RegularStem x) :
    conjugate_auxiliary (x ++ "る") .hoshii .dictionary true =
      .ok [x ++ "てほしい"] := by
  obtain ⟨hsu, hku, hrai, hda, hdesu, hlast, hdrop⟩ := regular_ru_facts h
  unfold conjugate_auxiliary
  rw [show (2 : Nat) = Nat.succ 1 from rfl]
  simp only [conjugate_auxiliary_fuel]
  rw [conjugate_te_ru _ hlast hsu hku hrai hda hdesu]
  simp only [pyBind, pyHead, hdrop, String.append_assoc]
  rfl

theorem conjugate_auxiliary_rashii_ru (x : String) (h : RegularStem x) :
    conjugate_auxiliary (x ++ "る") .rashii .dictionary true =
      .ok [x ++ "たらしい", x ++ "るらしい"] := by
  obtain ⟨hsu, hku, hrai, hda, hdesu, hlast, hdrop⟩ := regular_ru_facts h
  unfold conjugate_auxiliary
  rw [show (2 : Nat) = Nat.succ 1 from rfl]
  simp only [conjugate_auxiliary_fuel]
  rw [conjugate_ta_ru _ hlast hsu hku hrai hda hdesu]
  simp only [pyBind, pyHead, hdrop, List.map_cons, List.map_nil,
    String.append_assoc]
  rfl

theorem conjugate_auxiliary_soudaHearsay_ru (x : String)
    (h : RegularStem x) :
    conjugate_auxiliary (x ++ "る") .soudaHearsay .dictionary true =
      .ok [x ++ "たそうだ", x ++ "るそうだ"] := by
  obtain ⟨hsu, hku, hrai, hda, hdesu, hlast, hdrop⟩ := regular_ru_facts h
  unfold conjugate_auxiliary
  rw [show (2 : Nat) = Nat.succ 1 from rfl]
  simp only [conjugate_auxiliary_fuel]
  rw [conjugate_ta_ru _ hlast hsu hku hrai hda hdesu]
  simp only [pyBind, pyHead, hdrop, String.append_assoc]
  rfl

theorem conjugate_auxiliary_soudaConjecture_ru (x : String)
    (h : RegularStem x) :
    conjugate_auxiliary (x ++ "る") .soudaConjecture .dictionary true =
      .ok [x ++ "そうだ", x ++ "そうです"] := by
  obtain ⟨hsu, hku, hrai, hda, hdesu, hlast, hdrop⟩ := regular_ru_facts h
  unfold conjugate_auxiliary
  rw [show (2 : Nat) = Nat.succ 1 from rfl]
  simp only [conjugate_auxiliary_fuel]
  rw [conjugate_conjunctive_ru _ hlast hsu hku hrai hda hdesu]
  simp only [pyBind, pyHead, hdrop]

theorem conjugate_negative_type1 (w : String) (c c' : Char)
    (hlast : pyLastChar w = .ok c)
    (hlook : lookupHiragana c 0 = .ok c')
    (hc : c ≠ 'う')
    (h1 : w ≠ "する") (h2 : w ≠ "くる") (h3 : w ≠ "来る")
    (h4 : w ≠ "だ") (h5 : w ≠ "です")
    (hkud : pyEndsWith w "くださる" = false)
    (hsp1 : w ≠ "ある") (hsp2 : w ≠ "ござる") (hsp3 : w ≠ "いらっしゃる") :
    conjugate w .negative false =
      .ok [pushChar (dropRightN w 1) c',
           pushChar (dropRightN w 1) c' ++ "ない"] := by
  have hstrict : conjugate_strict w .negative false =
      conjugate_type1 w .negative := by
    simp only [conjugate_strict, hlast]
    rw [if_neg (fun hh => absurd hh.2 (by decide))]
  have htype1 : conjugate_type1 w .negative =
      .ok [pushChar (dropRightN w 1) c'] := by
    unfold conjugate_type1
    rw [if_neg h1, if_neg (by simp [h2, h3]), if_neg h4, if_neg h5,
      if_neg (by simp [hkud])]
    simp only [specialCases_none w hsp1 hsp2 hsp3, hlast, conjToIndex]
    rw [if_neg (fun hh => hc hh.1)]
    simp only [hlook]
  simp only [conjugate, hstrict, htype1]
  split
  · rfl
  next hcnd => exact absurd (by simp [h4, h5]) hcnd

theorem conjugate_auxiliary_seruSaseru_ru (x : String) (h : RegularStem x) :
    conjugate_auxiliary (x ++ "る") .seruSaseru .dictionary true =
      .ok [x ++ "させる"] := by
  obtain ⟨hsu, hku, hrai, hda, hdesu, hlast, hdrop⟩ := regular_ru_facts h
  unfold conjugate_auxiliary
  rw [show (2 : Nat) = Nat.succ 1 from rfl]
  simp only [conjugate_auxiliary_fuel]
  rw [if_neg (by decide)]
  rw [if_neg (by simp [hku, hrai]), if_neg hsu, if_pos trivial]
  rw [conjugate_type2_eq _ _ hsu hku hrai hda hdesu]
  simp only [pyBind, pyHead, hdrop]
  rw [conjugate_dict_id (x ++ "させる")
    (pyLastChar_append x "させる" 'る' (by decide))
    (ne_of_suffix_mismatch _ _ _ (by decide))
    (ne_of_suffix_mismatch _ _ _ (by decide))
    (ne_of_suffix_mismatch _ _ _ (by decide))
    (ne_of_suffix_mismatch _ _ _ (by decide))
    (ne_of_suffix_mismatch _ _ _ (by decide))]

theorem conjugate_auxiliary_shortenedCausative_ru (x : String)
    (h : RegularStem x) :
    conjugate_auxiliary (x ++ "る") .shortenedCausative .dictionary true =
      .ok [x ++ "さす"] := by
  obtain ⟨hsu, hku, hrai, hda, hdesu, hlast, hdrop⟩ := regular_ru_facts h
  unfold conjugate_auxiliary
  rw [show (2 : Nat) = Nat.succ 1 from rfl]
  simp only [conjugate_auxiliary_fuel]
  rw [if_neg (by decide)]
  rw [if_neg (by simp [hku, hrai]), if_neg hsu, if_pos trivial]
  rw [conjugate_type2_eq _ _ hsu hku hrai hda hdesu]
  simp only [pyBind, pyHead, hdrop]
  rw [show dropRightN (x ++ "させる") 2 = x ++ "さ" by
    rw [dropRightN_append_le x "させる" 2 (by decide)]
    rfl]
  rw [conjugate_type1_dict_generic ((x ++ "さ") ++ "す") 'す'
    (pyLastChar_append (x ++ "さ") "す" 'す' (by decide))
    rfl
    (ne_of_suffix_mismatch _ _ _ (by decide))
    (ne_of_suffix_mismatch _ _ _ (by decide))
    (ne_of_suffix_mismatch _ _ _ (by decide))
    (ne_of_suffix_mismatch _ _ _ (by decide))
    (fun he => append_right_cancel_ne (x ++ "さ") "で" "す"
      (ne_of_suffix_mismatch _ _ _ (by decide)) he)
    (pyEndsWith_false_short (x ++ "さ") "す" "くださる" (by decide)
      (by decide))]
  simp only [String.append_assoc]
  rfl

theorem conjugate_auxiliary_reruRareru_ru (x : String) (h : RegularStem x) :
    conjugate_auxiliary (x ++ "る") .reruRareru .dictionary true =
      .ok [x ++ "られる"] := by
  obtain ⟨hsu, hku, hrai, hda, hdesu, hlast, hdrop⟩ := regular_ru_facts h
  unfold conjugate_auxiliary
  rw [show (2 : Nat) = Nat.succ 1 from rfl]
  simp only [conjugate_auxiliary_fuel]
  rw [if_neg (by decide)]
  rw [if_neg (by simp [hku, hrai]), if_neg hsu, if_pos trivial]
  rw [conjugate_type2_eq _ _ hsu hku hrai hda hdesu]
  simp only [pyBind, pyHead, hdrop]
  rw [conjugate_dict_id (x ++ "られる")
    (pyLastChar_append x "られる" 'る' (by decide))
    (ne_of_suffix_mismatch _ _ _ (by decide))
    (ne_of_suffix_mismatch _ _ _ (by decide))
    (ne_of_suffix_mismatch _ _ _ (by decide))
    (ne_of_suffix_mismatch _ _ _ (by decide))
    (ne_of_suffix_mismatch _ _ _ (by decide))]

theorem conjugate_auxiliary_causativePassive_ru (x : String)
    (h : RegularStem x) :
    conjugate_auxiliary (x ++ "る") .causativePassive .dictionary true =
      .ok [x ++ "させられる"] := by
  obtain ⟨hsu, hku, hrai, hda, hdesu, hlast, hdrop⟩ := regular_ru_facts h
  unfold conjugate_auxiliary
  rw [show (2 : Nat) = Nat.succ 1 from rfl]
  simp only [conjugate_auxiliary_fuel]
  rw [if_neg (by decide)]
  rw [if_neg (by simp [hku, hrai]), if_neg hsu, if_pos trivial]
  rw [conjugate_type2_eq _ _ hsu hku hrai hda hdesu]
  simp only [pyBind, pyHead, hdrop]
  rw [conjugate_negative_ru (x ++ "させる")
    (pyLastChar_append x "させる" 'る' (by decide))
    (ne_of_suffix_mismatch _ _ _ (by decide))
    (ne_of_suffix_mismatch _ _ _ (by decide))
    (ne_of_suffix_mismatch _ _ _ (by decide))
    (ne_of_suffix_mismatch _ _ _ (by decide))
    (ne_of_suffix_mismatch _ _ _ (by decide))]
  rw [show dropRightN (x ++ "させる") 1 = x ++ "させ" by
    rw [dropRightN_append_le x "させる" 1 (by decide)]
    rfl]
  simp only [pyBind, pyHead]
  rw [conjugate_dict_id ((x ++ "させ") ++ "られる")
    (pyLastChar_append (x ++ "させ") "られる" 'る' (by decide))
    (ne_of_suffix_mismatch _ _ _ (by decide))
    (ne_of_suffix_mismatch _ _ _ (by decide))
    (ne_of_suffix_mismatch _ _ _ (by decide))
    (ne_of_suffix_mismatch _ _ _ (by decide))
    (ne_of_suffix_mismatch _ _ _ (by decide))]
  simp only [String.append_assoc]
  rfl

theorem conjugate_auxiliary_shortenedCausativePassive_ru (x : String)
    (h : RegularStem x) :
    conjugate_auxiliary (x ++ "る") .shortenedCausativePassive .dictionary
      true = .ok [x ++ "さされる"] := by
  obtain ⟨hsu, hku, hrai, hda, hdesu, hlast, hdrop⟩ := regular_ru_facts h
  unfold conjugate_auxiliary
  rw [show (2 : Nat) = Nat.succ 1 from rfl]
  simp only [conjugate_auxiliary_fuel]
  rw [if_neg (by decide)]
  rw [if_neg (by simp [hku, hrai]), if_neg hsu, if_pos trivial]
  rw [conjugate_type2_eq _ _ hsu hku hrai hda hdesu]
  simp only [pyBind, pyHead, hdrop]
  rw [show dropRightN (x ++ "させる") 2 = x ++ "さ" by
    rw [dropRightN_append_le x "させる" 2 (by decide)]
    rfl]
  rw [conjugate_negative_type1 ((x ++ "さ") ++ "す") 'す' 'さ'
    (pyLastChar_append (x ++ "さ") "す" 'す' (by decide))
    rfl (by decide)
    (ne_of_suffix_mismatch _ _ _ (by decide))
    (ne_of_suffix_mismatch _ _ _ (by decide))
    (ne_of_suffix_mismatch _ _ _ (by decide))
    (ne_of_suffix_mismatch _ _ _ (by decide))
    (fun he => append_right_cancel_ne (x ++ "さ") "で" "す"
      (ne_of_suffix_mismatch _ _ _ (by decide)) he)
    (pyEndsWith_false_short (x ++ "さ") "す" "くださる" (by decide)
      (by decide))
    (ne_of_suffix_mismatch _ _ _ (by decide))
    (ne_of_suffix_mismatch _ _ _ (by decide))
    (ne_of_suffix_mismatch _ _ _ (by decide))]
  rw [show dropRightN ((x ++ "さ") ++ "す") 1 = x ++ "さ" from
    dropRightN_append_len (x ++ "さ") "す"]
  simp only [pyBind, pyHead]
  rw [show pushChar (x ++ "さ") 'さ' ++ "れる" =
      ((x ++ "さ") ++ "さ") ++ "れる" from rfl]
  rw [conjugate_dict_id (((x ++ "さ") ++ "さ") ++ "れる")
    (pyLastChar_append ((x ++ "さ") ++ "さ") "れる" 'る' (by decide))
    (ne_of_suffix_mismatch _ _ _ (by decide))
    (ne_of_suffix_mismatch _ _ _ (by decide))
    (ne_of_suffix_mismatch _ _ _ (by decide))
    (ne_of_suffix_mismatch _ _ _ (by decide))
    (ne_of_suffix_mismatch _ _ _ (by decide))]
  simp only [String.append_assoc]
  rfl


theorem conjugate_auxiliary_ageru_ru (x : String) (h : RegularStem x) :
    conjugate_auxiliary (x ++ "る") .ageru .dictionary true =
      .ok [x ++ "てあげる"] := by
  obtain ⟨hsu, hku, hrai, hda, hdesu, hlast, hdrop⟩ := regular_ru_facts h
  unfold conjugate_auxiliary
  rw [show (2 : Nat) = Nat.succ 1 from rfl]
  simp only [conjugate_auxiliary_fuel, teGroupEndings]
  rw [conjugate_te_ru _ hlast hsu hku hrai hda hdesu]
  simp only [pyBind, pyHead, hdrop, List.map_cons, List.map_nil]
  rw [if_neg (by decide)]
  rw [if_neg (by decide)]
  rw [if_neg (by decide)]
  simp only [pyBind, pyFlatMapM, teGroupType2]
  rw [conjugate_dict_id ((x ++ "て") ++ "あげる")
    (pyLastChar_append (x ++ "て") "あげる" 'る' (by decide))
    (ne_of_suffix_mismatch _ _ _ (by decide))
    (ne_of_suffix_mismatch _ _ _ (by decide))
    (ne_of_suffix_mismatch _ _ _ (by decide))
    (ne_of_suffix_mismatch _ _ _ (by decide))
    (ne_of_suffix_mismatch _ _ _ (by decide))]
  simp only [pyBind, List.append_nil, String.append_assoc]
  rfl

theorem conjugate_auxiliary_sashiageru_ru (x : String) (h : RegularStem x) :
    conjugate_auxiliary (x ++ "る") .sashiageru .dictionary true =
      .ok [x ++ "て差し上げる", x ++ "てさしあげる"] := by
  obtain ⟨hsu, hku, hrai, hda, hdesu, hlast, hdrop⟩ := regular_ru_facts h
  unfold conjugate_auxiliary
  rw [show (2 : Nat) = Nat.succ 1 from rfl]
  simp only [conjugate_auxiliary_fuel, teGroupEndings]
  rw [conjugate_te_ru _ hlast hsu hku hrai hda hdesu]
  simp only [pyBind, pyHead, hdrop, List.map_cons, List.map_nil]
  rw [if_neg (by decide)]
  rw [if_neg (by decide)]
  rw [if_neg (by decide)]
  simp only [pyBind, pyFlatMapM, teGroupType2]
  rw [conjugate_dict_id ((x ++ "て") ++ "差し上げる")
    (pyLastChar_append (x ++ "て") "差し上げる" 'る' (by decide))
    (ne_of_suffix_mismatch _ _ _ (by decide))
    (ne_of_suffix_mismatch _ _ _ (by decide))
    (ne_of_suffix_mismatch _ _ _ (by decide))
    (ne_of_suffix_mismatch _ _ _ (by decide))
    (ne_of_suffix_mismatch _ _ _ (by decide))]
  rw [conjugate_dict_id ((x ++ "て") ++ "さしあげる")
    (pyLastChar_append (x ++ "て") "さしあげる" 'る' (by decide))
    (ne_of_suffix_mismatch _ _ _ (by decide))
    (ne_of_suffix_mismatch _ _ _ (by decide))
    (ne_of_suffix_mismatch _ _ _ (by decide))
    (ne_of_suffix_mismatch _ _ _ (by decide))
    (ne_of_suffix_mismatch _ _ _ (by decide))]
  simp only [pyBind, List.append_nil, String.append_assoc]
  rfl

theorem conjugate_auxiliary_yaru_ru (x : String) (h : RegularStem x) :
    conjugate_auxiliary (x ++ "る") .yaru .dictionary true =
      .ok [x ++ "てやる"] := by
  obtain ⟨hsu, hku, hrai, hda, hdesu, hlast, hdrop⟩ := regular_ru_facts h
  unfold conjugate_auxiliary
  rw [show (2 : Nat) = Nat.succ 1 from rfl]
  simp only [conjugate_auxiliary_fuel, teGroupEndings]
  rw [conjugate_te_ru _ hlast hsu hku hrai hda hdesu]
  simp only [pyBind, pyHead, hdrop, List.map_cons, List.map_nil]
  rw [if_neg (by decide)]
  rw [if_neg (by decide)]
  rw [if_neg (by decide)]
  simp only [pyBind, pyFlatMapM, teGroupType2]
  rw [conjugate_type1_dict_generic ((x ++ "て") ++ "やる") 'る'
    (pyLastChar_append (x ++ "て") "やる" 'る' (by decide))
    rfl
    (ne_of_suffix_mismatch _ _ _ (by decide))
    (ne_of_suffix_mismatch _ _ _ (by decide))
    (ne_of_suffix_mismatch _ _ _ (by decide))
    (ne_of_suffix_mismatch _ _ _ (by decide))
    (ne_of_suffix_mismatch _ _ _ (by decide))
    (pyEndsWith_false_short (x ++ "て") "やる" "くださる" (by decide)
      (by decide))]
  simp only [pyBind, List.append_nil, String.append_assoc]
  rfl

theorem conjugate_auxiliary_morau_ru (x : String) (h : RegularStem x) :
    conjugate_auxiliary (x ++ "る") .morau .dictionary true =
      .ok [x ++ "てもらう"] := by
  obtain ⟨hsu, hku, hrai, hda, hdesu, hlast, hdrop⟩ := regular_ru_facts h
  unfold conjugate_auxiliary
  rw [show (2 : Nat) = Nat.succ 1 from rfl]
  simp only [conjugate_auxiliary_fuel, teGroupEndings]
  rw [conjugate_te_ru _ hlast hsu hku hrai hda hdesu]
  simp only [pyBind, pyHead, hdrop, List.map_cons, List.map_nil]
  rw [if_neg (by decide)]
  rw [if_neg (by decide)]
  rw [if_neg (by decide)]
  simp only [pyBind, pyFlatMapM, teGroupType2]
  rw [conjugate_type1_dict_generic ((x ++ "て") ++ "もらう") 'う'
    (pyLastChar_append (x ++ "て") "もらう" 'う' (by decide))
    rfl
    (ne_of_suffix_mismatch _ _ _ (by decide))
    (ne_of_suffix_mismatch _ _ _ (by decide))
    (ne_of_suffix_mismatch _ _ _ (by decide))
    (ne_of_suffix_mismatch _ _ _ (by decide))
    (ne_of_suffix_mismatch _ _ _ (by decide))
    (pyEndsWith_false_short (x ++ "て") "もらう" "くださる" (by decide)
      (by decide))]
  simp only [pyBind, List.append_nil, String.append_assoc]
  rfl

theorem conjugate_auxiliary_itadaku_ru (x : String) (h : RegularStem x) :
    conjugate_auxiliary (x ++ "る") .itadaku .dictionary true =
      .ok [x ++ "ていただく"] := by
  obtain ⟨hsu, hku, hrai, hda, hdesu, hlast, hdrop⟩ := regular_ru_facts h
  unfold conjugate_auxiliary
  rw [show (2 : Nat) = Nat.succ 1 from rfl]
  simp only [conjugate_auxiliary_fuel, teGroupEndings]
  rw [conjugate_te_ru _ hlast hsu hku hrai hda hdesu]
  simp only [pyBind, pyHead, hdrop, List.map_cons, List.map_nil]
  rw [if_neg (by decide)]
  rw [if_neg (by decide)]
  rw [if_neg (by decide)]
  simp only [pyBind, pyFlatMapM, teGroupType2]
  rw [conjugate_type1_dict_generic ((x ++ "て") ++ "いただく") 'く'
    (pyLastChar_append (x ++ "て") "いただく" 'く' (by decide))
    rfl
    (ne_of_suffix_mismatch _ _ _ (by decide))
    (ne_of_suffix_mismatch _ _ _ (by decide))
    (ne_of_suffix_mismatch _ _ _ (by decide))
    (ne_of_suffix_mismatch _ _ _ (by decide))
    (ne_of_suffix_mismatch _ _ _ (by decide))
    (pyEndsWith_false_short (x ++ "て") "いただく" "くださる" (by decide)
      (by decide))]
  simp only [pyBind, List.append_nil, String.append_assoc]
  rfl

theorem conjugate_auxiliary_kureru_ru (x : String) (h : RegularStem x) :
    conjugate_auxiliary (x ++ "る") .kureru .dictionary true =
      .ok [x ++ "てくれる"] := by
  obtain ⟨hsu, hku, hrai, hda, hdesu, hlast, hdrop⟩ := regular_ru_facts h
  unfold conjugate_auxiliary
  rw [show (2 : Nat) = Nat.succ 1 from rfl]
  simp only [conjugate_auxiliary_fuel, teGroupEndings]
  rw [conjugate_te_ru _ hlast hsu hku hrai hda hdesu]
  simp only [pyBind, pyHead, hdrop, List.map_cons, List.map_nil]
  rw [if_neg (by decide)]
  rw [if_neg (by decide)]
  rw [if_neg (by decide)]
  simp only [pyBind, pyFlatMapM, teGroupType2]
  rw [conjugate_dict_id ((x ++ "て") ++ "くれる")
    (pyLastChar_append (x ++ "て") "くれる" 'る' (by decide))
    (ne_of_suffix_mismatch _ _ _ (by decide))
    (ne_of_suffix_mismatch _ _ _ (by decide))
    (ne_of_suffix_mismatch _ _ _ (by decide))
    (ne_of_suffix_mismatch _ _ _ (by decide))
    (ne_of_suffix_mismatch _ _ _ (by decide))]
  simp only [pyBind, List.append_nil, String.append_assoc]
  rfl

theorem conjugate_auxiliary_kudasaru_ru (x : String) (h : RegularStem x) :
    conjugate_auxiliary (x ++ "る") .kudasaru .dictionary true =
      .ok [x ++ "てくださる"] := by
  obtain ⟨hsu, hku, hrai, hda, hdesu, hlast, hdrop⟩ := regular_ru_facts h
  unfold conjugate_auxiliary
  rw [show (2 : Nat) = Nat.succ 1 from rfl]
  simp only [conjugate_auxiliary_fuel, teGroupEndings]
  rw [conjugate_te_ru _ hlast hsu hku hrai hda hdesu]
  simp only [pyBind, pyHead, hdrop, List.map_cons, List.map_nil]
  rw [if_neg (by decide)]
  rw [if_neg (by decide)]
  rw [if_neg (by decide)]
  simp only [pyBind, pyFlatMapM, teGroupType2]
  rw [conjugate_dict_kudasaru ((x ++ "て") ++ "くださる")
    (pyLastChar_append (x ++ "て") "くださる" 'る' (by decide))
    (pyEndsWith_append_self (x ++ "て") "くださる")
    (ne_of_suffix_mismatch _ _ _ (by decide))
    (ne_of_suffix_mismatch _ _ _ (by decide))
    (ne_of_suffix_mismatch _ _ _ (by decide))
    (ne_of_suffix_mismatch _ _ _ (by decide))
    (ne_of_suffix_mismatch _ _ _ (by decide))]
  simp only [pyBind, List.append_nil, String.append_assoc]
  rfl

theorem conjugate_auxiliary_teIru_ru (x : String) (h : RegularStem x) :
    conjugate_auxiliary (x ++ "る") .teIru .dictionary true =
      .ok [x ++ "ている", x ++ "てる"] := by
  obtain ⟨hsu, hku, hrai, hda, hdesu, hlast, hdrop⟩ := regular_ru_facts h
  obtain ⟨hsu2, hku2, hrai2, hda2, hdesu2, hlast2, _⟩ :=
    regular_ru_facts (regularStem_append x "て" (by decide) (by decide)
      (by decide))
  unfold conjugate_auxiliary
  rw [show (2 : Nat) = Nat.succ 1 from rfl]
  simp only [conjugate_auxiliary_fuel, teGroupEndings]
  rw [conjugate_te_ru _ hlast hsu hku hrai hda hdesu]
  simp only [pyBind, pyHead, hdrop, List.map_cons, List.map_nil]
  rw [if_neg (by decide)]
  rw [if_neg (by decide)]
  rw [if_neg (by decide)]
  simp only [pyBind, pyFlatMapM, teGroupType2]
  rw [conjugate_dict_id ((x ++ "て") ++ "いる")
    (pyLastChar_append (x ++ "て") "いる" 'る' (by decide))
    (ne_of_suffix_mismatch _ _ _ (by decide))
    (ne_of_suffix_mismatch _ _ _ (by decide))
    (ne_of_suffix_mismatch _ _ _ (by decide))
    (ne_of_suffix_mismatch _ _ _ (by decide))
    (ne_of_suffix_mismatch _ _ _ (by decide))]
  rw [conjugate_dict_id ((x ++ "て") ++ "る") hlast2 hsu2 hku2 hrai2 hda2
    hdesu2]
  simp only [pyBind, List.append_nil, String.append_assoc]
  rfl

theorem conjugate_auxiliary_teAru_ru (x : String) (h : RegularStem x) :
    conjugate_auxiliary (x ++ "る") .teAru .dictionary true =
      .ok [x ++ "てある"] := by
  obtain ⟨hsu, hku, hrai, hda, hdesu, hlast, hdrop⟩ := regular_ru_facts h
  unfold conjugate_auxiliary
  rw [show (2 : Nat) = Nat.succ 1 from rfl]
  simp only [conjugate_auxiliary_fuel, teGroupEndings]
  rw [conjugate_te_ru _ hlast hsu hku hrai hda hdesu]
  simp only [pyBind, pyHead, hdrop, List.map_cons, List.map_nil]
  rw [if_neg (by decide)]
  rw [if_neg (by decide)]
  rw [if_neg (by decide)]
  simp only [pyBind, pyFlatMapM, teGroupType2]
  rw [conjugate_type1_dict_generic ((x ++ "て") ++ "ある") 'る'
    (pyLastChar_append (x ++ "て") "ある" 'る' (by decide))
    rfl
    (ne_of_suffix_mismatch _ _ _ (by decide))
    (ne_of_suffix_mismatch _ _ _ (by decide))
    (ne_of_suffix_mismatch _ _ _ (by decide))
    (ne_of_suffix_mismatch _ _ _ (by decide))
    (ne_of_suffix_mismatch _ _ _ (by decide))
    (pyEndsWith_false_short (x ++ "て") "ある" "くださる" (by decide)
      (by decide))]
  simp only [pyBind, List.append_nil, String.append_assoc]
  rfl

theorem conjugate_auxiliary_miru_ru (x : String) (h : RegularStem x) :
    conjugate_auxiliary (x ++ "る") .miru .dictionary true =
      .ok [x ++ "てみる"] := by
  obtain ⟨hsu, hku, hrai, hda, hdesu, hlast, hdrop⟩ := regular_ru_facts h
  unfold conjugate_auxiliary
  rw [show (2 : Nat) = Nat.succ 1 from rfl]
  simp only [conjugate_auxiliary_fuel, teGroupEndings]
  rw [conjugate_te_ru _ hlast hsu hku hrai hda hdesu]
  simp only [pyBind, pyHead, hdrop, List.map_cons, List.map_nil]
  rw [if_neg (by decide)]
  rw [if_neg (by decide)]
  rw [if_neg (by decide)]
  simp only [pyBind, pyFlatMapM, teGroupType2]
  rw [conjugate_dict_id ((x ++ "て") ++ "みる")
    (pyLastChar_append (x ++ "て") "みる" 'る' (by decide))
    (ne_of_suffix_mismatch _ _ _ (by decide))
    (ne_of_suffix_mismatch _ _ _ (by decide))
    (ne_of_suffix_mismatch _ _ _ (by decide))
    (ne_of_suffix_mismatch _ _ _ (by decide))
    (ne_of_suffix_mismatch _ _ _ (by decide))]
  simp only [pyBind, List.append_nil, String.append_assoc]
  rfl

theorem conjugate_auxiliary_iku_ru (x : String) (h : RegularStem x) :
    conjugate_auxiliary (x ++ "る") .iku .dictionary true =
      .ok [x ++ "ていく", x ++ "てく"] := by
  obtain ⟨hsu, hku, hrai, hda, hdesu, hlast, hdrop⟩ := regular_ru_facts h
  unfold conjugate_auxiliary
  rw [show (2 : Nat) = Nat.succ 1 from rfl]
  simp only [conjugate_auxiliary_fuel, teGroupEndings]
  rw [conjugate_te_ru _ hlast hsu hku hrai hda hdesu]
  simp only [pyBind, pyHead, hdrop, List.map_cons, List.map_nil]
  rw [if_neg (by decide)]
  rw [if_neg (by decide)]
  rw [if_pos trivial]
  simp only [pyBind, pyFlatMapM, teGroupType2]
  rw [conjugate_type1_dict_generic ((x ++ "て") ++ "いく") 'く'
    (pyLastChar_append (x ++ "て") "いく" 'く' (by decide))
    rfl
    (ne_of_suffix_mismatch _ _ _ (by decide))
    (ne_of_suffix_mismatch _ _ _ (by decide))
    (ne_of_suffix_mismatch _ _ _ (by decide))
    (ne_of_suffix_mismatch _ _ _ (by decide))
    (ne_of_suffix_mismatch _ _ _ (by decide))
    (pyEndsWith_false_short (x ++ "て") "いく" "くださる" (by decide)
      (by decide))]
  rw [conjugate_type1_dict_generic ((x ++ "て") ++ "く") 'く'
    (pyLastChar_append (x ++ "て") "く" 'く' (by decide))
    rfl
    (ne_of_suffix_mismatch _ _ _ (by decide))
    (ne_of_suffix_mismatch _ _ _ (by decide))
    (ne_of_suffix_mismatch _ _ _ (by decide))
    (ne_of_suffix_mismatch _ _ _ (by decide))
    (ne_of_suffix_mismatch _ _ _ (by decide))
    (pyEndsWith_false_short (x ++ "て") "く" "くださる" (by decide)
      (by decide))]
  simp only [pyBind, List.append_nil, String.append_assoc]
  rfl

theorem conjugate_auxiliary_kuru_ru (x : String) (h : RegularStem x) :
    conjugate_auxiliary (x ++ "る") .kuru .dictionary true =
      .ok [x ++ "てくる"] := by
  obtain ⟨hsu, hku, hrai, hda, hdesu, hlast, hdrop⟩ := regular_ru_facts h
  unfold conjugate_auxiliary
  rw [show (2 : Nat) = Nat.succ 1 from rfl]
  simp only [conjugate_auxiliary_fuel, teGroupEndings]
  rw [conjugate_te_ru _ hlast hsu hku hrai hda hdesu]
  simp only [pyBind, pyHead, hdrop, List.map_cons, List.map_nil]
  rw [if_pos trivial]
  rw [show conjugate "くる" Conjugation.dictionary false =
    .ok ["くる"] from rfl]
  simp only [pyBind, List.map_cons, List.map_nil, String.append_assoc]
  rfl

theorem conjugate_auxiliary_oku_ru (x : String) (h : RegularStem x) :
    conjugate_auxiliary (x ++ "る") .oku .dictionary true =
      .ok [x ++ "ておく", x ++ "とく"] := by
  obtain ⟨hsu, hku, hrai, hda, hdesu, hlast, hdrop⟩ := regular_ru_facts h
  unfold conjugate_auxiliary
  rw [show (2 : Nat) = Nat.succ 1 from rfl]
  simp only [conjugate_auxiliary_fuel, teGroupEndings]
  rw [conjugate_te_ru _ hlast hsu hku hrai hda hdesu]
  simp only [pyBind, pyHead, hdrop, List.map_cons, List.map_nil]
  rw [if_neg (by decide)]
  rw [if_pos trivial]
  rw [pyLastChar_append x "て" 'て' (by decide)]
  rw [show dropRightN (x ++ "て") 1 = x from dropRightN_append_len x "て"]
  simp only [pyBind, reduceIte, List.map_cons, List.map_nil, pyFlatMapM,
    teGroupType2]
  rw [show (if ('て' : Char) = 'で' then ("どく" : String) else "とく") =
    "とく" from rfl]
  rw [conjugate_type1_dict_generic ((x ++ "て") ++ "おく") 'く'
    (pyLastChar_append (x ++ "て") "おく" 'く' (by decide))
    rfl
    (ne_of_suffix_mismatch _ _ _ (by decide))
    (ne_of_suffix_mismatch _ _ _ (by decide))
    (ne_of_suffix_mismatch _ _ _ (by decide))
    (ne_of_suffix_mismatch _ _ _ (by decide))
    (ne_of_suffix_mismatch _ _ _ (by decide))
    (pyEndsWith_false_short (x ++ "て") "おく" "くださる" (by decide)
      (by decide))]
  rw [conjugate_type1_dict_generic (x ++ "とく") 'く'
    (pyLastChar_append x "とく" 'く' (by decide))
    rfl
    (ne_of_suffix_mismatch _ _ _ (by decide))
    (ne_of_suffix_mismatch _ _ _ (by decide))
    (ne_of_suffix_mismatch _ _ _ (by decide))
    (ne_of_suffix_mismatch _ _ _ (by decide))
    (ne_of_suffix_mismatch _ _ _ (by decide))
    (pyEndsWith_false_short x "とく" "くださる" (by decide) (by decide))]
  simp only [pyBind, List.append_nil, String.append_assoc]
  rfl

theorem conjugate_auxiliary_teOru_ru (x : String) (h : RegularStem x) :
    conjugate_auxiliary (x ++ "る") .teOru .dictionary true =
      .ok [x ++ "ておる"] := by
  obtain ⟨hsu, hku, hrai, hda, hdesu, hlast, hdrop⟩ := regular_ru_facts h
  unfold conjugate_auxiliary
  rw [show (2 : Nat) = Nat.succ 1 from rfl]
  simp only [conjugate_auxiliary_fuel, teGroupEndings]
  rw [conjugate_te_ru _ hlast hsu hku hrai hda hdesu]
  simp only [pyBind, pyHead, hdrop, List.map_cons, List.map_nil]
  rw [if_neg (by decide)]
  rw [if_neg (by decide)]
  rw [if_neg (by decide)]
  simp only [pyBind, pyFlatMapM, teGroupType2]
  rw [conjugate_type1_dict_generic ((x ++ "て") ++ "おる") 'る'
    (pyLastChar_append (x ++ "て") "おる" 'る' (by decide))
    rfl
    (ne_of_suffix_mismatch _ _ _ (by decide))
    (ne_of_suffix_mismatch _ _ _ (by decide))
    (ne_of_suffix_mismatch _ _ _ (by decide))
    (ne_of_suffix_mismatch _ _ _ (by decide))
    (ne_of_suffix_mismatch _ _ _ (by decide))
    (pyEndsWith_false_short (x ++ "て") "おる" "くださる" (by decide)
      (by decide))]
  simp only [pyBind, List.append_nil, String.append_assoc]
  rfl

theorem conjugate_auxiliary_shimau_ru (x : String) (h : RegularStem x) :
    conjugate_auxiliary (x ++ "る") .shimau .dictionary true =
      .ok [x ++ "てしまう", x ++ "ちゃう", x ++ "ちまう"] := by
  obtain ⟨hsu, hku, hrai, hda, hdesu, hlast, hdrop⟩ := regular_ru_facts h
  unfold conjugate_auxiliary
  rw [show (2 : Nat) = Nat.succ 1 from rfl]
  simp only [conjugate_auxiliary_fuel]
  rw [conjugate_te_ru _ hlast hsu hku hrai hda hdesu]
  simp only [pyBind, pyHead, hdrop]
  rw [conjugate_type1_dict_generic ((x ++ "て") ++ "しまう") 'う'
    (pyLastChar_append (x ++ "て") "しまう" 'う' (by decide))
    rfl
    (ne_of_suffix_mismatch _ _ _ (by decide))
    (ne_of_suffix_mismatch _ _ _ (by decide))
    (ne_of_suffix_mismatch _ _ _ (by decide))
    (ne_of_suffix_mismatch _ _ _ (by decide))
    (ne_of_suffix_mismatch _ _ _ (by decide))
    (pyEndsWith_false_short (x ++ "て") "しまう" "くださる" (by decide)
      (by decide))]
  rw [pyEndsWith_append_self x "て"]
  rw [show dropRightN (x ++ "て") 1 = x from dropRightN_append_len x "て"]
  simp only [pyBind, reduceIte]
  rw [conjugate_type1_dict_generic (x ++ "ちゃう") 'う'
    (pyLastChar_append x "ちゃう" 'う' (by decide))
    rfl
    (ne_of_suffix_mismatch _ _ _ (by decide))
    (ne_of_suffix_mismatch _ _ _ (by decide))
    (ne_of_suffix_mismatch _ _ _ (by decide))
    (ne_of_suffix_mismatch _ _ _ (by decide))
    (ne_of_suffix_mismatch _ _ _ (by decide))
    (pyEndsWith_false_short x "ちゃう" "くださる" (by decide) (by decide))]
  rw [conjugate_type1_dict_generic (x ++ "ちまう") 'う'
    (pyLastChar_append x "ちまう" 'う' (by decide))
    rfl
    (ne_of_suffix_mismatch _ _ _ (by decide))
    (ne_of_suffix_mismatch _ _ _ (by decide))
    (ne_of_suffix_mismatch _ _ _ (by decide))
    (ne_of_suffix_mismatch _ _ _ (by decide))
    (ne_of_suffix_mismatch _ _ _ (by decide))
    (pyEndsWith_false_short x "ちまう" "くださる" (by decide) (by decide))]
  simp only [pyBind, String.append_assoc]
  rfl

/-- C9: for every regular ichidan verb stem++る (non-empty stem, verb not an
irregular special case), the single auxiliary Potential with terminal
Dictionary yields exactly the colloquial ra-nuki potential stem++れる, the
canonical potential stem++られる is yielded by ReruRareru, and no other
auxiliary produces stem++られる at terminal Dictionary. -/
theorem C9_ranuki_potential_vs_rareru (stem : String) (hstem : stem ≠ "")
    (h : RegularStem stem) :
    conjugate_auxiliary (stem ++ "る") .potential .dictionary true =
      .ok [stem ++ "れる"] ∧
    conjugate_auxiliary (stem ++ "る") .reruRareru .dictionary true =
      .ok [stem ++ "られる"] ∧
    ∀ a : Auxiliary, a ≠ .reruRareru →
      ∀ l, conjugate_auxiliary (stem ++ "る") a .dictionary true = .ok l →
        stem ++ "られる" ∉ l := by
  refine ⟨conjugate_auxiliary_potential_ru stem h,
    conjugate_auxiliary_reruRareru_ru stem h, ?_⟩
  intro a ha l hl
  cases a
  case reruRareru => exact absurd rfl ha
  case potential =>
    rw [conjugate_auxiliary_potential_ru stem h] at hl
    cases hl
    exact notMem_map_append stem "られる" ["れる"] (by decide)
  case masu =>
    rw [conjugate_auxiliary_masu_ru stem h] at hl
    cases hl
    exact notMem_map_append stem "られる" ["ます"] (by decide)
  case nai =>
    rw [conjugate_auxiliary_nai_ru stem h] at hl
    cases hl
    exact notMem_map_append stem "られる" ["ない"] (by decide)
  case tai =>
    rw [conjugate_auxiliary_tai_ru stem h] at hl
    cases hl
    exact notMem_map_append stem "られる" ["たい"] (by decide)
  case tagaru =>
    rw [conjugate_auxiliary_tagaru_ru stem h] at hl
    cases hl
    exact notMem_map_append stem "られる" ["たがる"] (by decide)
  case hoshii =>
    rw [conjugate_auxiliary_hoshii_ru stem h] at hl
    cases hl
    exact notMem_map_append stem "られる" ["てほしい"] (by decide)
  case rashii =>
    rw [conjugate_auxiliary_rashii_ru stem h] at hl
    cases hl
    exact notMem_map_append stem "られる" ["たらしい", "るらしい"] (by decide)
  case soudaHearsay =>
    rw [conjugate_auxiliary_soudaHearsay_ru stem h] at hl
    cases hl
    exact notMem_map_append stem "られる" ["たそうだ", "るそうだ"] (by decide)
  case soudaConjecture =>
    rw [conjugate_auxiliary_soudaConjecture_ru stem h] at hl
    cases hl
    exact notMem_map_append stem "られる" ["そうだ", "そうです"] (by decide)
  case seruSaseru =>
    rw [conjugate_auxiliary_seruSaseru_ru stem h] at hl
    cases hl
    exact notMem_map_append stem "られる" ["させる"] (by decide)
  case shortenedCausative =>
    rw [conjugate_auxiliary_shortenedCausative_ru stem h] at hl
    cases hl
    exact notMem_map_append stem "られる" ["さす"] (by decide)
  case causativePassive =>
    rw [conjugate_auxiliary_causativePassive_ru stem h] at hl
    cases hl
    exact notMem_map_append stem "られる" ["させられる"] (by decide)
  case shortenedCausativePassive =>
    rw [conjugate_auxiliary_shortenedCausativePassive_ru stem h] at hl
    cases hl
    exact notMem_map_append stem "られる" ["さされる"] (by decide)
  case ageru =>
    rw [conjugate_auxiliary_ageru_ru stem h] at hl
    cases hl
    exact notMem_map_append stem "られる" ["てあげる"] (by decide)
  case sashiageru =>
    rw [conjugate_auxiliary_sashiageru_ru stem h] at hl
    cases hl
    exact notMem_map_append stem "られる" ["て差し上げる", "てさしあげる"] (by decide)
  case yaru =>
    rw [conjugate_auxiliary_yaru_ru stem h] at hl
    cases hl
    exact notMem_map_append stem "られる" ["てやる"] (by decide)
  case morau =>
    rw [conjugate_auxiliary_morau_ru stem h] at hl
    cases hl
    exact notMem_map_append stem "られる" ["てもらう"] (by decide)
  case itadaku =>
    rw [conjugate_auxiliary_itadaku_ru stem h] at hl
    cases hl
    exact notMem_map_append stem "られる" ["ていただく"] (by decide)
  case kureru =>
    rw [conjugate_auxiliary_kureru_ru stem h] at hl
    cases hl
    exact notMem_map_append stem "られる" ["てくれる"] (by decide)
  case kudasaru =>
    rw [conjugate_auxiliary_kudasaru_ru stem h] at hl
    cases hl
    exact notMem_map_append stem "られる" ["てくださる"] (by decide)
  case teIru =>
    rw [conjugate_auxiliary_teIru_ru stem h] at hl
    cases hl
    exact notMem_map_append stem "られる" ["ている", "てる"] (by decide)
  case teAru =>
    rw [conjugate_auxiliary_teAru_ru stem h] at hl
    cases hl
    exact notMem_map_append stem "られる" ["てある"] (by decide)
  case miru =>
    rw [conjugate_auxiliary_miru_ru stem h] at hl
    cases hl
    exact notMem_map_append stem "られる" ["てみる"] (by decide)
  case iku =>
    rw [conjugate_auxiliary_iku_ru stem h] at hl
    cases hl
    exact notMem_map_append stem "られる" ["ていく", "てく"] (by decide)
  case kuru =>
    rw [conjugate_auxiliary_kuru_ru stem h] at hl
    cases hl
    exact notMem_map_append stem "られる" ["てくる"] (by decide)
  case oku =>
    rw [conjugate_auxiliary_oku_ru stem h] at hl
    cases hl
    exact notMem_map_append stem "られる" ["ておく", "とく"] (by decide)
  case shimau =>
    rw [conjugate_auxiliary_shimau_ru stem h] at hl
    cases hl
    exact notMem_map_append stem "られる" ["てしまう", "ちゃう", "ちまう"] (by decide)
  case teOru =>
    rw [conjugate_auxiliary_teOru_ru stem h] at hl
    cases hl
    exact notMem_map_append stem "られる" ["ておる"] (by decide)
  case sugiru => exact Except.noConfusion hl
  case yasui => exact Except.noConfusion hl
  case nikui => exact Except.noConfusion hl
  case hajimeru => exact Except.noConfusion hl
  case owaru => exact Except.noConfusion hl
  case tsuzukeru => exact Except.noConfusion hl
  case dasu => exact Except.noConfusion hl
  case garu => exact Except.noConfusion hl
  case souAppearance => exact Except.noConfusion hl

theorem C9_ranuki_potential_vs_rareru_witness :
    (("食べ" : String) ≠ "" ∧ RegularStem "食べ") ∧
    (conjugate_auxiliary ("食べ" ++ "る") Auxiliary.potential
        Conjugation.dictionary true = .ok ["食べ" ++ "れる"] ∧
     conjugate_auxiliary ("食べ" ++ "る") Auxiliary.reruRareru
        Conjugation.dictionary true = .ok ["食べ" ++ "られる"] ∧
     ∀ a : Auxiliary, a ≠ .reruRareru →
       ∀ l, conjugate_auxiliary ("食べ" ++ "る") a Conjugation.dictionary
           true = .ok l → "食べ" ++ "られる" ∉ l) :=
  ⟨⟨by decide, by decide, by decide, by decide⟩,
   C9_ranuki_potential_vs_rareru "食べ" (by decide)
     ⟨by decide, by decide, by decide⟩⟩

theorem conjugation_mem_all (c : Conjugation) : c ∈ Conjugation.all := by
  cases c <;> decide

theorem auxiliary_mem_all (a : Auxiliary) : a ∈ Auxiliary.all := by
  cases a <;> decide

theorem tryCombo_hit {S : String} {L : List String} (auxs : List Auxiliary)
    (c : Conjugation) {attempt : Py (List String)}
    (h : attempt = .ok L) (hS : S ∈ L) :
    tryCombo S auxs c attempt = .ok [⟨auxs, c, L⟩] := by
  rw [h]
  unfold tryCombo catchVE
  simp [pyBind, hS]

theorem conjugate_auxiliaries_single {V : String} {a : Auxiliary}
    {K : Conjugation} {t2 : Bool} {L : List String}
    (hda : V ≠ "だ") (hdesu : V ≠ "です")
    (h : conjugate_auxiliaries V [a] K t2 = .ok L) :
    conjugate_auxiliary V a K t2 = .ok L := by
  simp only [conjugate_auxiliaries] at h
  rw [if_neg (by simp [hda, hdesu])] at h
  simp only [conjugate_aux_loop, List.isEmpty] at h
  rw [if_neg (by simp)] at h
  rw [if_neg (by simp)] at h
  rw [if_pos trivial] at h
  rcases hfv : conjugate_auxiliary V a K t2 with e | la
  · simp only [pyFlatMapM, pyBind, hfv] at h
    exact h
  · simp only [pyFlatMapM, pyBind, hfv, conjugate_aux_loop] at h
    cases h
    rw [List.append_nil]

theorem depth0_hit (S D : String) (K : Conjugation) (t2 : Bool)
    (L : List String) (hD : D ≠ "")
    (hattempt : conjugate D K t2 = .ok L) (hS : S ∈ L) :
    ∃ H, pyFlatMapM (fun c => tryCombo S [] c (conjugate D c t2))
      Conjugation.all = .ok H ∧ VerbDeconjugated.mk [] K L ∈ H := by
  obtain ⟨H, hH⟩ := pyFlatMapM_isOk _ Conjugation.all fun c _ =>
    tryCombo_isOk (conjugate_okOrVE D c t2 hD) S [] c
  refine ⟨H, hH, ?_⟩
  exact pyFlatMapM_mem hH (conjugation_mem_all K)
    (tryCombo_hit [] K hattempt hS) _ (by simp)

theorem depth1_hit (S D : String) (a : Auxiliary) (K : Conjugation)
    (t2 : Bool) (L : List String) (hD : D ≠ "")
    (hattempt : conjugate_auxiliary D a K t2 = .ok L) (hS : S ∈ L) :
    ∃ H, pyFlatMapM
      (fun a =>
        pyFlatMapM
          (fun c =>
            tryCombo S [a] c (conjugate_auxiliary D a c t2))
          Conjugation.all)
      Auxiliary.all = .ok H ∧ VerbDeconjugated.mk [a] K L ∈ H := by
  obtain ⟨H, hH⟩ := pyFlatMapM_isOk _ Auxiliary.all fun a' _ =>
    pyFlatMapM_isOk _ Conjugation.all fun c _ =>
      tryCombo_isOk (conjugate_auxiliary_okOrVE D a' c t2 hD) S [a'] c
  refine ⟨H, hH, ?_⟩
  obtain ⟨Ha, hHa⟩ := pyFlatMapM_isOk
    (fun c => tryCombo S [a] c (conjugate_auxiliary D a c t2))
    Conjugation.all fun c _ =>
      tryCombo_isOk (conjugate_auxiliary_okOrVE D a c t2 hD) S [a] c
  have hmem : VerbDeconjugated.mk [a] K L ∈ Ha :=
    pyFlatMapM_mem hHa (conjugation_mem_all K)
      (tryCombo_hit [a] K hattempt hS) _ (by simp)
  exact pyFlatMapM_mem hH (auxiliary_mem_all a) hHa _ hmem

theorem depth2_hit (S D : String) (p f : Auxiliary) (K : Conjugation)
    (t2 : Bool) (L : List String) (hD : D ≠ "")
    (hp : p ∈ penultimates) (hf : f ∈ depth2Finals)
    (hattempt : conjugate_auxiliaries D [p, f] K t2 = .ok L) (hS : S ∈ L) :
    ∃ H, pyFlatMapM
      (fun p =>
        pyFlatMapM
          (fun f =>
            pyFlatMapM
              (fun c =>
                tryCombo S [p, f] c
                  (conjugate_auxiliaries D [p, f] c t2))
              Conjugation.all)
          depth2Finals)
      penultimates = .ok H ∧ VerbDeconjugated.mk [p, f] K L ∈ H := by
  obtain ⟨H, hH⟩ := pyFlatMapM_isOk _ penultimates fun p' _ =>
    pyFlatMapM_isOk _ depth2Finals fun f' _ =>
      pyFlatMapM_isOk _ Conjugation.all fun c _ =>
        tryCombo_isOk (conjugate_auxiliaries_okOrVE D [p', f'] c t2 hD)
          S [p', f'] c
  refine ⟨H, hH, ?_⟩
  obtain ⟨Hf, hHf⟩ := pyFlatMapM_isOk
    (fun c => tryCombo S [p, f] c (conjugate_auxiliaries D [p, f] c t2))
    Conjugation.all fun c _ =>
      tryCombo_isOk (conjugate_auxiliaries_okOrVE D [p, f] c t2 hD)
        S [p, f] c
  obtain ⟨Hp, hHp⟩ := pyFlatMapM_isOk
    (fun f =>
      pyFlatMapM
        (fun c => tryCombo S [p, f] c (conjugate_auxiliaries D [p, f] c t2))
        Conjugation.all)
    depth2Finals fun f' _ =>
      pyFlatMapM_isOk _ Conjugation.all fun c _ =>
        tryCombo_isOk (conjugate_auxiliaries_okOrVE D [p, f'] c t2 hD)
          S [p, f'] c
  have hmemf : VerbDeconjugated.mk [p, f] K L ∈ Hf :=
    pyFlatMapM_mem hHf (conjugation_mem_all K)
      (tryCombo_hit [p, f] K hattempt hS) _ (by simp)
  have hmemp : VerbDeconjugated.mk [p, f] K L ∈ Hp :=
    pyFlatMapM_mem hHp hf hHf _ hmemf
  exact pyFlatMapM_mem hH hp hHp _ hmemp

theorem depth3_hit (S D : String) (a3 p f : Auxiliary) (K : Conjugation)
    (t2 : Bool) (L : List String) (hD : D ≠ "")
    (ha3 : a3 ∈ antepenultimates) (hp : p ∈ penultimates)
    (hf : f ∈ depth3Finals)
    (hattempt : conjugate_auxiliaries D [a3, p, f] K t2 = .ok L)
    (hS : S ∈ L) :
    ∃ H, pyFlatMapM
      (fun a3 =>
        pyFlatMapM
          (fun p =>
            pyFlatMapM
              (fun f =>
                pyFlatMapM
                  (fun c =>
                    tryCombo S [a3, p, f] c
                      (conjugate_auxiliaries D [a3, p, f] c t2))
                  Conjugation.all)
              depth3Finals)
          penultimates)
      antepenultimates = .ok H ∧ VerbDeconjugated.mk [a3, p, f] K L ∈ H := by
  obtain ⟨H, hH⟩ := pyFlatMapM_isOk _ antepenultimates fun a' _ =>
    pyFlatMapM_isOk _ penultimates fun p' _ =>
      pyFlatMapM_isOk _ depth3Finals fun f' _ =>
        pyFlatMapM_isOk _ Conjugation.all fun c _ =>
          tryCombo_isOk
            (conjugate_auxiliaries_okOrVE D [a', p', f'] c t2 hD)
            S [a', p', f'] c
  refine ⟨H, hH, ?_⟩
  obtain ⟨Hc, hHc⟩ := pyFlatMapM_isOk
    (fun c => tryCombo S [a3, p, f] c
      (conjugate_auxiliaries D [a3, p, f] c t2))
    Conjugation.all fun c _ =>
      tryCombo_isOk (conjugate_auxiliaries_okOrVE D [a3, p, f] c t2 hD)
        S [a3, p, f] c
  obtain ⟨Hf, hHf⟩ := pyFlatMapM_isOk
    (fun f =>
      pyFlatMapM
        (fun c => tryCombo S [a3, p, f] c
          (conjugate_auxiliaries D [a3, p, f] c t2))
        Conjugation.all)
    depth3Finals fun f' _ =>
      pyFlatMapM_isOk _ Conjugation.all fun c _ =>
        tryCombo_isOk (conjugate_auxiliaries_okOrVE D [a3, p, f'] c t2 hD)
          S [a3, p, f'] c
  obtain ⟨Hp, hHp⟩ := pyFlatMapM_isOk
    (fun p =>
      pyFlatMapM
        (fun f =>
          pyFlatMapM
            (fun c => tryCombo S [a3, p, f] c
              (conjugate_auxiliaries D [a3, p, f] c t2))
            Conjugation.all)
        depth3Finals)
    penultimates fun p' _ =>
      pyFlatMapM_isOk _ depth3Finals fun f' _ =>
        pyFlatMapM_isOk _ Conjugation.all fun c _ =>
          tryCombo_isOk
            (conjugate_auxiliaries_okOrVE D [a3, p', f'] c t2 hD)
            S [a3, p', f'] c
  have hmemc : VerbDeconjugated.mk [a3, p, f] K L ∈ Hc :=
    pyFlatMapM_mem hHc (conjugation_mem_all K)
      (tryCombo_hit [a3, p, f] K hattempt hS) _ (by simp)
  have hmemf : VerbDeconjugated.mk [a3, p, f] K L ∈ Hf :=
    pyFlatMapM_mem hHf hf hHc _ hmemc
  have hmemp : VerbDeconjugated.mk [a3, p, f] K L ∈ Hp :=
    pyFlatMapM_mem hHp hp hHf _ hmemf
  exact pyFlatMapM_mem hH ha3 hHp _ hmemp

theorem deconjugate_mem (S V : String) (t2 : Bool) (d : Nat)
    {H0 H1 H2 H3 : List VerbDeconjugated}
    (h0 : pyFlatMapM (fun c => tryCombo S [] c (conjugate V c t2))
      Conjugation.all = .ok H0)
    (h1 : pyFlatMapM
      (fun a =>
        pyFlatMapM
          (fun c => tryCombo S [a] c (conjugate_auxiliary V a c t2))
          Conjugation.all)
      Auxiliary.all = .ok H1)
    (h2 : pyFlatMapM
      (fun p =>
        pyFlatMapM
          (fun f =>
            pyFlatMapM
              (fun c =>
                tryCombo S [p, f] c (conjugate_auxiliaries V [p, f] c t2))
              Conjugation.all)
          depth2Finals)
      penultimates = .ok H2)
    (h3 : pyFlatMapM
      (fun a3 =>
        pyFlatMapM
          (fun p =>
            pyFlatMapM
              (fun f =>
                pyFlatMapM
                  (fun c =>
                    tryCombo S [a3, p, f] c
                      (conjugate_auxiliaries V [a3, p, f] c t2))
                  Conjugation.all)
              depth3Finals)
          penultimates)
      antepenultimates = .ok H3)
    (x : VerbDeconjugated)
    (hx : x ∈ H0 ∨ (1 ≤ d ∧ x ∈ H1) ∨ (2 ≤ d ∧ x ∈ H2) ∨
      (3 ≤ d ∧ x ∈ H3)) :
    ∃ hits, deconjugate_verb S V t2 d = .ok hits ∧ x ∈ hits := by
  unfold deconjugate_verb
  rw [h0]
  simp only [pyBind]
  by_cases hd1 : d < 1
  · rw [if_pos hd1]
    refine ⟨H0, rfl, ?_⟩
    rcases hx with hx | ⟨hD, _⟩ | ⟨hD, _⟩ | ⟨hD, _⟩
    · exact hx
    all_goals omega
  · rw [if_neg hd1, h1]
    simp only [pyBind]
    by_cases hd2 : d < 2
    · rw [if_pos hd2]
      refine ⟨H0 ++ H1, rfl, ?_⟩
      rcases hx with hx | ⟨_, hx⟩ | ⟨hD, _⟩ | ⟨hD, _⟩
      · exact List.mem_append_left _ hx
      · exact List.mem_append_right _ hx
      all_goals omega
    · rw [if_neg hd2, h2]
      simp only [pyBind]
      by_cases hd3 : d < 3
      · rw [if_pos hd3]
        refine ⟨H0 ++ H1 ++ H2, rfl, ?_⟩
        rcases hx with hx | ⟨_, hx⟩ | ⟨_, hx⟩ | ⟨hD, _⟩
        · exact List.mem_append_left _ (List.mem_append_left _ hx)
        · exact List.mem_append_left _ (List.mem_append_right _ hx)
        · exact List.mem_append_right _ hx
        · omega
      · rw [if_neg hd3, h3]
        simp only [pyBind]
        refine ⟨H0 ++ H1 ++ H2 ++ H3, rfl, ?_⟩
        rcases hx with hx | ⟨_, hx⟩ | ⟨_, hx⟩ | ⟨_, hx⟩
        · exact List.mem_append_left _
            (List.mem_append_left _ (List.mem_append_left _ hx))
        · exact List.mem_append_left _
            (List.mem_append_left _ (List.mem_append_right _ hx))
        · exact List.mem_append_left _ (List.mem_append_right _ hx)
        · exact List.mem_append_right _ hx

/-- The chain shapes the deconjugation search enumerates. -/
def ChainAdmissible (CH : List Auxiliary) : Prop :=
  CH = [] ∨ (∃ a, CH = [a]) ∨
  (∃ p f, CH = [p, f] ∧ p ∈ penultimates ∧ f ∈ depth2Finals) ∨
  (∃ a3 p f, CH = [a3, p, f] ∧ a3 ∈ antepenultimates ∧
    p ∈ penultimates ∧ f ∈ depth3Finals)

/-- C1 amended: the round trip holds for every non-copula verb and every
auxiliary chain of a shape the deconjugation search actually enumerates —
the forward surface set is non-empty, and deconjugating any of its
surfaces at depth at least the chain length yields a hit whose auxiliaries
equal the chain and whose conjugation equals the terminal conjugation. -/
theorem C1_amended_round_trip (V : String) (CH : List Auxiliary)
    (K : Conjugation) (t2 : Bool) (d : Nat) (L : List String)
    (hV : V ≠ "") (hda : V ≠ "だ") (hdesu : V ≠ "です")
    (hadm : ChainAdmissible CH) (hd : CH.length ≤ d)
    (hok : conjugate_auxiliaries V CH K t2 = .ok L) :
    L ≠ [] ∧ ∀ S ∈ L,
      ∃ hits, deconjugate_verb S V t2 d = .ok hits ∧
        VerbDeconjugated.mk CH K L ∈ hits := by
  constructor
  · cases CH with
    | nil => exact conjugate_nonnil _ _ _ _ hok
    | cons a rest =>
      exact (conjugate_auxiliaries_goodList (List.cons_ne_nil _ _) hV
        hok).1
  intro S hS
  obtain ⟨H0, h0⟩ := pyFlatMapM_isOk _ Conjugation.all fun c _ =>
    tryCombo_isOk (conjugate_okOrVE V c t2 hV) S [] c
  obtain ⟨H1, h1⟩ := pyFlatMapM_isOk _ Auxiliary.all fun a _ =>
    pyFlatMapM_isOk _ Conjugation.all fun c _ =>
      tryCombo_isOk (conjugate_auxiliary_okOrVE V a c t2 hV) S [a] c
  obtain ⟨H2, h2⟩ := pyFlatMapM_isOk _ penultimates fun p _ =>
    pyFlatMapM_isOk _ depth2Finals fun f _ =>
      pyFlatMapM_isOk _ Conjugation.all fun c _ =>
        tryCombo_isOk (conjugate_auxiliaries_okOrVE V [p, f] c t2 hV)
          S [p, f] c
  obtain ⟨H3, h3⟩ := pyFlatMapM_isOk _ antepenultimates fun a3 _ =>
    pyFlatMapM_isOk _ penultimates fun p _ =>
      pyFlatMapM_isOk _ depth3Finals fun f _ =>
        pyFlatMapM_isOk _ Conjugation.all fun c _ =>
          tryCombo_isOk
            (conjugate_auxiliaries_okOrVE V [a3, p, f] c t2 hV)
            S [a3, p, f] c
  rcases hadm with hnil | ⟨a, ha⟩ | ⟨p, f, hpf, hp, hf⟩ |
    ⟨a3, p, f, h3f, ha3, hp, hf⟩
  · subst hnil
    rcases depth0_hit S V K t2 L hV hok hS with ⟨H0', h0', hmem⟩
    have heq : H0' = H0 := Except.ok.inj (h0'.symm.trans h0)
    subst heq
    exact deconjugate_mem S V t2 d h0 h1 h2 h3 _ (Or.inl hmem)
  · subst ha
    have hatt := conjugate_auxiliaries_single hda hdesu hok
    rcases depth1_hit S V a K t2 L hV hatt hS with ⟨H1', h1', hmem⟩
    have heq : H1' = H1 := Except.ok.inj (h1'.symm.trans h1)
    subst heq
    have hd1 : 1 ≤ d := by simpa using hd
    exact deconjugate_mem S V t2 d h0 h1 h2 h3 _
      (Or.inr (Or.inl ⟨hd1, hmem⟩))
  · subst hpf
    rcases depth2_hit S V p f K t2 L hV hp hf hok hS with
      ⟨H2', h2', hmem⟩
    have heq : H2' = H2 := Except.ok.inj (h2'.symm.trans h2)
    subst heq
    have hd2 : 2 ≤ d := by simpa using hd
    exact deconjugate_mem S V t2 d h0 h1 h2 h3 _
      (Or.inr (Or.inr (Or.inl ⟨hd2, hmem⟩)))
  · subst h3f
    rcases depth3_hit S V a3 p f K t2 L hV ha3 hp hf hok hS with
      ⟨H3', h3', hmem⟩
    have heq : H3' = H3 := Except.ok.inj (h3'.symm.trans h3)
    subst heq
    have hd3 : 3 ≤ d := by simpa using hd
    exact deconjugate_mem S V t2 d h0 h1 h2 h3 _
      (Or.inr (Or.inr (Or.inr ⟨hd3, hmem⟩)))

/-- C1 counterexample: the copula だ with auxiliary chain [NAI] and
terminal TA is accepted by the forward engine (surfaces ではなかった and
じゃなかった), yet deconjugating the surface ではなかった against だ at
depth 1 yields no hit at all: the search rebuilds chains through the
generic auxiliary path, which never reproduces the special-cased copula
surfaces. -/
theorem C1_counterexample_copula_round_trip :
    conjugate_auxiliaries "だ" [Auxiliary.nai] Conjugation.ta false =
      .ok ["ではなかった", "じゃなかった"] ∧
    "ではなかった" ∈ (["ではなかった", "じゃなかった"] : List String) ∧
    deconjugate_verb "ではなかった" "だ" false 1 = .ok [] :=
  ⟨rfl, by decide, rfl⟩

theorem C1_amended_round_trip_witness :
    (("食べる" : String) ≠ "" ∧ ("食べる" : String) ≠ "だ" ∧
     ("食べる" : String) ≠ "です" ∧
     ChainAdmissible [Auxiliary.reruRareru, Auxiliary.nai] ∧
     ([Auxiliary.reruRareru, Auxiliary.nai].length ≤ 2) ∧
     conjugate_auxiliaries "食べる" [Auxiliary.reruRareru, Auxiliary.nai]
       Conjugation.ta true = .ok ["食べられなかった"]) ∧
    (["食べられなかった"] ≠ ([] : List String) ∧
     ∀ S ∈ (["食べられなかった"] : List String),
       ∃ hits, deconjugate_verb S "食べる" true 2 = .ok hits ∧
         VerbDeconjugated.mk [Auxiliary.reruRareru, Auxiliary.nai]
           Conjugation.ta ["食べられなかった"] ∈ hits) :=
  ⟨⟨by decide, by decide, by decide,
    Or.inr (Or.inr (Or.inl ⟨_, _, rfl, by decide, by decide⟩)),
    by decide, rfl⟩,
   C1_amended_round_trip "食べる" [Auxiliary.reruRareru, Auxiliary.nai]
     Conjugation.ta true 2 ["食べられなかった"] (by decide) (by decide)
     (by decide)
     (Or.inr (Or.inr (Or.inl ⟨_, _, rfl, by decide, by decide⟩)))
     (by decide) rfl⟩
